import Mathlib

/-!
# claude-squad: the project registry and the preview pane

A shallow embedding of `ProjectManager` (`project/manager.go`) and of
`PreviewPane` (`ui/preview.go`), and the proofs of their contracts.

Go pointers are modelled with an explicit object store: a `*Project` is an
address (`Ptr`), and `ProjectManager.heap` maps every address to the object
it holds.  The map `projects` and the field `activeProject` hold addresses,
so a mutation through one alias is seen through the other, as in Go.

What does not belong to the two files is an input of the model: the clock,
the file system, the outcome of each storage call, what an instance answers,
how text is rendered.
-/

namespace ClaudeSquad

/-- A `time.Time`, as a reading of the clock in ticks. -/
abbrev Time := Nat

/-- The value of a Go `*Project`: the address of a `Project` object. -/
abbrev Ptr := Nat

/-- A Go `error` value: `msg` is `fmt.Errorf` without `%w`, `wrap` is
`fmt.Errorf(text + "%w", cause)`. -/
inductive Err where
  | msg (text : String)
  | wrap (text : String) (cause : Err)
  deriving DecidableEq, Repr

/-- Modelled from the spec: the `Project` record (project.go is not among the
sources).  Fields as in section 3 and in the JSON shape of section 6: id, path,
name, active, lastAccessed, instances. -/
structure Project where
  ID : String
  Name : String
  Path : String
  LastAccessed : Time
  IsActive : Bool
  Instances : List String
  deriving DecidableEq, Repr, Inhabited

/-- Modelled from the spec: `Project.SetActive` (project.go is not among the
sources).  "lastAccessed: timestamp, updated whenever the project becomes
active". -/
def Project.SetActive (p : Project) (now : Time) : Project :=
  { p with IsActive := true, LastAccessed := now }

/-- Modelled from the spec: `Project.SetInactive` (project.go is not among the
sources): clears the activity flag. -/
def Project.SetInactive (p : Project) : Project :=
  { p with IsActive := false }

/-- Modelled from the spec: `Project.AddInstance` (project.go is not among the
sources).  "instances: ordered sequence of instance IDs (insertion order), no
duplicates". -/
def Project.AddInstance (p : Project) (instanceID : String) : Project :=
  if instanceID ∈ p.Instances then p
  else { p with Instances := p.Instances ++ [instanceID] }

/-- Modelled from the spec: `Project.RemoveInstance` (project.go is not among
the sources).  Reports whether the instance ID was in the list; when it was,
the ID is taken out and the order of the others is kept. -/
def Project.RemoveInstance (p : Project) (instanceID : String) : Bool × Project :=
  if instanceID ∈ p.Instances then
    (true, { p with Instances := p.Instances.filter (fun i => i ≠ instanceID) })
  else (false, p)

/-- A `json.RawMessage` holding a project set.  `none` is the message of length
zero; `some members` is the JSON object whose members are listed, each project
ID with its project record (section 6 of the spec).  The text of the JSON is
not modelled: `json.Marshal` and `json.Unmarshal` are the passage between the
Go map and this list. -/
abbrev RawMessage := Option (List (String × Project))

/-- The calls `manager.go` makes on its `ProjectStorage`. -/
inductive StorageCall where
  | SaveProjects (projectsJSON : List (String × Project))
  | GetProjects
  | DeleteProject (projectID : String)
  | SetActiveProject (projectID : String)
  | GetActiveProject
  | GetProjectHistory
  deriving DecidableEq, Repr

/-- Modelled from the spec: a `ProjectStorage` (the interface is declared in
manager.go, its implementations are not among the sources).  Section 6: the
project set as one JSON object, and "a single string marker, empty string
meaning no active project".  `calls` records every call received, oldest
first. -/
structure Storage where
  projectsJSON : RawMessage
  activeProject : String
  calls : List StorageCall
  deriving DecidableEq, Repr

/-- What the surroundings answer during one call of a `ProjectManager` method:
the clock, `path/filepath`, `os.Stat`, `NewProject`, `Project.Validate`, and for
each storage method the error it returns (`none` is `nil`).  No method of the
manager calls the same storage method twice. -/
structure Env where
  /-- The reading of `time.Now()`; a call is taken to be instantaneous. -/
  now : Time
  /-- The function `filepath.Clean`. -/
  Clean : String → String
  /-- The function `filepath.IsAbs`. -/
  IsAbs : String → Bool
  /-- Whether `os.IsNotExist` holds of the error of `os.Stat` on the path. -/
  notExist : String → Bool
  /-- Whether the path is on disk.  On a path that is not on disk `os.Stat`
  fails, with an error of which `os.IsNotExist` holds (ENOENT) or with another
  one (ENOTDIR, when a component of the path is a file). -/
  onDisk : String → Bool
  /-- The error of `NewProject`, if it refuses its arguments. -/
  newProjectErr : Option Err
  /-- The identifier `NewProject` assigns. -/
  newID : String
  /-- The method `Project.Validate`. -/
  Validate : Project → Option Err
  /-- The error of `storage.SaveProjects`. -/
  saveErr : Option Err
  /-- The error of `storage.DeleteProject`. -/
  deleteErr : Option Err
  /-- The error of `storage.SetActiveProject`. -/
  setActiveErr : Option Err

/-- Modelled from the spec: `storage.SaveProjects` (no implementation is among
the sources).  A successful call replaces the stored project set; a failing
call stores nothing. -/
def Storage.SaveProjects (st : Storage) (projectsJSON : List (String × Project))
    (fail : Option Err) : Storage × Option Err :=
  match fail with
  | some e => ({ st with calls := st.calls ++ [StorageCall.SaveProjects projectsJSON] }, some e)
  | none =>
      ({ st with projectsJSON := some projectsJSON,
                 calls := st.calls ++ [StorageCall.SaveProjects projectsJSON] }, none)

/-- Modelled from the spec: `storage.DeleteProject` (no implementation is among
the sources).  "removes any stored trace of a single project"; a failing call
removes nothing. -/
def Storage.DeleteProject (st : Storage) (projectID : String)
    (fail : Option Err) : Storage × Option Err :=
  match fail with
  | some e => ({ st with calls := st.calls ++ [StorageCall.DeleteProject projectID] }, some e)
  | none =>
      ({ st with projectsJSON := st.projectsJSON.map (fun ms => ms.filter (fun m => m.1 ≠ projectID)),
                 calls := st.calls ++ [StorageCall.DeleteProject projectID] }, none)

/-- Modelled from the spec: `storage.SetActiveProject` (no implementation is
among the sources).  A successful call replaces the marker; a failing call
leaves it. -/
def Storage.SetActiveProject (st : Storage) (projectID : String)
    (fail : Option Err) : Storage × Option Err :=
  match fail with
  | some e => ({ st with calls := st.calls ++ [StorageCall.SetActiveProject projectID] }, some e)
  | none =>
      ({ st with activeProject := projectID,
                 calls := st.calls ++ [StorageCall.SetActiveProject projectID] }, none)

/-- Modelled from the spec: `storage.GetProjects` (no implementation is among
the sources): the stored project set. -/
def Storage.GetProjects (st : Storage) : Storage × RawMessage :=
  ({ st with calls := st.calls ++ [StorageCall.GetProjects] }, st.projectsJSON)

/-- Modelled from the spec: `storage.GetActiveProject` (no implementation is
among the sources): the stored marker. -/
def Storage.GetActiveProject (st : Storage) : Storage × String :=
  ({ st with calls := st.calls ++ [StorageCall.GetActiveProject] }, st.activeProject)

/-- Modelled from the spec: `NewProject` (project.go is not among the sources).
A project with the assigned identifier, the given path and name, not active,
no instances, accessed now; the checks `NewProject` makes on its arguments
are not described, so its refusal is an input. -/
def NewProject (w : Env) (path name : String) : Except Err Project :=
  match w.newProjectErr with
  | some e => Except.error e
  | none =>
      Except.ok { ID := w.newID, Name := name, Path := path, LastAccessed := w.now,
                  IsActive := false, Instances := [] }

/-! ## Go maps `map[string]*Project`

A map is the list of its entries.  `mapGet` is `m[k]`, `mapSet` is `m[k] = v`,
`mapDelete` is `delete(m, k)`, `List.length` is `len(m)`.  A `range` loop visits
the entries in list order (Go leaves the order open). -/

/-- The Go expression `m[k]` with its `ok` flag: `none` when `k` is not a key. -/
def mapGet (m : List (String × Ptr)) (k : String) : Option Ptr :=
  match m with
  | [] => none
  | (k', v) :: rest => if k' = k then some v else mapGet rest k

/-- The Go statement `m[k] = v`. -/
def mapSet (m : List (String × Ptr)) (k : String) (v : Ptr) : List (String × Ptr) :=
  match m with
  | [] => [(k, v)]
  | (k', v') :: rest => if k' = k then (k, v) :: rest else (k', v') :: mapSet rest k v

/-- The Go statement `delete(m, k)`. -/
def mapDelete (m : List (String × Ptr)) (k : String) : List (String × Ptr) :=
  m.filter (fun e => e.1 ≠ k)

/-- Assignment through a pointer: the store with the object at `p` replaced. -/
def heapSet (h : Ptr → Project) (p : Ptr) (v : Project) : Ptr → Project :=
  fun q => if q = p then v else h q

/-- The struct `ProjectManager` (manager.go:25).  `heap` and `next` are the
object store and the next free address; the field `history` is left out, no
method below reads it. -/
structure ProjectManager where
  heap : Ptr → Project
  next : Ptr
  projects : List (String × Ptr)
  activeProject : Option Ptr
  storage : Storage

/-- The value of `json.Marshal(pm.projects)` in `saveProjects` (manager.go:288):
each key with the record of the project it points to. -/
def ProjectManager.marshal (pm : ProjectManager) : List (String × Project) :=
  pm.projects.map (fun e => (e.1, pm.heap e.2))

/-- The method `saveProjects` (manager.go:287).  `json.Marshal` of a map of
project records is taken not to fail. -/
def ProjectManager.saveProjects (w : Env) (pm : ProjectManager) : ProjectManager × Option Err :=
  let r := pm.storage.SaveProjects pm.marshal w.saveErr
  ({ pm with storage := r.1 }, r.2)

/-- The method `SetActiveProject` (manager.go:114). -/
def ProjectManager.SetActiveProject (w : Env) (pm : ProjectManager) (projectID : String) :
    ProjectManager × Option Err :=
  match mapGet pm.projects projectID with
  | none => (pm, some (Err.msg ("project not found: " ++ projectID)))
  | some project =>
      -- Deactivate current active project
      let heap1 := match pm.activeProject with
        | some a => heapSet pm.heap a (pm.heap a).SetInactive
        | none => pm.heap
      -- Set new active project
      let heap2 := heapSet heap1 project ((heap1 project).SetActive w.now)
      -- Save to storage
      let r := pm.storage.SetActiveProject projectID w.setActiveErr
      let pm' := { pm with heap := heap2, activeProject := some project, storage := r.1 }
      match r.2 with
      | some e => (pm', some (Err.wrap "failed to save active project: " e))
      | none => (pm', none)

/-- The loop of `AddProject` over the map (manager.go:64): the first entry, in
the order of the loop, whose project has the path `cleanPath`. -/
def ProjectManager.findByPath (pm : ProjectManager) (cleanPath : String) : Option (String × Ptr) :=
  pm.projects.find? (fun e => decide ((pm.heap e.2).Path = cleanPath))

/-- The method `AddProject` (manager.go:59).  The result is the pair
`(*Project, error)`.  The object made by `NewProject` receives its address
when it enters the map. -/
def ProjectManager.AddProject (w : Env) (pm : ProjectManager) (path name : String) :
    ProjectManager × Option Ptr × Option Err :=
  let cleanPath := w.Clean path
  match pm.findByPath cleanPath with
  | some e =>
      -- Reactivate existing project
      let existing := e.2
      let pm1 := { pm with heap := heapSet pm.heap existing
                                     { pm.heap existing with LastAccessed := w.now } }
      let pm2 := (pm1.SetActiveProject w (pm1.heap existing).ID).1
      (pm2, some existing, none)
  | none =>
      match NewProject w cleanPath name with
      | Except.error err => (pm, none, some (Err.wrap "failed to create project: " err))
      | Except.ok proj =>
          if w.notExist proj.Path then
            (pm, none, some (Err.msg ("project path does not exist: " ++ proj.Path)))
          else
            -- Add to manager
            let project := pm.next
            let pm1 := { pm with heap := heapSet pm.heap project proj, next := pm.next + 1,
                                 projects := mapSet pm.projects proj.ID project }
            -- If this is the first project, make it active
            let pm2 := if pm1.projects.length = 1 then (pm1.SetActiveProject w proj.ID).1 else pm1
            -- Save to storage
            let r := pm2.saveProjects w
            match r.2 with
            | some err =>
                ({ r.1 with projects := mapDelete r.1.projects proj.ID }, none,
                  some (Err.wrap "failed to save project: " err))
            | none => (r.1, some project, none)

/-- The manager inside `AddProject` when it reaches the save (manager.go:93):
the new project is in the map and, if it is the only one, has been made
active. -/
def ProjectManager.beforeSave (w : Env) (pm : ProjectManager) (path name : String) :
    ProjectManager :=
  let proj : Project :=
    { ID := w.newID, Name := name, Path := w.Clean path, LastAccessed := w.now,
      IsActive := false, Instances := [] }
  let pm1 := { pm with heap := heapSet pm.heap pm.next proj, next := pm.next + 1,
                       projects := mapSet pm.projects proj.ID pm.next }
  if pm1.projects.length = 1 then (pm1.SetActiveProject w proj.ID).1 else pm1

/-- The method `GetProject` (manager.go:103). -/
def ProjectManager.GetProject (pm : ProjectManager) (projectID : String) : Option Ptr :=
  mapGet pm.projects projectID

/-- The method `GetActiveProject` (manager.go:109). -/
def ProjectManager.GetActiveProject (pm : ProjectManager) : Option Ptr :=
  pm.activeProject

/-- The first step of `RemoveProject` (manager.go:171): if the active project
has the ID to remove, the active pointer becomes nil and
`storage.SetActiveProject("")` is called, its error dropped. -/
def ProjectManager.clearIfActive (w : Env) (pm : ProjectManager) (projectID : String) :
    ProjectManager :=
  let isActive : Bool := match pm.activeProject with
    | some a => decide ((pm.heap a).ID = projectID)
    | none => false
  if isActive then
    { pm with activeProject := none,
              storage := (pm.storage.SetActiveProject "" w.setActiveErr).1 }
  else pm

/-- The method `RemoveProject` (manager.go:164). -/
def ProjectManager.RemoveProject (w : Env) (pm : ProjectManager) (projectID : String) :
    ProjectManager × Option Err :=
  match mapGet pm.projects projectID with
  | none => (pm, some (Err.msg ("project not found: " ++ projectID)))
  | some project =>
      -- If this is the active project, clear active state
      let pm1 := pm.clearIfActive w projectID
      -- Remove from memory
      let pm2 := { pm1 with projects := mapDelete pm1.projects projectID }
      -- Remove from storage
      let r := pm2.storage.DeleteProject projectID w.deleteErr
      let pm3 := { pm2 with storage := r.1 }
      match r.2 with
      | some err =>
          ({ pm3 with projects := mapSet pm3.projects projectID project },
            some (Err.wrap "failed to delete project from storage: " err))
      | none =>
          -- Save updated projects
          let r2 := pm3.saveProjects w
          match r2.2 with
          | some err =>
              ({ r2.1 with projects := mapSet r2.1.projects projectID project },
                some (Err.wrap "failed to save projects after deletion: " err))
          | none => (r2.1, none)

/-- The method `GetProjectInstances` (manager.go:217): the pair
`([]string, error)`. -/
def ProjectManager.GetProjectInstances (pm : ProjectManager) (projectID : String) :
    Option (List String) × Option Err :=
  match mapGet pm.projects projectID with
  | none => (none, some (Err.msg ("project not found: " ++ projectID)))
  | some project => (some (pm.heap project).Instances, none)

/-- The method `AddInstanceToProject` (manager.go:230). -/
def ProjectManager.AddInstanceToProject (w : Env) (pm : ProjectManager)
    (projectID instanceID : String) : ProjectManager × Option Err :=
  match mapGet pm.projects projectID with
  | none => (pm, some (Err.msg ("project not found: " ++ projectID)))
  | some project =>
      let pm1 := { pm with heap := heapSet pm.heap project
                                     ((pm.heap project).AddInstance instanceID) }
      pm1.saveProjects w

/-- The method `RemoveInstanceFromProject` (manager.go:243). -/
def ProjectManager.RemoveInstanceFromProject (w : Env) (pm : ProjectManager)
    (projectID instanceID : String) : ProjectManager × Option Err :=
  match mapGet pm.projects projectID with
  | none => (pm, some (Err.msg ("project not found: " ++ projectID)))
  | some project =>
      let r := (pm.heap project).RemoveInstance instanceID
      if r.1 then
        let pm1 := { pm with heap := heapSet pm.heap project r.2 }
        pm1.saveProjects w
      else
        (pm, some (Err.msg ("instance not found in project: " ++ instanceID)))

/-- The method `ProjectCount` (manager.go:258). -/
def ProjectManager.ProjectCount (pm : ProjectManager) : Nat :=
  pm.projects.length

/-- Modelled from the spec: `storage.GetProjectHistory` (no implementation is
among the sources).  The history itself is not modelled, only the call. -/
def Storage.GetProjectHistory (st : Storage) : Storage :=
  { st with calls := st.calls ++ [StorageCall.GetProjectHistory] }

/-- The effect of `json.Unmarshal(projectsJSON, &projects)` (manager.go:271):
each member of the object, in order, becomes a new `Project` object stored
under the member's key; a key that occurs again replaces the earlier entry.
`acc` is the map built so far. -/
def unmarshal (members : List (String × Project)) (heap : Ptr → Project) (next : Ptr)
    (acc : List (String × Ptr)) : (Ptr → Project) × Ptr × List (String × Ptr) :=
  match members with
  | [] => (heap, next, acc)
  | (k, v) :: rest => unmarshal rest (heapSet heap next v) (next + 1) (mapSet acc k next)

/-- The validation loop of `loadProjects` (manager.go:276): the error for the
first project, in the order of the loop, that `Validate` refuses. -/
def validateAll (w : Env) (heap : Ptr → Project) (m : List (String × Ptr)) : Option Err :=
  match m with
  | [] => none
  | (id, project) :: rest =>
      match w.Validate (heap project) with
      | some err => some (Err.wrap ("invalid project " ++ id ++ ": ") err)
      | none => validateAll w heap rest

/-- The method `loadProjects` (manager.go:263).  A stored message is held
decoded (`RawMessage`), so the failure of `json.Unmarshal` on malformed text
has no counterpart here. -/
def ProjectManager.loadProjects (w : Env) (pm : ProjectManager) : ProjectManager × Option Err :=
  let g := pm.storage.GetProjects
  let pm0 := { pm with storage := g.1 }
  match g.2 with
  | none => ({ pm0 with projects := [] }, none)
  | some members =>
      let u := unmarshal members pm0.heap pm0.next []
      let pm1 := { pm0 with heap := u.1, next := u.2.1 }
      -- Validate loaded projects
      match validateAll w pm1.heap u.2.2 with
      | some err => (pm1, some err)
      | none => ({ pm1 with projects := u.2.2 }, none)

/-- The method `setActiveProjectByID` (manager.go:138). -/
def ProjectManager.setActiveProjectByID (w : Env) (pm : ProjectManager) (projectID : String) :
    ProjectManager :=
  match mapGet pm.projects projectID with
  | none => pm
  | some project =>
      let heap1 := match pm.activeProject with
        | some a => heapSet pm.heap a (pm.heap a).SetInactive
        | none => pm.heap
      { pm with heap := heapSet heap1 project ((heap1 project).SetActive w.now),
                activeProject := some project }

/-- The function `NewProjectManager` (manager.go:33); `none` is the nil
storage. -/
def NewProjectManager (w : Env) (storage : Option Storage) : Except Err ProjectManager :=
  match storage with
  | none => Except.error (Err.msg "storage cannot be nil")
  | some st =>
      let pm : ProjectManager :=
        { heap := fun _ => default, next := 0, projects := [], activeProject := none,
          storage := st.GetProjectHistory }
      -- Load existing projects from storage
      let l := pm.loadProjects w
      match l.2 with
      | some err => Except.error (Err.wrap "failed to load projects: " err)
      | none =>
          -- Set active project if one was stored
          let a := l.1.storage.GetActiveProject
          let pm1 := { l.1 with storage := a.1 }
          if a.2 ≠ "" then Except.ok (pm1.setActiveProjectByID w a.2) else Except.ok pm1

/-! ## Sequences of calls and the properties claimed of a manager -/

/-- A call of one of the mutating registry methods. -/
inductive Op where
  | AddProject (path name : String)
  | SetActiveProject (projectID : String)
  | RemoveProject (projectID : String)
  | AddInstanceToProject (projectID instanceID : String)
  | RemoveInstanceFromProject (projectID instanceID : String)
  deriving DecidableEq, Repr

/-- The manager after one call, whatever the call returned. -/
def ProjectManager.step (w : Env) (pm : ProjectManager) (op : Op) : ProjectManager :=
  match op with
  | Op.AddProject path name => (pm.AddProject w path name).1
  | Op.SetActiveProject projectID => (pm.SetActiveProject w projectID).1
  | Op.RemoveProject projectID => (pm.RemoveProject w projectID).1
  | Op.AddInstanceToProject projectID instanceID =>
      (pm.AddInstanceToProject w projectID instanceID).1
  | Op.RemoveInstanceFromProject projectID instanceID =>
      (pm.RemoveInstanceFromProject w projectID instanceID).1

/-- The manager after a sequence of calls, each with its own surroundings. -/
def ProjectManager.run (pm : ProjectManager) (calls : List (Env × Op)) : ProjectManager :=
  calls.foldl (fun s c => s.step c.1 c.2) pm

/-- A storage that holds nothing: no project set, no active marker. -/
def Storage.empty : Storage :=
  { projectsJSON := none, activeProject := "", calls := [] }

/-- The manager `NewProjectManager` builds on the empty storage. -/
def ProjectManager.fresh : ProjectManager :=
  { heap := fun _ => default, next := 0, projects := [], activeProject := none,
    storage := { projectsJSON := none, activeProject := "",
                 calls := [StorageCall.GetProjectHistory, StorageCall.GetProjects,
                           StorageCall.GetActiveProject] } }

/-- The number of projects in the registry whose active flag is true. -/
def ProjectManager.activeCount (pm : ProjectManager) : Nat :=
  (pm.projects.filter (fun e => (pm.heap e.2).IsActive)).length

/-- The in-memory project set: each key of the registry with the record of its
project (ID, path, name, active flag, lastAccessed, instances). -/
def ProjectManager.projectSet (pm : ProjectManager) : List (String × Project) :=
  pm.marshal

/-- Surroundings in which every path is clean, absolute and on disk,
`NewProject` and `Validate` accept, and every storage call succeeds; `now` is
the clock and `newID` the identifier `NewProject` assigns. -/
def Env.allSucceed (now : Time) (newID : String) : Env :=
  { now := now, Clean := fun p => p, IsAbs := fun _ => true, notExist := fun _ => false,
    onDisk := fun _ => true, newProjectErr := none, newID := newID, Validate := fun _ => none,
    saveErr := none, deleteErr := none, setActiveErr := none }


/-- The surroundings of `Env.allSucceed`, except that `storage.SaveProjects`
fails. -/
def Env.saveFails (now : Time) (newID : String) : Env :=
  { Env.allSucceed now newID with saveErr := some (Err.msg "disk full") }

/-- The surroundings of `Env.allSucceed`, except that `storage.DeleteProject`
fails. -/
def Env.deleteFails (now : Time) (newID : String) : Env :=
  { Env.allSucceed now newID with deleteErr := some (Err.msg "disk full") }

/-- The surroundings of `Env.allSucceed`, except that
`storage.SetActiveProject` fails. -/
def Env.setActiveFails (now : Time) (newID : String) : Env :=
  { Env.allSucceed now newID with setActiveErr := some (Err.msg "disk full") }

/-- The surroundings of `Env.allSucceed`, except that `/etc/passwd/x` is not on
disk: `/etc/passwd` is a file, so `os.Stat` fails there with ENOTDIR, an error
of which `os.IsNotExist` does not hold. -/
def Env.notADirectory (now : Time) (newID : String) : Env :=
  { Env.allSucceed now newID with onDisk := fun p => decide (p ≠ "/etc/passwd/x") }

/-- The exactly-one-active invariant of section 3: at most one project of the
registry is flagged active, and the active pointer, when not nil, is a project
of the registry that is flagged active. -/
def ProjectManager.oneActive (pm : ProjectManager) : Bool :=
  decide (pm.activeCount ≤ 1) &&
    match pm.activeProject with
    | none => true
    | some a => pm.projects.any (fun e => decide (e.2 = a)) && (pm.heap a).IsActive

/-- The active pointer is nil or is the entry of the map under its own ID. -/
def ProjectManager.activeInMap (pm : ProjectManager) : Bool :=
  match pm.activeProject with
  | none => true
  | some a => decide (mapGet pm.projects (pm.heap a).ID = some a)

/-- A registry of two projects, `A` (the active one) and `B`, built by two
successful `AddProject` calls on the fresh manager. -/
def ProjectManager.twoProjects : ProjectManager :=
  ProjectManager.fresh.run
    [(Env.allSucceed 1 "A", Op.AddProject "/a" "a"), (Env.allSucceed 2 "B", Op.AddProject "/b" "b")]

/-- The project set obtained by loading what the storage holds: the registry,
as values, of a manager that runs `loadProjects` on that storage; `none` when
`loadProjects` returns an error. -/
def loadedProjectSet (w : Env) (st : Storage) : Option (List (String × Project)) :=
  let l := ProjectManager.loadProjects w
    { heap := fun _ => default, next := 0, projects := [], activeProject := none, storage := st }
  match l.2 with
  | some _ => none
  | none => some l.1.projectSet

/-- The data model of the registry (spec, section 3): the keys of the map are
distinct, every project is an allocated object stored under its own ID, and no
two entries have the same path. -/
def ProjectManager.wellFormed (pm : ProjectManager) : Prop :=
  (pm.projects.map Prod.fst).Nodup ∧
  (∀ e ∈ pm.projects, e.2 < pm.next ∧ (pm.heap e.2).ID = e.1) ∧
  (∀ e ∈ pm.projects, ∀ e' ∈ pm.projects, (pm.heap e.2).Path = (pm.heap e'.2).Path → e = e')

/-- The effect of `sort.Slice(projects, less)` (manager.go:156).  The library
leaves the algorithm, and with it the order of elements that `less` does not
separate, open; here it is an insertion sort, which puts an element before the
first one that is not `less` than it. -/
def sortSlice (less : Ptr → Ptr → Prop) [DecidableRel less] (projects : List Ptr) : List Ptr :=
  projects.insertionSort (fun a b => ¬ less b a)

/-- The method `ListProjects` (manager.go:149): the projects of the map, sorted
with `less(i, j) = projects[i].LastAccessed.After(projects[j].LastAccessed)`. -/
def ProjectManager.ListProjects (pm : ProjectManager) : List Ptr :=
  sortSlice (fun a b => (pm.heap a).LastAccessed > (pm.heap b).LastAccessed)
    (pm.projects.map Prod.snd)

/-- The method `ValidateProjectPath` (manager.go:197).  The manager is returned
as well, to state that the method leaves it alone. -/
def ProjectManager.ValidateProjectPath (w : Env) (pm : ProjectManager) (path : String) :
    ProjectManager × Option Err :=
  if path = "" then
    (pm, some (Err.msg "project path cannot be empty"))
  else
    let cleanPath := w.Clean path
    if !w.IsAbs cleanPath then
      (pm, some (Err.msg ("project path must be absolute: " ++ path)))
    else if w.notExist cleanPath then
      -- Check if path exists
      (pm, some (Err.msg ("project path does not exist: " ++ cleanPath)))
    else
      (pm, none)

/-- A storage holding the project set `A` (flagged active) and `B`, with the
marker on `B`: what the storage holds after `AddProject` of `A` and of `B`
followed by `SetActiveProject("B")`, all of them successful. -/
def Storage.staleFlag : Storage :=
  (ProjectManager.twoProjects.run [(Env.allSucceed 3 "", Op.SetActiveProject "B")]).storage

/-- The manager inside `AddProject` right after `pm.projects[project.ID] =
project` (manager.go:85), for the project `NewProject` made. -/
def ProjectManager.inserted (w : Env) (pm : ProjectManager) (path name : String) :
    ProjectManager :=
  { pm with
      heap := heapSet pm.heap pm.next
        { ID := w.newID, Name := name, Path := w.Clean path, LastAccessed := w.now,
          IsActive := false, Instances := [] },
      next := pm.next + 1,
      projects := mapSet pm.projects w.newID pm.next }

/-- The active pointer, when not nil, refers to an allocated object. -/
def ProjectManager.activeAllocated (pm : ProjectManager) : Prop :=
  ∀ a, pm.activeProject = some a → a < pm.next

/-! ## The preview pane (`ui/preview.go`)

The pane keeps one `viewport.Model` per instance.  The viewport is the type of
the library `github.com/charmbracelet/bubbles/viewport`; of the library the
model has what decides the scroll offset and whether a call returns: the size,
the offset, the content, the number of its lines, and the bounds of every slice
expression.  A Go `int` is an `Int` whose arithmetic wraps at 64 bits.  A call
that panics has the result `none`.  Maps keyed by `*session.Instance` are
functions from the address of the instance. -/

/-- The value of a Go `*session.Instance`: the address of the instance. -/
abbrev InstPtr := Nat

/-- The result of an arithmetic operation on Go's `int` (64 bits): the exact
result brought back between `math.MinInt64` and `math.MaxInt64` by wrapping. -/
def wrapInt (x : Int) : Int :=
  (x + 9223372036854775808) % 18446744073709551616 - 9223372036854775808

/-- The struct `viewport.Model` of the library: `Width`, `Height`, `YOffset`
and the content given to `SetContent` last (`none` before the first call, when
the library holds no lines). -/
structure Viewport where
  Width : Int
  Height : Int
  YOffset : Int
  content : Option String
  deriving DecidableEq, Repr

/-- The number of lines the library holds, `len(m.lines)`: none before the
first `SetContent`, afterwards `len(strings.Split(s, "\n"))`, the number of
line feeds plus one. -/
def lineCount (content : Option String) : Nat :=
  match content with
  | none => 0
  | some s => (s.toList.filter (fun c => c = Char.ofNat 10)).length + 1

/-- The function `viewport.New` of the library. -/
def Viewport.New (width height : Int) : Viewport :=
  { Width := width, Height := height, YOffset := 0, content := none }

/-- The method `maxYOffset` of the library: `max(0, len(m.lines) - m.Height)`. -/
def Viewport.maxYOffset (m : Viewport) : Int :=
  max 0 (wrapInt ((lineCount m.content : Int) - m.Height))

/-- The function `clamp` of the library: `v` brought between `low` and `high`,
the bounds swapped when `high < low`. -/
def clamp (v low high : Int) : Int :=
  if high < low then min low (max high v) else min high (max low v)

/-- Whether the slice expression `m.lines[top:bottom]` is within bounds,
`0 <= top <= bottom <= cap(m.lines)`; outside them Go panics.  The capacity of
the slice `strings.Split` returns is its length. -/
def sliceInBounds (top bottom : Int) (len : Nat) : Bool :=
  decide (0 ≤ top ∧ top ≤ bottom ∧ bottom ≤ (len : Int))

/-- The method `SetYOffset` of the library. -/
def Viewport.SetYOffset (m : Viewport) (n : Int) : Viewport :=
  { m with YOffset := clamp n 0 m.maxYOffset }

/-- The method `AtTop` of the library. -/
def Viewport.AtTop (m : Viewport) : Bool :=
  decide (m.YOffset ≤ 0)

/-- The method `AtBottom` of the library: at or past the last offset. -/
def Viewport.AtBottom (m : Viewport) : Bool :=
  decide (m.YOffset ≥ m.maxYOffset)

/-- The method `visibleLines` of the library, as far as it decides whether the
call returns: with lines it evaluates `m.lines[top:bottom]` for
`top = max(0, m.YOffset)` and `bottom = clamp(m.YOffset + m.Height, top,
len(m.lines))`.  The value is whether the slice is within bounds. -/
def Viewport.visibleLines (m : Viewport) : Bool :=
  if lineCount m.content > 0 then
    let top := max 0 m.YOffset
    let bottom := clamp (wrapInt (m.YOffset + m.Height)) top (lineCount m.content)
    sliceInBounds top bottom (lineCount m.content)
  else true

/-- The method `GotoBottom` of the library: `m.SetYOffset(m.maxYOffset())`, then
`return m.visibleLines()`; `none` when that panics. -/
def Viewport.GotoBottom (m : Viewport) : Option Viewport :=
  let m1 := m.SetYOffset m.maxYOffset
  if m1.visibleLines then some m1 else none

/-- The method `SetContent` of the library: the lines are replaced, and an
offset beyond the last line sends the viewport to the bottom. -/
def Viewport.SetContent (m : Viewport) (s : String) : Option Viewport :=
  let m1 := { m with content := some s }
  if m1.YOffset > wrapInt ((lineCount m1.content : Int) - 1) then m1.GotoBottom else some m1

/-- The method `LineDown` of the library: nothing at the bottom, for `n = 0` or
without lines; else `m.SetYOffset(m.YOffset + n)` and the slice
`m.lines[top:bottom]` for `bottom = clamp(m.YOffset + m.Height, 0,
len(m.lines))` and `top = clamp(m.YOffset + m.Height - n, 0, bottom)`. -/
def Viewport.LineDown (m : Viewport) (n : Int) : Option Viewport :=
  if m.AtBottom ∨ n = 0 ∨ lineCount m.content = 0 then some m
  else
    let m1 := m.SetYOffset (wrapInt (m.YOffset + n))
    let bottom := clamp (wrapInt (m1.YOffset + m1.Height)) 0 (lineCount m1.content)
    let top := clamp (wrapInt (wrapInt (m1.YOffset + m1.Height) - n)) 0 bottom
    if sliceInBounds top bottom (lineCount m1.content) then some m1 else none

/-- The method `LineUp` of the library: nothing at the top, for `n = 0` or
without lines; else `m.SetYOffset(m.YOffset - n)` and the slice
`m.lines[top:bottom]` for `top = max(0, m.YOffset)` and
`bottom = clamp(m.YOffset + n, 0, m.maxYOffset())`. -/
def Viewport.LineUp (m : Viewport) (n : Int) : Option Viewport :=
  if m.AtTop ∨ n = 0 ∨ lineCount m.content = 0 then some m
  else
    let m1 := m.SetYOffset (wrapInt (m.YOffset - n))
    let top := max 0 m1.YOffset
    let bottom := clamp (wrapInt (m1.YOffset + n)) 0 m1.maxYOffset
    if sliceInBounds top bottom (lineCount m1.content) then some m1 else none

/-- Modelled from the spec: `session.Status` (package session is not among the
sources), "an enumerated value including at least Running, Paused"; `Other`
stands for the values the spec does not name. -/
inductive Status where
  | Running
  | Paused
  | Other
  deriving DecidableEq, Repr

/-- Modelled from the spec: what the pane reads of a `*session.Instance` during
one call (section 6 of the spec; package session is not among the sources):
its address, `Status`, `Branch`, the result of `Preview()` and of
`Started()`. -/
structure Instance where
  addr : InstPtr
  Status : Status
  Branch : String
  Preview : Except Err String
  Started : Bool

/-- The calls `UpdateContent` makes on the instance. -/
inductive InstanceCall where
  | Preview
  | Started
  deriving DecidableEq, Repr

/-- What the pane takes from the rest of the package and from `lipgloss`:
`enhanceContent` (not among the sources; in the spec "a pure function of
content" and of the metadata of the selected session), the fallback screen
`lipgloss.Place(width, height, ..., JoinVertical(FallBackText, "", message))`,
and the styled message for a paused session built from its branch. -/
structure Render where
  enhanceContent : String → Instance → String
  place : Int → Int → String → String
  pausedMessage : String → String

/-- The struct `previewState` (preview.go:25). -/
structure PreviewState where
  fallback : Bool
  text : String
  deriving DecidableEq, Repr

/-- The struct `PreviewPane` (preview.go:14). -/
structure PreviewPane where
  viewport : Viewport
  width : Int
  height : Int
  previewState : PreviewState
  instancePositions : InstPtr → Option Viewport
  instanceContent : InstPtr → Option String
  activeInstance : Option InstPtr

/-- The function `NewPreviewPane` (preview.go:32). -/
def NewPreviewPane : PreviewPane :=
  { viewport := Viewport.New 0 0, width := 0, height := 0,
    previewState := { fallback := false, text := "" },
    instancePositions := fun _ => none, instanceContent := fun _ => none,
    activeInstance := none }

/-- The method `SetSize` (preview.go:40). -/
def PreviewPane.SetSize (p : PreviewPane) (width maxHeight : Int) : PreviewPane :=
  { p with width := width, height := maxHeight,
           viewport := { p.viewport with Width := width, Height := maxHeight } }

/-- The method `setFallbackState` (preview.go:48); `none` when `SetContent`
panics. -/
def PreviewPane.setFallbackState (r : Render) (p : PreviewPane) (message : String) :
    Option PreviewPane :=
  let content := r.place p.width p.height message
  (p.viewport.SetContent content).map
    (fun v => { p with previewState := { fallback := true, text := content }, viewport := v })

/-- The statement `m[k] = v` on a map keyed by instance. -/
def instSet {β : Type} (m : InstPtr → Option β) (k : InstPtr) (v : β) : InstPtr → Option β :=
  fun j => if j = k then some v else m j

/-- The viewport `UpdateContent` computes for the instance on its normal
display path (preview.go:106-132), from the cached viewport if there is one;
`none` when the library panics. -/
def PreviewPane.instanceViewport (p : PreviewPane) (addr : InstPtr) (enhancedContent : String) :
    Option Viewport :=
  -- Check if this is new content or instance switch
  let isNewContent : Bool := decide (p.instanceContent addr ≠ some enhancedContent)
  let isInstanceSwitch : Bool := decide (p.activeInstance ≠ some addr)
  -- Get or create viewport for this instance
  match p.instancePositions addr with
  | none =>
      ((Viewport.New p.width p.height).SetContent enhancedContent).bind Viewport.GotoBottom
  | some v =>
      -- Check if user is currently at the bottom before updating content
      let wasAtBottom := v.AtBottom
      (v.SetContent enhancedContent).bind (fun v1 =>
        if isInstanceSwitch then v1.GotoBottom
        else if isNewContent && wasAtBottom then v1.GotoBottom
        else some v1)

/-- The pane `UpdateContent` leaves on its normal display path
(preview.go:131-144), given the viewport computed for the instance. -/
def PreviewPane.displayed (p : PreviewPane) (addr : InstPtr) (enhancedContent : String)
    (instanceViewport : Viewport) : PreviewPane :=
  { p with
      instancePositions := instSet p.instancePositions addr instanceViewport,
      instanceContent := instSet p.instanceContent addr enhancedContent,
      viewport := instanceViewport,
      activeInstance := some addr,
      previewState := { fallback := false, text := enhancedContent } }

/-- The method `UpdateContent` (preview.go:65).  The result is the pane, the
error, and the calls made on the instance, in order, or `none` when the call
panics; `inst` is the argument `instance` of the source, `none` for nil. -/
def PreviewPane.UpdateContent (r : Render) (p : PreviewPane) (inst : Option Instance) :
    Option (PreviewPane × Option Err × List InstanceCall) :=
  match inst with
  | none =>
      (p.setFallbackState r
        "No agents running yet. Spin up a new instance with 'n' to get started!").map
        (fun q => (q, none, []))
  | some i =>
      if i.Status = Status.Paused then
        (p.setFallbackState r (r.pausedMessage i.Branch)).map (fun q => (q, none, []))
      else
        match i.Preview with
        | Except.error err => some (p, some err, [InstanceCall.Preview])
        | Except.ok content =>
            if content = "" ∧ i.Started = false then
              (p.setFallbackState r "Please enter a name for the instance.").map
                (fun q => (q, none, [InstanceCall.Preview, InstanceCall.Started]))
            else
              -- Enhance the content with better prompts
              let enhancedContent := r.enhanceContent content i
              (p.instanceViewport i.addr enhancedContent).map (fun instanceViewport =>
                (p.displayed i.addr enhancedContent instanceViewport, none,
                  if content = "" then [InstanceCall.Preview, InstanceCall.Started]
                  else [InstanceCall.Preview]))

/-- The method `syncViewportToMap` (preview.go:182). -/
def PreviewPane.syncViewportToMap (p : PreviewPane) : PreviewPane :=
  match p.activeInstance with
  | some a => { p with instancePositions := instSet p.instancePositions a p.viewport }
  | none => p

/-- The method `ScrollUp` (preview.go:154); `none` when `LineUp` panics. -/
def PreviewPane.ScrollUp (p : PreviewPane) : Option PreviewPane :=
  (p.viewport.LineUp 1).map (fun v => PreviewPane.syncViewportToMap { p with viewport := v })

/-- The method `ScrollDown` (preview.go:161); `none` when `LineDown` panics. -/
def PreviewPane.ScrollDown (p : PreviewPane) : Option PreviewPane :=
  (p.viewport.LineDown 1).map (fun v => PreviewPane.syncViewportToMap { p with viewport := v })

/-- The method `FastScrollUp` (preview.go:168); `none` when `LineUp` panics. -/
def PreviewPane.FastScrollUp (p : PreviewPane) : Option PreviewPane :=
  (p.viewport.LineUp 10).map (fun v => PreviewPane.syncViewportToMap { p with viewport := v })

/-- The method `FastScrollDown` (preview.go:175); `none` when `LineDown`
panics. -/
def PreviewPane.FastScrollDown (p : PreviewPane) : Option PreviewPane :=
  (p.viewport.LineDown 10).map (fun v => PreviewPane.syncViewportToMap { p with viewport := v })

/-- A call of one of the methods of the pane. -/
inductive PaneOp where
  | SetSize (width maxHeight : Int)
  | UpdateContent (inst : Option Instance)
  | ScrollUp
  | ScrollDown
  | FastScrollUp
  | FastScrollDown

/-- The pane after one call; `none` when the call panics. -/
def PreviewPane.step (r : Render) (p : PreviewPane) (op : PaneOp) : Option PreviewPane :=
  match op with
  | PaneOp.SetSize width maxHeight => some (p.SetSize width maxHeight)
  | PaneOp.UpdateContent inst => (p.UpdateContent r inst).map (fun x => x.1)
  | PaneOp.ScrollUp => p.ScrollUp
  | PaneOp.ScrollDown => p.ScrollDown
  | PaneOp.FastScrollUp => p.FastScrollUp
  | PaneOp.FastScrollDown => p.FastScrollDown

/-- The pane after a sequence of calls; `none` when one of them panics. -/
def PreviewPane.run (r : Render) (p : PreviewPane) (ops : List PaneOp) : Option PreviewPane :=
  ops.foldl (fun s op => s.bind (fun q => q.step r op)) (some p)

/-- A rendering that shows content and messages as they are. -/
def Render.plain : Render :=
  { enhanceContent := fun content _ => content, place := fun _ _ message => message,
    pausedMessage := fun branch => branch }

/-- A running, started session at address `addr` whose preview is `content`. -/
def Instance.running (addr : InstPtr) (content : String) : Instance :=
  { addr := addr, Status := Status.Running, Branch := "", Preview := Except.ok content,
    Started := true }

/-- A session is on the normal display path of `UpdateContent` with the
preview `content`: it is not paused, `Preview` returned `content`, and the
content is not empty or the session has been started. -/
def Instance.normal (i : Instance) (content : String) : Prop :=
  i.Status ≠ Status.Paused ∧ i.Preview = Except.ok content ∧
    ¬ (content = "" ∧ i.Started = false)

/-- A height that is a Go `int` and is not negative. -/
@[reducible] def heightFits (h : Int) : Prop :=
  0 ≤ h ∧ h ≤ 9223372036854775807

/-- The lines of a content can be counted in a Go `int`, a scroll step of ten
lines included. -/
@[reducible] def linesFit (content : Option String) : Prop :=
  (lineCount content : Int) + 10 ≤ 9223372036854775807

/-- A running session at address 0 whose preview has four lines. -/
def Instance.fourLines : Instance :=
  Instance.running 0 "1\n2\n3\n4"

/-- A pane of height 2 that displays `Instance.fourLines`, scrolled up by one
line from the bottom: offset 1, the last offset being 2. -/
def PreviewPane.scrolledUp : PreviewPane :=
  (NewPreviewPane.run Render.plain
    [PaneOp.SetSize 80 2, PaneOp.UpdateContent (some Instance.fourLines),
     PaneOp.ScrollUp]).getD NewPreviewPane

/-- The viewport with the content `s` loaded, size and offset kept. -/
def Viewport.loaded (m : Viewport) (s : String) : Viewport :=
  { m with content := some s }

/-- The viewport put on its last offset. -/
def Viewport.sentToBottom (m : Viewport) : Viewport :=
  { m with YOffset := m.maxYOffset }

/-- The last offset of the viewport lies within its lines,
`m.maxYOffset() <= len(m.lines)`.  So it is for every height that is not
negative; for a negative height it is not, unless `len(m.lines) - m.Height`
wraps.  It is what `GotoBottom` needs of a viewport with lines in order to
return. -/
@[reducible] def Viewport.bottomFits (m : Viewport) : Prop :=
  m.maxYOffset ≤ (lineCount m.content : Int)

/-- The frame of a scroll operation from pane `p` to pane `q` with active
session `a`: the cached viewport of `a` is the displayed one, the cached
viewports of the other sessions, the cached contents and the active session
are those of `p`, and the displayed viewport kept its size and content. -/
def PreviewPane.scrollFrame (p q : PreviewPane) (a : InstPtr) : Prop :=
  q.instancePositions a = some q.viewport ∧
  (∀ j, j ≠ a → q.instancePositions j = p.instancePositions j) ∧
  q.instanceContent = p.instanceContent ∧
  q.activeInstance = p.activeInstance ∧
  q.viewport.Width = p.viewport.Width ∧ q.viewport.Height = p.viewport.Height ∧
  q.viewport.content = p.viewport.content

/-- The fallback screen `UpdateContent` shows for its argument when it takes a
fallback branch (preview.go:67-94): for nil, for a paused session, and for a
session without content that has not been started. -/
def fallbackScreen (r : Render) (p : PreviewPane) (inst : Option Instance) : String :=
  match inst with
  | none =>
      r.place p.width p.height
        "No agents running yet. Spin up a new instance with 'n' to get started!"
  | some i =>
      if i.Status = Status.Paused then r.place p.width p.height (r.pausedMessage i.Branch)
      else r.place p.width p.height "Please enter a name for the instance."

/-- The fallback screen can be loaded into the displayed viewport without a
panic: its lines can be counted, and the offset of the viewport is on a line of
the screen or, with the screen loaded, the last offset lies within the lines. -/
def PreviewPane.fallbackFits (r : Render) (p : PreviewPane) (inst : Option Instance) : Prop :=
  linesFit (some (fallbackScreen r p inst)) ∧
  (p.viewport.YOffset ≤ (lineCount (some (fallbackScreen r p inst)) : Int) - 1 ∨
    (p.viewport.loaded (fallbackScreen r p inst)).bottomFits)

/-- The viewport `UpdateContent` starts from (preview.go:106-109): the cached
viewport of the session, or a new one of the size of the pane. -/
def PreviewPane.cachedOrNew (p : PreviewPane) (addr : InstPtr) : Viewport :=
  match p.instancePositions addr with
  | none => Viewport.New p.width p.height
  | some v => v

/-! ## Lemmas on maps, the object store and the course of each method -/

/-- The fresh manager is what `NewProjectManager` returns on the empty
storage. -/
theorem NewProjectManager_empty (w : Env) :
    NewProjectManager w (some Storage.empty) = Except.ok ProjectManager.fresh := rfl

/-- Reading the store at the address just written. -/
theorem heapSet_same (h : Ptr → Project) (p : Ptr) (v : Project) : heapSet h p v p = v := by
  simp [heapSet]

/-- Reading the store at another address than the one written. -/
theorem heapSet_other (h : Ptr → Project) {p q : Ptr} (v : Project) (hne : q ≠ p) :
    heapSet h p v q = h q := by
  simp [heapSet, hne]

/-- `SetActiveProject` never touches the map. -/
theorem SetActiveProject_projects (w : Env) (pm : ProjectManager) (projectID : String) :
    (pm.SetActiveProject w projectID).1.projects = pm.projects := by
  unfold ProjectManager.SetActiveProject
  cases h : mapGet pm.projects projectID with
  | none => rfl
  | some p =>
      simp only []
      cases hs : (pm.storage.SetActiveProject projectID w.setActiveErr).2 <;> rfl

/-- Looking a key up after `m[k] = v`. -/
theorem mapGet_mapSet (m : List (String × Ptr)) (k k' : String) (v : Ptr) :
    mapGet (mapSet m k v) k' = if k' = k then some v else mapGet m k' := by
  induction m with
  | nil =>
      by_cases hk : k' = k
      · simp [mapSet, mapGet, hk]
      · have hk' : ¬ k = k' := fun h => hk h.symm
        simp [mapSet, mapGet, hk, hk']
  | cons e rest ih =>
      obtain ⟨k0, v0⟩ := e
      by_cases h0 : k0 = k
      · subst h0
        by_cases hk : k' = k0
        · simp [mapSet, mapGet, hk]
        · have hk' : ¬ k0 = k' := fun h => hk h.symm
          simp [mapSet, mapGet, hk, hk']
      · by_cases hk : k0 = k'
        · subst hk
          simp [mapSet, mapGet, h0]
        · simp [mapSet, mapGet, h0, hk, ih]

/-- Looking a key up after `delete(m, k)`. -/
theorem mapGet_mapDelete (m : List (String × Ptr)) (k k' : String) :
    mapGet (mapDelete m k) k' = if k' = k then none else mapGet m k' := by
  induction m with
  | nil => simp [mapDelete, mapGet]
  | cons e rest ih =>
      obtain ⟨k0, v0⟩ := e
      unfold mapDelete at ih ⊢
      simp only [ne_eq, decide_not] at ih ⊢
      by_cases h0 : k0 = k
      · subst h0
        by_cases hk : k' = k0
        · subst hk
          simpa [List.filter_cons, mapGet] using ih
        · have hk' : ¬ k0 = k' := fun h => hk h.symm
          simp [List.filter_cons, mapGet, hk, hk', ih]
      · by_cases hk : k0 = k'
        · subst hk
          simp [List.filter_cons, mapGet, h0]
        · simp [List.filter_cons, mapGet, h0, hk, ih]

/-- A key that `mapGet` does not find is the key of no entry. -/
theorem mapGet_none_not_key (m : List (String × Ptr)) (k : String) (h : mapGet m k = none) :
    ∀ e ∈ m, e.1 ≠ k := by
  induction m with
  | nil => simp
  | cons e rest ih =>
      obtain ⟨k0, v0⟩ := e
      by_cases h0 : k0 = k
      · simp [mapGet, h0] at h
      · simp only [mapGet, h0, if_false] at h
        intro x hx
        rcases List.mem_cons.mp hx with hx | hx
        · subst hx
          exact h0
        · exact ih h x hx

/-- Storing under a key the map does not have appends the entry. -/
theorem mapSet_new (m : List (String × Ptr)) (k : String) (v : Ptr) (h : mapGet m k = none) :
    mapSet m k v = m ++ [(k, v)] := by
  induction m with
  | nil => rfl
  | cons e rest ih =>
      obtain ⟨k0, v0⟩ := e
      by_cases h0 : k0 = k
      · simp [mapGet, h0] at h
      · simp only [mapGet, h0, if_false] at h
        simp [mapSet, h0, ih h]

/-- Storing under a new key and deleting that key gives the map back. -/
theorem mapDelete_mapSet_new (m : List (String × Ptr)) (k : String) (v : Ptr)
    (h : mapGet m k = none) : mapDelete (mapSet m k v) k = m := by
  rw [mapSet_new m k v h]
  unfold mapDelete
  rw [List.filter_append]
  have hm : m.filter (fun e => decide (e.1 ≠ k)) = m := by
    apply List.filter_eq_self.mpr
    intro e he
    simpa using mapGet_none_not_key m k h e he
  rw [hm]
  simp

/-- What `saveProjects` returns and what it leaves alone. -/
theorem saveProjects_fields (w : Env) (pm : ProjectManager) :
    (pm.saveProjects w).2 = w.saveErr ∧ (pm.saveProjects w).1.projects = pm.projects ∧
    (pm.saveProjects w).1.heap = pm.heap ∧
    (pm.saveProjects w).1.activeProject = pm.activeProject ∧
    (pm.saveProjects w).1.next = pm.next := by
  unfold ProjectManager.saveProjects Storage.SaveProjects
  cases w.saveErr <;> simp

/-- The course of `AddProject` for a path that no project has, when
`NewProject` accepts and the path is on disk: insert, activate if first, save,
and take the entry out again if the save failed. -/
theorem AddProject_new (w : Env) (pm : ProjectManager) (path name : String)
    (hfind : pm.findByPath (w.Clean path) = none) (hnew : w.newProjectErr = none)
    (hex : w.notExist (w.Clean path) = false) :
    pm.AddProject w path name =
      match w.saveErr with
      | some err =>
          ({ ((pm.beforeSave w path name).saveProjects w).1 with
               projects := mapDelete (pm.beforeSave w path name).projects w.newID },
            none, some (Err.wrap "failed to save project: " err))
      | none => (((pm.beforeSave w path name).saveProjects w).1, some pm.next, none) := by
  unfold ProjectManager.AddProject
  simp only [hfind, NewProject, hnew, hex]
  have h2 := fun q => (saveProjects_fields w q).1
  have h3 := fun q => (saveProjects_fields w q).2.1
  simp only [Bool.false_eq_true, if_false, h2, h3]
  cases w.saveErr <;> rfl

/-- The map of `beforeSave` is the map with the new entry. -/
theorem beforeSave_projects (w : Env) (pm : ProjectManager) (path name : String) :
    (pm.beforeSave w path name).projects = mapSet pm.projects w.newID pm.next := by
  unfold ProjectManager.beforeSave
  simp only []
  split
  · rw [SetActiveProject_projects]
  · rfl

/-- The store of `beforeSave` at the projects of a map that was not empty: only
the new address was written. -/
theorem beforeSave_heap (w : Env) (pm : ProjectManager) (path name : String)
    (hid : mapGet pm.projects w.newID = none) (hne : pm.projects ≠ []) (q : Ptr)
    (hq : q ≠ pm.next) : (pm.beforeSave w path name).heap q = pm.heap q := by
  unfold ProjectManager.beforeSave
  simp only []
  have hlen : ¬ (mapSet pm.projects w.newID pm.next).length = 1 := by
    rw [mapSet_new _ _ _ hid]
    cases hp : pm.projects with
    | nil => exact absurd hp hne
    | cons a l => simp
  rw [if_neg hlen]
  exact heapSet_other _ _ hq

/-- The first step of `RemoveProject` leaves the map and the store alone. -/
theorem clearIfActive_fields (w : Env) (pm : ProjectManager) (projectID : String) :
    (pm.clearIfActive w projectID).projects = pm.projects ∧
    (pm.clearIfActive w projectID).heap = pm.heap ∧
    (pm.clearIfActive w projectID).next = pm.next := by
  unfold ProjectManager.clearIfActive
  simp only []
  split <;> simp

/-- The course of `RemoveProject` for a key of the map: clear the active state
if needed, delete from the map, delete from storage, save, and put the entry
back if the storage delete or the save failed. -/
theorem RemoveProject_found (w : Env) (pm : ProjectManager) (projectID : String) (p : Ptr)
    (h : mapGet pm.projects projectID = some p) :
    pm.RemoveProject w projectID =
      match w.deleteErr with
      | some err =>
          ({ heap := pm.heap, next := pm.next,
             projects := mapSet (mapDelete pm.projects projectID) projectID p,
             activeProject := (pm.clearIfActive w projectID).activeProject,
             storage := ((pm.clearIfActive w projectID).storage.DeleteProject projectID
                          w.deleteErr).1 },
            some (Err.wrap "failed to delete project from storage: " err))
      | none =>
          let pm3 : ProjectManager :=
            { heap := pm.heap, next := pm.next,
              projects := mapDelete pm.projects projectID,
              activeProject := (pm.clearIfActive w projectID).activeProject,
              storage := ((pm.clearIfActive w projectID).storage.DeleteProject projectID
                           w.deleteErr).1 }
          match w.saveErr with
          | some err =>
              ({ (pm3.saveProjects w).1 with
                   projects := mapSet (mapDelete pm.projects projectID) projectID p },
                some (Err.wrap "failed to save projects after deletion: " err))
          | none => ((pm3.saveProjects w).1, none) := by
  have hc := clearIfActive_fields w pm projectID
  have hd : ∀ st : Storage, (st.DeleteProject projectID w.deleteErr).2 = w.deleteErr := by
    intro st
    unfold Storage.DeleteProject
    cases w.deleteErr <;> rfl
  have h2 := fun q => (saveProjects_fields w q).1
  have h3 := fun q => (saveProjects_fields w q).2.1
  unfold ProjectManager.RemoveProject
  simp only [h]
  rw [hd]
  cases hde : w.deleteErr with
  | some err => simp only [hc.1, hc.2.1, hc.2.2]
  | none =>
      simp only [h2, h3]
      cases hse : w.saveErr with
      | some err => simp only [hc.1, hc.2.1, hc.2.2, ProjectManager.saveProjects]
      | none => simp only [hc.1, hc.2.1, hc.2.2, ProjectManager.saveProjects]

/-- The manager `SetActiveProject` leaves for a key of the map. -/
theorem SetActiveProject_found (w : Env) (pm : ProjectManager) (projectID : String) (p : Ptr)
    (h : mapGet pm.projects projectID = some p) :
    (pm.SetActiveProject w projectID).1 =
      { pm with
          heap := heapSet
            (match pm.activeProject with
              | some a => heapSet pm.heap a (pm.heap a).SetInactive
              | none => pm.heap) p
            (((match pm.activeProject with
              | some a => heapSet pm.heap a (pm.heap a).SetInactive
              | none => pm.heap) p).SetActive w.now),
          activeProject := some p,
          storage := (pm.storage.SetActiveProject projectID w.setActiveErr).1 } := by
  unfold ProjectManager.SetActiveProject
  simp only [h]
  cases hs : (pm.storage.SetActiveProject projectID w.setActiveErr).2 <;> rfl

/-- Deactivating the active project, if any, changes no ID and no path. -/
theorem deactivate_keeps (pm : ProjectManager) (q : Ptr) :
    ((match pm.activeProject with
        | some a => heapSet pm.heap a (pm.heap a).SetInactive
        | none => pm.heap) q).ID = (pm.heap q).ID ∧
    ((match pm.activeProject with
        | some a => heapSet pm.heap a (pm.heap a).SetInactive
        | none => pm.heap) q).Path = (pm.heap q).Path := by
  cases pm.activeProject with
  | none => exact ⟨rfl, rfl⟩
  | some a =>
      by_cases hq : q = a
      · subst hq
        simp [heapSet_same, Project.SetInactive]
      · simp [heapSet_other _ _ hq]

/-- For a key of the map, `SetActiveProject` flags the project active, stamps
it with the clock, and changes the ID and the path of no object. -/
theorem SetActiveProject_heap (w : Env) (pm : ProjectManager) (projectID : String) (p : Ptr)
    (h : mapGet pm.projects projectID = some p) :
    ((pm.SetActiveProject w projectID).1.heap p).IsActive = true ∧
    ((pm.SetActiveProject w projectID).1.heap p).LastAccessed = w.now ∧
    (∀ q, ((pm.SetActiveProject w projectID).1.heap q).ID = (pm.heap q).ID) ∧
    (∀ q, ((pm.SetActiveProject w projectID).1.heap q).Path = (pm.heap q).Path) := by
  rw [SetActiveProject_found w pm projectID p h]
  refine ⟨by simp [heapSet_same, Project.SetActive], by simp [heapSet_same, Project.SetActive],
    ?_, ?_⟩
  · intro q
    by_cases hq : q = p
    · subst hq
      simpa [heapSet_same, Project.SetActive] using (deactivate_keeps pm q).1
    · simpa [heapSet_other _ _ hq] using (deactivate_keeps pm q).1
  · intro q
    by_cases hq : q = p
    · subst hq
      simpa [heapSet_same, Project.SetActive] using (deactivate_keeps pm q).2
    · simpa [heapSet_other _ _ hq] using (deactivate_keeps pm q).2

/-- The loop of `AddProject` finds the project with the path, when the registry
has exactly one. -/
theorem findByPath_unique (pm : ProjectManager) (cleanPath k : String) (p : Ptr)
    (hmem : (k, p) ∈ pm.projects) (hpath : (pm.heap p).Path = cleanPath)
    (huniq : ∀ e ∈ pm.projects, (pm.heap e.2).Path = cleanPath → e.2 = p) :
    ∃ e, pm.findByPath cleanPath = some e ∧ e.2 = p := by
  unfold ProjectManager.findByPath
  cases hf : pm.projects.find? (fun e => decide ((pm.heap e.2).Path = cleanPath)) with
  | none =>
      have := List.find?_eq_none.mp hf (k, p) hmem
      simp [hpath] at this
  | some e =>
      refine ⟨e, rfl, huniq e (List.mem_of_find?_eq_some hf) ?_⟩
      simpa using List.find?_some hf

/-- The course of `AddProject` when its loop finds a project with the path:
stamp it with the clock, activate it, return it with a nil error. -/
theorem AddProject_existing (w : Env) (pm : ProjectManager) (path name : String)
    (e : String × Ptr) (hfind : pm.findByPath (w.Clean path) = some e) :
    pm.AddProject w path name =
      ((ProjectManager.SetActiveProject w
          { pm with heap := heapSet pm.heap e.2 { pm.heap e.2 with LastAccessed := w.now } }
          (heapSet pm.heap e.2 { pm.heap e.2 with LastAccessed := w.now } e.2).ID).1,
        some e.2, none) := by
  unfold ProjectManager.AddProject
  simp only [hfind]

/-- The keys of a map after `m[k] = v`. -/
theorem mapSet_keys (m : List (String × Ptr)) (k : String) (v : Ptr) :
    (mapSet m k v).map Prod.fst
      = if k ∈ m.map Prod.fst then m.map Prod.fst else m.map Prod.fst ++ [k] := by
  induction m with
  | nil => simp [mapSet]
  | cons e rest ih =>
      obtain ⟨k0, v0⟩ := e
      by_cases h0 : k0 = k
      · subst h0
        simp [mapSet]
      · have h0' : ¬ k = k0 := fun h => h0 h.symm
        simp only [mapSet, h0, if_false, List.map_cons, ih, List.mem_cons, h0', false_or]
        split <;> simp

/-- Storing under a key keeps the keys of a map distinct. -/
theorem mapSet_keys_nodup (m : List (String × Ptr)) (k : String) (v : Ptr)
    (h : (m.map Prod.fst).Nodup) : ((mapSet m k v).map Prod.fst).Nodup := by
  rw [mapSet_keys]
  split
  · exact h
  · rename_i hk
    rw [List.nodup_append]
    refine ⟨h, List.nodup_singleton k, ?_⟩
    intro a ha hb
    rw [List.mem_singleton] at hb
    exact hk (hb ▸ ha)

/-- Deleting a key keeps the keys of a map distinct. -/
theorem mapDelete_keys_nodup (m : List (String × Ptr)) (k : String)
    (h : (m.map Prod.fst).Nodup) : ((mapDelete m k).map Prod.fst).Nodup := by
  unfold mapDelete
  exact (List.Nodup.sublist ((List.filter_sublist m).map Prod.fst) h)

/-- A key that is the key of no entry is not found. -/
theorem mapGet_none_of_not_key (m : List (String × Ptr)) (k : String)
    (h : k ∉ m.map Prod.fst) : mapGet m k = none := by
  induction m with
  | nil => rfl
  | cons e rest ih =>
      obtain ⟨k0, v0⟩ := e
      rw [List.map_cons, List.mem_cons, not_or] at h
      have h0 : ¬ k0 = k := fun hk => h.1 hk.symm
      simp only [mapGet, h0, if_false]
      exact ih h.2

/-- Decoding a JSON object whose keys are distinct, into a map `acc` that has
none of them and whose objects lie below the next free address, adds the
members to the registry as values, in order. -/
theorem unmarshal_projectSet (ms : List (String × Project)) :
    ∀ (h : Ptr → Project) (n : Ptr) (acc : List (String × Ptr)),
      (ms.map Prod.fst).Nodup → (∀ m ∈ ms, mapGet acc m.1 = none) → (∀ e ∈ acc, e.2 < n) →
      (unmarshal ms h n acc).2.2.map (fun e => (e.1, (unmarshal ms h n acc).1 e.2))
        = acc.map (fun e => (e.1, h e.2)) ++ ms := by
  induction ms with
  | nil =>
      intro h n acc _ _ _
      simp [unmarshal]
  | cons m rest ih =>
      obtain ⟨k, v⟩ := m
      intro h n acc hnd hdis hlt
      rw [List.map_cons, List.nodup_cons] at hnd
      have hk : mapGet acc k = none := hdis (k, v) (List.mem_cons_self _ _)
      have hdis' : ∀ m ∈ rest, mapGet (mapSet acc k n) m.1 = none := by
        intro m hm
        have hmk : ¬ m.1 = k := by
          intro hmk
          have hin : m.1 ∈ rest.map Prod.fst := List.mem_map_of_mem Prod.fst hm
          rw [hmk] at hin
          exact hnd.1 hin
        rw [mapGet_mapSet, if_neg hmk]
        exact hdis m (List.mem_cons_of_mem _ hm)
      have hlt' : ∀ e ∈ mapSet acc k n, e.2 < n + 1 := by
        intro e he
        rw [mapSet_new acc k n hk, List.mem_append] at he
        rcases he with he | he
        · exact Nat.lt_succ_of_lt (hlt e he)
        · rw [List.mem_singleton] at he
          subst he
          exact Nat.lt_succ_self n
      have hstep := ih (heapSet h n v) (n + 1) (mapSet acc k n) hnd.2 hdis' hlt'
      have hacc : acc.map (fun e => (e.1, heapSet h n v e.2)) = acc.map (fun e => (e.1, h e.2)) := by
        apply List.map_congr_left
        intro e he
        rw [heapSet_other h v (Nat.ne_of_lt (hlt e he))]
      show (unmarshal rest (heapSet h n v) (n + 1) (mapSet acc k n)).2.2.map
          (fun e => (e.1, (unmarshal rest (heapSet h n v) (n + 1) (mapSet acc k n)).1 e.2))
        = acc.map (fun e => (e.1, h e.2)) ++ (k, v) :: rest
      rw [hstep, mapSet_new acc k n hk, List.map_append, hacc]
      simp [heapSet_same]

/-- The validation loop passes when `Validate` accepts every project. -/
theorem validateAll_none (w : Env) (heap : Ptr → Project) (m : List (String × Ptr))
    (h : ∀ e ∈ m, w.Validate (heap e.2) = none) : validateAll w heap m = none := by
  induction m with
  | nil => rfl
  | cons e rest ih =>
      obtain ⟨k, v⟩ := e
      have hv : w.Validate (heap v) = none := h (k, v) (List.mem_cons_self _ _)
      simp only [validateAll, hv]
      exact ih (fun e he => h e (List.mem_cons_of_mem _ he))

/-- Loading a stored project set whose keys are distinct and whose projects
`Validate` accepts gives that project set. -/
theorem loadedProjectSet_of_saved (w : Env) (st : Storage) (ms : List (String × Project))
    (hst : st.projectsJSON = some ms) (hnd : (ms.map Prod.fst).Nodup)
    (hval : ∀ m ∈ ms, w.Validate m.2 = none) : loadedProjectSet w st = some ms := by
  have hu := unmarshal_projectSet ms (fun _ => default) 0 [] hnd (fun _ _ => rfl)
    (fun e he => absurd he (List.not_mem_nil e))
  rw [List.map_nil, List.nil_append] at hu
  have hv : validateAll w (unmarshal ms (fun _ => default) 0 []).1
      (unmarshal ms (fun _ => default) 0 []).2.2 = none := by
    apply validateAll_none
    intro e he
    have hmem := List.mem_map_of_mem
      (fun e => (e.1, (unmarshal ms (fun _ => default) 0 []).1 e.2)) he
    rw [hu] at hmem
    exact hval _ hmem
  unfold loadedProjectSet ProjectManager.loadProjects
  simp only [Storage.GetProjects, hst, hv]
  exact congrArg some hu

/-- After a successful `saveProjects` the storage holds the registry as
values. -/
theorem saveProjects_saved (w : Env) (pm : ProjectManager)
    (h : (pm.saveProjects w).2 = none) :
    (pm.saveProjects w).1.storage.projectsJSON = some (pm.saveProjects w).1.projectSet := by
  have hs : w.saveErr = none := by
    rw [← (saveProjects_fields w pm).1]
    exact h
  unfold ProjectManager.saveProjects Storage.SaveProjects
  rw [hs]
  rfl

/-- The keys of the registry as values are the keys of the map. -/
theorem projectSet_keys (pm : ProjectManager) :
    pm.projectSet.map Prod.fst = pm.projects.map Prod.fst := by
  unfold ProjectManager.projectSet ProjectManager.marshal
  rw [List.map_map]
  rfl

/-- An entry found by `mapGet` is an entry of the map. -/
theorem mapGet_mem (m : List (String × Ptr)) (k : String) (v : Ptr)
    (h : mapGet m k = some v) : (k, v) ∈ m := by
  induction m with
  | nil => simp [mapGet] at h
  | cons e rest ih =>
      obtain ⟨k0, v0⟩ := e
      by_cases h0 : k0 = k
      · simp only [mapGet, h0, if_true, Option.some.injEq] at h
        simp [h0, h]
      · simp only [mapGet, h0, if_false] at h
        exact List.mem_cons_of_mem _ (ih h)

/-- In a map with distinct keys every entry is the one `mapGet` finds. -/
theorem mapGet_of_mem (m : List (String × Ptr)) (k : String) (v : Ptr)
    (hnd : (m.map Prod.fst).Nodup) (h : (k, v) ∈ m) : mapGet m k = some v := by
  induction m with
  | nil => simp at h
  | cons e rest ih =>
      obtain ⟨k0, v0⟩ := e
      rw [List.map_cons, List.nodup_cons] at hnd
      rcases List.mem_cons.mp h with h | h
      · cases h
        simp [mapGet]
      · have h0 : ¬ k0 = k := by
          intro hk
          subst hk
          have hin : (k0, v).1 ∈ rest.map Prod.fst := List.mem_map_of_mem Prod.fst h
          exact hnd.1 hin
        simp only [mapGet, h0, if_false]
        exact ih hnd.2 h

/-- An entry of the map after `m[k] = v` is the new entry or an old one. -/
theorem mem_mapSet (m : List (String × Ptr)) (k : String) (v : Ptr) (e : String × Ptr)
    (h : e ∈ mapSet m k v) : e = (k, v) ∨ e ∈ m := by
  induction m with
  | nil =>
      simp only [mapSet, List.mem_singleton] at h
      exact Or.inl h
  | cons e0 rest ih =>
      obtain ⟨k0, v0⟩ := e0
      by_cases h0 : k0 = k
      · simp only [mapSet, h0, if_true, List.mem_cons] at h
        rcases h with h | h
        · exact Or.inl h
        · exact Or.inr (List.mem_cons_of_mem _ h)
      · simp only [mapSet, h0, if_false, List.mem_cons] at h
        rcases h with h | h
        · exact Or.inr (h ▸ List.mem_cons_self _ _)
        · rcases ih h with h | h
          · exact Or.inl h
          · exact Or.inr (List.mem_cons_of_mem _ h)

/-- An entry of the map after `delete(m, k)` is an old one. -/
theorem mem_mapDelete (m : List (String × Ptr)) (k : String) (e : String × Ptr)
    (h : e ∈ mapDelete m k) : e ∈ m :=
  List.mem_of_mem_filter h

/-- The data model carries over to a manager whose map has distinct keys and
only entries of the old map, whose next free address is not lower, and whose
objects kept their ID and path. -/
theorem wellFormed_of_same (pm pm' : ProjectManager) (hwf : pm.wellFormed)
    (hnd : (pm'.projects.map Prod.fst).Nodup) (hsub : ∀ e ∈ pm'.projects, e ∈ pm.projects)
    (hnext : pm.next ≤ pm'.next)
    (hheap : ∀ q, (pm'.heap q).ID = (pm.heap q).ID ∧ (pm'.heap q).Path = (pm.heap q).Path) :
    pm'.wellFormed := by
  refine ⟨hnd, ?_, ?_⟩
  · intro e he
    have h := hwf.2.1 e (hsub e he)
    exact ⟨Nat.lt_of_lt_of_le h.1 hnext, (hheap e.2).1.trans h.2⟩
  · intro e he e' he' hp
    apply hwf.2.2 e (hsub e he) e' (hsub e' he')
    rw [← (hheap e.2).2, ← (hheap e'.2).2]
    exact hp

/-- `SetActiveProject` keeps the data model. -/
theorem SetActiveProject_wellFormed (w : Env) (pm : ProjectManager) (projectID : String)
    (hwf : pm.wellFormed) : (pm.SetActiveProject w projectID).1.wellFormed := by
  cases h : mapGet pm.projects projectID with
  | none =>
      have : (pm.SetActiveProject w projectID).1 = pm := by
        unfold ProjectManager.SetActiveProject
        simp only [h]
      rw [this]
      exact hwf
  | some p =>
      have hproj := SetActiveProject_projects w pm projectID
      have hheap := SetActiveProject_heap w pm projectID p h
      have hnext : (pm.SetActiveProject w projectID).1.next = pm.next := by
        rw [SetActiveProject_found w pm projectID p h]
      apply wellFormed_of_same pm _ hwf
      · rw [hproj]
        exact hwf.1
      · intro e he
        rw [hproj] at he
        exact he
      · exact Nat.le_of_eq hnext.symm
      · exact fun q => ⟨hheap.2.2.1 q, hheap.2.2.2 q⟩

/-- The manager after `AddProject` put the new project into the map, before
the activation of a first project, satisfies the data model. -/
theorem inserted_wellFormed (w : Env) (pm : ProjectManager) (path name : String)
    (hwf : pm.wellFormed) (hfind : pm.findByPath (w.Clean path) = none) :
    ProjectManager.wellFormed
      { pm with
          heap := heapSet pm.heap pm.next
            { ID := w.newID, Name := name, Path := w.Clean path, LastAccessed := w.now,
              IsActive := false, Instances := [] },
          next := pm.next + 1,
          projects := mapSet pm.projects w.newID pm.next } := by
  have hno : ∀ e ∈ pm.projects, (pm.heap e.2).Path ≠ w.Clean path := by
    intro e he
    have := List.find?_eq_none.mp hfind e he
    simpa using this
  have hold : ∀ e ∈ pm.projects,
      heapSet pm.heap pm.next
        { ID := w.newID, Name := name, Path := w.Clean path, LastAccessed := w.now,
          IsActive := false, Instances := [] } e.2 = pm.heap e.2 := by
    intro e he
    exact heapSet_other _ _ (Nat.ne_of_lt (hwf.2.1 e he).1)
  refine ⟨mapSet_keys_nodup _ _ _ hwf.1, ?_, ?_⟩
  · intro e he
    rcases mem_mapSet _ _ _ _ he with h | h
    · subst h
      exact ⟨Nat.lt_succ_self _, by simp [heapSet_same]⟩
    · show e.2 < pm.next + 1 ∧ (heapSet pm.heap pm.next _ e.2).ID = e.1
      rw [hold e h]
      exact ⟨Nat.lt_succ_of_lt (hwf.2.1 e h).1, (hwf.2.1 e h).2⟩
  · intro e he e' he' hp
    have hp' : (heapSet pm.heap pm.next
        { ID := w.newID, Name := name, Path := w.Clean path, LastAccessed := w.now,
          IsActive := false, Instances := [] } e.2).Path
      = (heapSet pm.heap pm.next
        { ID := w.newID, Name := name, Path := w.Clean path, LastAccessed := w.now,
          IsActive := false, Instances := [] } e'.2).Path := hp
    rcases mem_mapSet _ _ _ _ he with h | h <;> rcases mem_mapSet _ _ _ _ he' with h' | h'
    · rw [h, h']
    · rw [h, hold e' h', heapSet_same] at hp'
      exact absurd hp'.symm (hno e' h')
    · rw [h', hold e h, heapSet_same] at hp'
      exact absurd hp' (hno e h)
    · rw [hold e h, hold e' h'] at hp'
      exact hwf.2.2 e h e' h' hp'

/-- The manager of `AddProject` at the save satisfies the data model. -/
theorem beforeSave_wellFormed (w : Env) (pm : ProjectManager) (path name : String)
    (hwf : pm.wellFormed) (hfind : pm.findByPath (w.Clean path) = none) :
    (pm.beforeSave w path name).wellFormed := by
  have hins := inserted_wellFormed w pm path name hwf hfind
  unfold ProjectManager.beforeSave
  simp only []
  split
  · exact SetActiveProject_wellFormed w _ _ hins
  · exact hins

/-- `AddProject` keeps the data model, whatever it returns. -/
theorem AddProject_wellFormed (w : Env) (pm : ProjectManager) (path name : String)
    (hwf : pm.wellFormed) : (pm.AddProject w path name).1.wellFormed := by
  cases hfind : pm.findByPath (w.Clean path) with
  | some e =>
      rw [AddProject_existing w pm path name e hfind]
      apply SetActiveProject_wellFormed
      refine wellFormed_of_same pm _ hwf ?_ ?_ ?_ ?_
      · exact hwf.1
      · exact fun _ h => h
      · exact Nat.le_refl _
      · intro q
        by_cases hq : q = e.2
        · subst hq
          simp [heapSet_same]
        · simp [heapSet_other _ _ hq]
  | none =>
      cases hnew : w.newProjectErr with
      | some err =>
          have : (pm.AddProject w path name).1 = pm := by
            unfold ProjectManager.AddProject
            simp only [hfind, NewProject, hnew]
          rw [this]
          exact hwf
      | none =>
          cases hex : w.notExist (w.Clean path) with
          | true =>
              have : (pm.AddProject w path name).1 = pm := by
                unfold ProjectManager.AddProject
                simp only [hfind, NewProject, hnew, hex, if_true]
              rw [this]
              exact hwf
          | false =>
              have hb := beforeSave_wellFormed w pm path name hwf hfind
              have hf := saveProjects_fields w (pm.beforeSave w path name)
              rw [AddProject_new w pm path name hfind hnew hex]
              cases w.saveErr with
              | some err =>
                  apply wellFormed_of_same _ _ hb
                  · exact mapDelete_keys_nodup _ _ hb.1
                  · exact fun e he => mem_mapDelete _ _ e he
                  · exact Nat.le_of_eq hf.2.2.2.2.symm
                  · intro q
                    show ((((pm.beforeSave w path name).saveProjects w).1.heap q).ID = _ ∧
                      (((pm.beforeSave w path name).saveProjects w).1.heap q).Path = _)
                    rw [hf.2.2.1]
                    exact ⟨rfl, rfl⟩
              | none =>
                  apply wellFormed_of_same _ _ hb
                  · show ((((pm.beforeSave w path name).saveProjects w).1.projects).map
                      Prod.fst).Nodup
                    rw [hf.2.1]
                    exact hb.1
                  · intro e he
                    have he' : e ∈ ((pm.beforeSave w path name).saveProjects w).1.projects := he
                    rw [hf.2.1] at he'
                    exact he'
                  · exact Nat.le_of_eq hf.2.2.2.2.symm
                  · intro q
                    show ((((pm.beforeSave w path name).saveProjects w).1.heap q).ID = _ ∧
                      (((pm.beforeSave w path name).saveProjects w).1.heap q).Path = _)
                    rw [hf.2.2.1]
                    exact ⟨rfl, rfl⟩

/-- `RemoveProject` keeps the data model, whatever it returns. -/
theorem RemoveProject_wellFormed (w : Env) (pm : ProjectManager) (projectID : String)
    (hwf : pm.wellFormed) : (pm.RemoveProject w projectID).1.wellFormed := by
  cases hp : mapGet pm.projects projectID with
  | none =>
      have : (pm.RemoveProject w projectID).1 = pm := by
        unfold ProjectManager.RemoveProject
        simp only [hp]
      rw [this]
      exact hwf
  | some p =>
      have hback : ∀ e ∈ mapSet (mapDelete pm.projects projectID) projectID p,
          e ∈ pm.projects := by
        intro e he
        rcases mem_mapSet _ _ _ _ he with h | h
        · rw [h]
          exact mapGet_mem _ _ _ hp
        · exact mem_mapDelete _ _ e h
      have hbacknd : ((mapSet (mapDelete pm.projects projectID) projectID p).map
          Prod.fst).Nodup :=
        mapSet_keys_nodup _ _ _ (mapDelete_keys_nodup _ _ hwf.1)
      rw [RemoveProject_found w pm projectID p hp]
      cases w.deleteErr with
      | some err =>
          exact wellFormed_of_same pm _ hwf hbacknd hback (Nat.le_refl _) (fun _ => ⟨rfl, rfl⟩)
      | none =>
          cases hse : w.saveErr with
          | some err =>
              refine wellFormed_of_same pm _ hwf hbacknd hback ?_ ?_
              · exact Nat.le_of_eq (saveProjects_fields w _).2.2.2.2.symm
              · intro q
                show (((ProjectManager.saveProjects w _).1.heap q).ID = _ ∧
                  ((ProjectManager.saveProjects w _).1.heap q).Path = _)
                rw [(saveProjects_fields w _).2.2.1]
                exact ⟨rfl, rfl⟩
          | none =>
              refine wellFormed_of_same pm _ hwf ?_ ?_ ?_ ?_
              · show (((ProjectManager.saveProjects w _).1.projects).map Prod.fst).Nodup
                rw [(saveProjects_fields w _).2.1]
                exact mapDelete_keys_nodup _ _ hwf.1
              · intro e he
                have he' : e ∈ (ProjectManager.saveProjects w _).1.projects := he
                rw [(saveProjects_fields w _).2.1] at he'
                exact mem_mapDelete _ _ e he'
              · exact Nat.le_of_eq (saveProjects_fields w _).2.2.2.2.symm
              · intro q
                show (((ProjectManager.saveProjects w _).1.heap q).ID = _ ∧
                  ((ProjectManager.saveProjects w _).1.heap q).Path = _)
                rw [(saveProjects_fields w _).2.2.1]
                exact ⟨rfl, rfl⟩

/-- Writing to one object a value with the same ID and path, then saving,
keeps the data model. -/
theorem saveProjects_heapSet_wellFormed (w : Env) (pm : ProjectManager) (p : Ptr) (v : Project)
    (hwf : pm.wellFormed) (hID : v.ID = (pm.heap p).ID) (hPath : v.Path = (pm.heap p).Path) :
    (ProjectManager.saveProjects w { pm with heap := heapSet pm.heap p v }).1.wellFormed := by
  have hf := saveProjects_fields w { pm with heap := heapSet pm.heap p v }
  refine wellFormed_of_same pm _ hwf ?_ ?_ ?_ ?_
  · rw [hf.2.1]
    exact hwf.1
  · intro e he
    rw [hf.2.1] at he
    exact he
  · exact Nat.le_of_eq hf.2.2.2.2.symm
  · intro q
    rw [hf.2.2.1]
    show (heapSet pm.heap p v q).ID = _ ∧ (heapSet pm.heap p v q).Path = _
    by_cases hq : q = p
    · subst hq
      rw [heapSet_same]
      exact ⟨hID, hPath⟩
    · rw [heapSet_other _ _ hq]
      exact ⟨rfl, rfl⟩

/-- Every registry method keeps the data model. -/
theorem step_wellFormed (w : Env) (pm : ProjectManager) (op : Op) (hwf : pm.wellFormed) :
    (pm.step w op).wellFormed := by
  cases op with
  | AddProject path name => exact AddProject_wellFormed w pm path name hwf
  | SetActiveProject projectID => exact SetActiveProject_wellFormed w pm projectID hwf
  | RemoveProject projectID => exact RemoveProject_wellFormed w pm projectID hwf
  | AddInstanceToProject projectID instanceID =>
      show (pm.AddInstanceToProject w projectID instanceID).1.wellFormed
      unfold ProjectManager.AddInstanceToProject
      cases hp : mapGet pm.projects projectID with
      | none => exact hwf
      | some p =>
          apply saveProjects_heapSet_wellFormed w pm p _ hwf
          · unfold Project.AddInstance
            split <;> rfl
          · unfold Project.AddInstance
            split <;> rfl
  | RemoveInstanceFromProject projectID instanceID =>
      show (pm.RemoveInstanceFromProject w projectID instanceID).1.wellFormed
      unfold ProjectManager.RemoveInstanceFromProject
      cases hp : mapGet pm.projects projectID with
      | none => exact hwf
      | some p =>
          simp only []
          split
          · apply saveProjects_heapSet_wellFormed w pm p _ hwf
            · unfold Project.RemoveInstance
              split <;> rfl
            · unfold Project.RemoveInstance
              split <;> rfl
          · exact hwf

/-- Every manager reached from the fresh one by registry calls, storage calls
failing or not, satisfies the data model. -/
theorem run_wellFormed (calls : List (Env × Op)) :
    ∀ pm : ProjectManager, pm.wellFormed → (pm.run calls).wellFormed := by
  induction calls with
  | nil => exact fun pm h => h
  | cons c rest ih =>
      intro pm h
      exact ih (pm.step c.1 c.2) (step_wellFormed c.1 pm c.2 h)

/-- The fresh manager satisfies the data model. -/
theorem fresh_wellFormed : ProjectManager.fresh.wellFormed :=
  ⟨List.nodup_nil, fun _ h => absurd h (List.not_mem_nil _),
    fun _ h => absurd h (List.not_mem_nil _)⟩

/-- In a manager that satisfies the data model every project of the registry
is found under its own ID and by its own path. -/
theorem wellFormed_entry (pm : ProjectManager) (hwf : pm.wellFormed) (k : String) (p : Ptr)
    (hmem : (k, p) ∈ pm.projects) :
    mapGet pm.projects (pm.heap p).ID = some p ∧
    (∀ e ∈ pm.projects, (pm.heap e.2).Path = (pm.heap p).Path → e.2 = p) := by
  refine ⟨?_, ?_⟩
  · rw [(hwf.2.1 (k, p) hmem).2]
    exact mapGet_of_mem _ _ _ hwf.1 hmem
  · intro e he hp
    rw [hwf.2.2 e he (k, p) hmem hp]

/-- `ListProjects` returns the projects of the map, each as often as the map
has it. -/
theorem ListProjects_perm (pm : ProjectManager) :
    pm.ListProjects.Perm (pm.projects.map Prod.snd) :=
  List.perm_insertionSort _ _

/-- `ListProjects` returns the projects by `lastAccessed`, latest first. -/
theorem ListProjects_sorted (pm : ProjectManager) :
    pm.ListProjects.Pairwise
      (fun a b => (pm.heap b).LastAccessed ≤ (pm.heap a).LastAccessed) := by
  haveI : IsTotal Ptr (fun a b => ¬ (pm.heap b).LastAccessed > (pm.heap a).LastAccessed) :=
    ⟨fun a b => by
      rcases Nat.le_total (pm.heap a).LastAccessed (pm.heap b).LastAccessed with h | h
      · exact Or.inr (Nat.not_lt.mpr h)
      · exact Or.inl (Nat.not_lt.mpr h)⟩
  haveI : IsTrans Ptr (fun a b => ¬ (pm.heap b).LastAccessed > (pm.heap a).LastAccessed) :=
    ⟨fun a b c hab hbc =>
      Nat.not_lt.mpr (Nat.le_trans (Nat.not_lt.mp hbc) (Nat.not_lt.mp hab))⟩
  have h := List.sorted_insertionSort
    (fun a b => ¬ (pm.heap b).LastAccessed > (pm.heap a).LastAccessed)
    (pm.projects.map Prod.snd)
  exact List.Pairwise.imp (fun hab => Nat.not_lt.mp hab) h

/-- A list of projects in non-increasing order of `lastAccessed`, whose
timestamps are distinct, is in strictly decreasing order. -/
theorem strictly_descending (heap : Ptr → Project) (l : List Ptr)
    (hs : l.Pairwise (fun a b => (heap b).LastAccessed ≤ (heap a).LastAccessed))
    (hd : (l.map (fun p => (heap p).LastAccessed)).Nodup) :
    l.Pairwise (fun a b => (heap b).LastAccessed < (heap a).LastAccessed) := by
  have hne : l.Pairwise (fun a b => (heap a).LastAccessed ≠ (heap b).LastAccessed) :=
    List.pairwise_map.mp hd
  exact List.Pairwise.imp (fun h => Nat.lt_of_le_of_ne h.1 (Ne.symm h.2)) (hs.and hne)

/-- The manager of `AddProject` at the save: the manager after the insertion,
with the new project activated when it is the only one. -/
theorem beforeSave_eq (w : Env) (pm : ProjectManager) (path name : String) :
    pm.beforeSave w path name =
      if (pm.inserted w path name).projects.length = 1 then
        ((pm.inserted w path name).SetActiveProject w w.newID).1
      else pm.inserted w path name := rfl

/-- When `AddProject` of a path no project has returns no error, `NewProject`
accepted, the path is on disk and the save succeeded. -/
theorem AddProject_new_ok (w : Env) (pm : ProjectManager) (path name : String)
    (hfind : pm.findByPath (w.Clean path) = none)
    (hok : (pm.AddProject w path name).2.2 = none) :
    w.newProjectErr = none ∧ w.notExist (w.Clean path) = false ∧ w.saveErr = none := by
  cases hnew : w.newProjectErr with
  | some e =>
      have : (pm.AddProject w path name).2.2
          = some (Err.wrap "failed to create project: " e) := by
        unfold ProjectManager.AddProject
        simp only [hfind, NewProject, hnew]
      rw [this] at hok
      exact absurd hok (by simp)
  | none =>
      cases hex : w.notExist (w.Clean path) with
      | true =>
          have : (pm.AddProject w path name).2.2
              = some (Err.msg ("project path does not exist: " ++ w.Clean path)) := by
            unfold ProjectManager.AddProject
            simp only [hfind, NewProject, hnew, hex, if_true]
          rw [this] at hok
          exact absurd hok (by simp)
      | false =>
          rw [AddProject_new w pm path name hfind hnew hex] at hok
          cases hse : w.saveErr with
          | some e =>
              rw [hse] at hok
              exact absurd hok (by simp)
          | none => exact ⟨rfl, rfl, rfl⟩

/-- A successful `AddProject` of a path no project has returns the new object
and leaves the manager of the save, with the storage updated. -/
theorem AddProject_new_success (w : Env) (pm : ProjectManager) (path name : String)
    (hfind : pm.findByPath (w.Clean path) = none)
    (hok : (pm.AddProject w path name).2.2 = none) :
    (pm.AddProject w path name).2.1 = some pm.next ∧
    (pm.AddProject w path name).1.projects = (pm.beforeSave w path name).projects ∧
    (pm.AddProject w path name).1.heap = (pm.beforeSave w path name).heap ∧
    (pm.AddProject w path name).1.activeProject = (pm.beforeSave w path name).activeProject := by
  obtain ⟨hnew, hex, hse⟩ := AddProject_new_ok w pm path name hfind hok
  have hf := saveProjects_fields w (pm.beforeSave w path name)
  rw [AddProject_new w pm path name hfind hnew hex, hse]
  exact ⟨rfl, hf.2.1, hf.2.2.1, hf.2.2.2.1⟩

/-- After `SetActiveProject` the active pointer refers to an allocated
object. -/
theorem SetActiveProject_activeAllocated (w : Env) (pm : ProjectManager) (projectID : String)
    (hwf : pm.wellFormed) (ha : pm.activeAllocated) :
    (pm.SetActiveProject w projectID).1.activeAllocated := by
  cases h : mapGet pm.projects projectID with
  | none =>
      have : (pm.SetActiveProject w projectID).1 = pm := by
        unfold ProjectManager.SetActiveProject
        simp only [h]
      rw [this]
      exact ha
  | some p =>
      rw [SetActiveProject_found w pm projectID p h]
      intro a hact
      have hap : p = a := by
        have h' : some p = some a := hact
        injection h'
      rw [← hap]
      exact (hwf.2.1 (projectID, p) (mapGet_mem _ _ _ h)).1

/-- What the first step of `RemoveProject` leaves as active pointer is nil or
the pointer before. -/
theorem clearIfActive_active (w : Env) (pm : ProjectManager) (projectID : String) :
    (pm.clearIfActive w projectID).activeProject = none ∨
    (pm.clearIfActive w projectID).activeProject = pm.activeProject := by
  unfold ProjectManager.clearIfActive
  simp only []
  split
  · exact Or.inl rfl
  · exact Or.inr rfl

/-- Every registry method leaves the active pointer on an allocated object. -/
theorem step_activeAllocated (w : Env) (pm : ProjectManager) (op : Op) (hwf : pm.wellFormed)
    (ha : pm.activeAllocated) : (pm.step w op).activeAllocated := by
  cases op with
  | SetActiveProject projectID => exact SetActiveProject_activeAllocated w pm projectID hwf ha
  | AddProject path name =>
      show (pm.AddProject w path name).1.activeAllocated
      cases hfind : pm.findByPath (w.Clean path) with
      | some e =>
          rw [AddProject_existing w pm path name e hfind]
          apply SetActiveProject_activeAllocated
          · refine wellFormed_of_same pm _ hwf ?_ ?_ ?_ ?_
            · exact hwf.1
            · exact fun _ h => h
            · exact Nat.le_refl _
            · intro q
              by_cases hq : q = e.2
              · subst hq
                simp [heapSet_same]
              · simp [heapSet_other _ _ hq]
          · exact ha
      | none =>
          cases hnew : w.newProjectErr with
          | some err =>
              have : (pm.AddProject w path name).1 = pm := by
                unfold ProjectManager.AddProject
                simp only [hfind, NewProject, hnew]
              rw [this]
              exact ha
          | none =>
              cases hex : w.notExist (w.Clean path) with
              | true =>
                  have : (pm.AddProject w path name).1 = pm := by
                    unfold ProjectManager.AddProject
                    simp only [hfind, NewProject, hnew, hex, if_true]
                  rw [this]
                  exact ha
              | false =>
                  have hins : (pm.inserted w path name).activeAllocated := by
                    intro a hact
                    exact Nat.lt_succ_of_lt (ha a hact)
                  have hb : (pm.beforeSave w path name).activeAllocated := by
                    rw [beforeSave_eq]
                    split
                    · exact SetActiveProject_activeAllocated w _ _
                        (inserted_wellFormed w pm path name hwf hfind) hins
                    · exact hins
                  have hf := saveProjects_fields w (pm.beforeSave w path name)
                  rw [AddProject_new w pm path name hfind hnew hex]
                  cases w.saveErr with
                  | some err =>
                      intro a hact
                      have hact' : ((pm.beforeSave w path name).saveProjects w).1.activeProject
                          = some a := hact
                      rw [hf.2.2.2.1] at hact'
                      show a < ((pm.beforeSave w path name).saveProjects w).1.next
                      rw [hf.2.2.2.2]
                      exact hb a hact'
                  | none =>
                      intro a hact
                      have hact' : ((pm.beforeSave w path name).saveProjects w).1.activeProject
                          = some a := hact
                      rw [hf.2.2.2.1] at hact'
                      show a < ((pm.beforeSave w path name).saveProjects w).1.next
                      rw [hf.2.2.2.2]
                      exact hb a hact'
  | RemoveProject projectID =>
      show (pm.RemoveProject w projectID).1.activeAllocated
      cases hp : mapGet pm.projects projectID with
      | none =>
          have : (pm.RemoveProject w projectID).1 = pm := by
            unfold ProjectManager.RemoveProject
            simp only [hp]
          rw [this]
          exact ha
      | some p =>
          have hc : ∀ a, (pm.clearIfActive w projectID).activeProject = some a → a < pm.next := by
            intro a hact
            rcases clearIfActive_active w pm projectID with h | h
            · rw [h] at hact
              cases hact
            · rw [h] at hact
              exact ha a hact
          rw [RemoveProject_found w pm projectID p hp]
          cases w.deleteErr with
          | some err => exact hc
          | none =>
              cases w.saveErr with
              | some err =>
                  intro a hact
                  have hact' : (ProjectManager.saveProjects w _).1.activeProject = some a := hact
                  rw [(saveProjects_fields w _).2.2.2.1] at hact'
                  show a < (ProjectManager.saveProjects w _).1.next
                  rw [(saveProjects_fields w _).2.2.2.2]
                  exact hc a hact'
              | none =>
                  intro a hact
                  have hact' : (ProjectManager.saveProjects w _).1.activeProject = some a := hact
                  rw [(saveProjects_fields w _).2.2.2.1] at hact'
                  show a < (ProjectManager.saveProjects w _).1.next
                  rw [(saveProjects_fields w _).2.2.2.2]
                  exact hc a hact'
  | AddInstanceToProject projectID instanceID =>
      show (pm.AddInstanceToProject w projectID instanceID).1.activeAllocated
      unfold ProjectManager.AddInstanceToProject
      cases hp : mapGet pm.projects projectID with
      | none => exact ha
      | some p =>
          intro a hact
          have hact' : (ProjectManager.saveProjects w _).1.activeProject = some a := hact
          rw [(saveProjects_fields w _).2.2.2.1] at hact'
          show a < (ProjectManager.saveProjects w _).1.next
          rw [(saveProjects_fields w _).2.2.2.2]
          exact ha a hact'
  | RemoveInstanceFromProject projectID instanceID =>
      show (pm.RemoveInstanceFromProject w projectID instanceID).1.activeAllocated
      unfold ProjectManager.RemoveInstanceFromProject
      cases hp : mapGet pm.projects projectID with
      | none => exact ha
      | some p =>
          simp only []
          split
          · intro a hact
            have hact' : (ProjectManager.saveProjects w _).1.activeProject = some a := hact
            rw [(saveProjects_fields w _).2.2.2.1] at hact'
            show a < (ProjectManager.saveProjects w _).1.next
            rw [(saveProjects_fields w _).2.2.2.2]
            exact ha a hact'
          · exact ha

/-- Every manager reached from a manager that satisfies the data model and
whose active pointer is allocated has its active pointer allocated. -/
theorem run_activeAllocated (calls : List (Env × Op)) :
    ∀ pm : ProjectManager, pm.wellFormed → pm.activeAllocated →
      (pm.run calls).activeAllocated := by
  induction calls with
  | nil => exact fun pm _ h => h
  | cons c rest ih =>
      intro pm hwf ha
      exact ih (pm.step c.1 c.2) (step_wellFormed c.1 pm c.2 hwf)
        (step_activeAllocated c.1 pm c.2 hwf ha)

/-- `loadProjects` leaves the active pointer alone. -/
theorem loadProjects_active (w : Env) (pm : ProjectManager) :
    (pm.loadProjects w).1.activeProject = pm.activeProject := by
  unfold ProjectManager.loadProjects
  simp only [Storage.GetProjects]
  cases pm.storage.projectsJSON with
  | none => rfl
  | some members =>
      simp only []
      split <;> rfl

/-- The manager `NewProjectManager` returns has the project stored under the
stored active ID as active pointer, and a nil active pointer when the stored
ID is empty or names no loaded project. -/
theorem NewProjectManager_active (w : Env) (st : Storage) (pm : ProjectManager)
    (h : NewProjectManager w (some st) = Except.ok pm) :
    pm.activeProject
      = if st.activeProject = "" then none else mapGet pm.projects st.activeProject := by
  unfold NewProjectManager at h
  simp only [Storage.GetActiveProject] at h
  have hact := loadProjects_active w
    { heap := fun _ => default, next := 0, projects := [], activeProject := none,
      storage := st.GetProjectHistory }
  have hmark : (ProjectManager.loadProjects w
      { heap := fun _ => default, next := 0, projects := [], activeProject := none,
        storage := st.GetProjectHistory }).1.storage.activeProject = st.activeProject := by
    unfold ProjectManager.loadProjects
    simp only [Storage.GetProjects, Storage.GetProjectHistory]
    cases st.projectsJSON with
    | none => rfl
    | some members =>
        simp only []
        split <;> rfl
  split at h
  · cases h
  · rw [hmark] at h
    by_cases hm : st.activeProject = ""
    · rw [if_neg (not_not.mpr hm)] at h
      injection h with h
      rw [← h, if_pos hm]
      exact hact
    · rw [if_pos hm] at h
      injection h with h
      rw [← h, if_neg hm]
      unfold ProjectManager.setActiveProjectByID
      simp only []
      split
      · rename_i hnone
        rw [hnone]
        exact hact
      · rename_i p hsome
        rw [hsome]

/-- For a path whose cleaned form is the path of no project of the registry
and on which `os.Stat` fails with an error of which `os.IsNotExist` holds,
`AddProject` returns no project and an error,
either the refusal of `NewProject` or "project path does not exist", and the
whole manager, the map, the active pointer, the storage and its record of
calls included, is as it was. -/
theorem AddProject_notExist_no_effect (w : Env) (pm : ProjectManager) (path name : String)
    (hfind : pm.findByPath (w.Clean path) = none) (hex : w.notExist (w.Clean path) = true) :
    (pm.AddProject w path name).1 = pm ∧
    (pm.AddProject w path name).2.1 = none ∧
    ((pm.AddProject w path name).2.2
        = some (Err.msg ("project path does not exist: " ++ w.Clean path)) ∨
      ∃ e, w.newProjectErr = some e ∧
        (pm.AddProject w path name).2.2 = some (Err.wrap "failed to create project: " e)) := by
  unfold ProjectManager.AddProject
  cases hnew : w.newProjectErr with
  | some e => simp [hfind, NewProject, hnew]
  | none => simp [hfind, NewProject, hnew, hex]

/-- `ValidateProjectPath` returns an error exactly when the path is empty, or
its cleaned form is not absolute, or `os.IsNotExist` holds of the error of
`os.Stat` on its cleaned form; it
returns the manager as it received it, storage and record of calls included;
that the path belongs to a registered project plays no part. -/
theorem ValidateProjectPath_error_iff (w : Env) (pm : ProjectManager) (path : String) :
    ((pm.ValidateProjectPath w path).2 ≠ none ↔
      (path = "" ∨ w.IsAbs (w.Clean path) = false ∨ w.notExist (w.Clean path) = true)) ∧
    (pm.ValidateProjectPath w path).1 = pm ∧
    (∀ e ∈ pm.projects, (pm.heap e.2).Path = w.Clean path → path ≠ "" →
      w.IsAbs (w.Clean path) = true → w.notExist (w.Clean path) = false →
      (pm.ValidateProjectPath w path).2 = none) := by
  unfold ProjectManager.ValidateProjectPath
  by_cases hp : path = ""
  · simp [hp]
  · cases ha : w.IsAbs (w.Clean path) <;> cases hn : w.notExist (w.Clean path) <;> simp [hp, ha, hn]

/-- Arithmetic on Go's `int` is exact when the exact result is an `int`. -/
theorem wrapInt_eq (x : Int) (h1 : -9223372036854775808 ≤ x) (h2 : x ≤ 9223372036854775807) :
    wrapInt x = x := by
  unfold wrapInt
  omega

/-- `clamp` gives a value between its bounds when they are in order. -/
theorem clamp_bounds (v low high : Int) (h : low ≤ high) :
    low ≤ clamp v low high ∧ clamp v low high ≤ high := by
  unfold clamp
  split <;> omega

/-- `clamp` between bounds in order is the middle one of the three values. -/
theorem clamp_eq (v low high : Int) (h : low ≤ high) :
    clamp v low high = min high (max low v) := by
  unfold clamp
  rw [if_neg (not_lt.mpr h)]

/-- The last offset is not negative. -/
theorem maxYOffset_nonneg (m : Viewport) : 0 ≤ m.maxYOffset :=
  le_max_left _ _

/-- For a height that is not negative the last offset is the number of lines
beyond the height, and lies within the lines. -/
theorem maxYOffset_eq (m : Viewport) (hH : heightFits m.Height) (hl : linesFit m.content) :
    m.maxYOffset = max 0 ((lineCount m.content : Int) - m.Height) ∧
    m.maxYOffset ≤ (lineCount m.content : Int) := by
  unfold heightFits at hH
  unfold linesFit at hl
  unfold Viewport.maxYOffset
  rw [wrapInt_eq _ (by omega) (by omega)]
  omega

/-- For a height that is not negative the last offset lies within the lines. -/
theorem bottomFits_of_height (m : Viewport) (hH : heightFits m.Height)
    (hl : linesFit m.content) : m.bottomFits :=
  (maxYOffset_eq m hH hl).2

/-- For a height that is a Go `int` and lines that can be counted, the last
offset lies within the lines exactly when the height is not negative or
`len(m.lines) - m.Height` wraps. -/
theorem bottomFits_iff (m : Viewport) (h1 : -9223372036854775808 ≤ m.Height)
    (h2 : m.Height ≤ 9223372036854775807) (hl : linesFit m.content) :
    m.bottomFits ↔
      (0 ≤ m.Height ∨ 9223372036854775807 < (lineCount m.content : Int) - m.Height) := by
  unfold linesFit at hl
  unfold Viewport.bottomFits Viewport.maxYOffset wrapInt
  omega

/-- `GotoBottom` returns exactly when the viewport has no lines or its last
offset lies within the lines, with the offset on the last offset and nothing
else changed; else it panics. -/
theorem GotoBottom_eq (m : Viewport) :
    m.GotoBottom
      = if lineCount m.content = 0 ∨ m.bottomFits then some m.sentToBottom else none := by
  have h0 := maxYOffset_nonneg m
  have hc : clamp m.maxYOffset 0 m.maxYOffset = m.maxYOffset := by
    rw [clamp_eq _ _ _ h0]
    omega
  have htop : max 0 m.maxYOffset = m.maxYOffset := max_eq_right h0
  have hG : m.GotoBottom
      = if Viewport.visibleLines m.sentToBottom = true then some m.sentToBottom else none := by
    unfold Viewport.GotoBottom Viewport.SetYOffset Viewport.sentToBottom
    simp only [hc]
  rw [hG]
  by_cases hL : lineCount m.content = 0
  · have hv : Viewport.visibleLines m.sentToBottom = true := by
      unfold Viewport.visibleLines
      rw [if_neg]
      show ¬ (lineCount m.content > 0)
      omega
    rw [if_pos hv, if_pos (Or.inl hL)]
  · have hpos : lineCount m.sentToBottom.content > 0 := by
      show lineCount m.content > 0
      omega
    by_cases hM : m.bottomFits
    · have hv : Viewport.visibleLines m.sentToBottom = true := by
        unfold Viewport.visibleLines
        rw [if_pos hpos]
        show sliceInBounds (max 0 m.maxYOffset)
          (clamp (wrapInt (m.maxYOffset + m.Height)) (max 0 m.maxYOffset)
            (lineCount m.content : Int)) (lineCount m.content) = true
        rw [htop]
        have hb := clamp_bounds (wrapInt (m.maxYOffset + m.Height)) m.maxYOffset
          (lineCount m.content : Int) hM
        unfold sliceInBounds
        exact decide_eq_true ⟨h0, hb.1, hb.2⟩
      rw [if_pos hv, if_pos (Or.inr hM)]
    · have hv : ¬ (Viewport.visibleLines m.sentToBottom = true) := by
        unfold Viewport.visibleLines
        rw [if_pos hpos]
        show ¬ (sliceInBounds (max 0 m.maxYOffset)
          (clamp (wrapInt (m.maxYOffset + m.Height)) (max 0 m.maxYOffset)
            (lineCount m.content : Int)) (lineCount m.content) = true)
        rw [htop]
        unfold sliceInBounds
        rw [decide_eq_true_iff]
        intro hb
        exact hM (le_trans hb.2.1 hb.2.2)
      rw [if_neg hv, if_neg]
      intro h
      rcases h with h | h
      · exact hL h
      · exact hM h

/-- A loaded content has at least one line. -/
theorem lineCount_some_pos (s : String) : 1 ≤ (lineCount (some s) : Int) := by
  unfold lineCount
  simp only []
  omega

/-- `GotoBottom` on a viewport with a content loaded returns exactly when the
last offset lies within the lines. -/
theorem GotoBottom_loaded (v : Viewport) (e : String) :
    (v.loaded e).GotoBottom
      = if (v.loaded e).bottomFits then some (v.loaded e).sentToBottom else none := by
  have hpos := lineCount_some_pos e
  have hL : ¬ (lineCount (v.loaded e).content = 0) := by
    show ¬ (lineCount (some e) = 0)
    omega
  rw [GotoBottom_eq]
  by_cases hM : (v.loaded e).bottomFits
  · rw [if_pos (Or.inr hM), if_pos hM]
  · rw [if_neg hM, if_neg]
    intro h
    rcases h with h | h
    · exact hL h
    · exact hM h

/-- A second `GotoBottom` changes nothing. -/
theorem GotoBottom_twice (m : Viewport) :
    m.GotoBottom.bind Viewport.GotoBottom = m.GotoBottom := by
  rw [GotoBottom_eq m]
  by_cases h : lineCount m.content = 0 ∨ m.bottomFits
  · rw [if_pos h, Option.some_bind, GotoBottom_eq]
    exact if_pos h
  · rw [if_neg h]
    rfl

/-- A viewport put on its last offset is at the bottom. -/
theorem atBottom_of_last (m : Viewport) :
    Viewport.AtBottom { m with YOffset := m.maxYOffset } = true := by
  unfold Viewport.AtBottom
  exact decide_eq_true (le_refl _)

/-- `SetContent` returns with the content loaded and the offset kept when the
offset is on a line of the new content. -/
theorem SetContent_keep (m : Viewport) (s : String) (hl : linesFit (some s))
    (h : m.YOffset ≤ (lineCount (some s) : Int) - 1) :
    m.SetContent s = some (m.loaded s) := by
  unfold linesFit at hl
  unfold Viewport.SetContent
  simp only []
  rw [wrapInt_eq _ (by omega) (by omega)]
  rw [if_neg (not_lt.mpr h)]
  rfl

/-- `SetContent` loads the content and calls `GotoBottom` when the offset is
beyond the last line of the new content. -/
theorem SetContent_bottom (m : Viewport) (s : String) (hl : linesFit (some s))
    (h : m.YOffset > (lineCount (some s) : Int) - 1) :
    m.SetContent s = (m.loaded s).GotoBottom := by
  unfold linesFit at hl
  unfold Viewport.SetContent
  simp only []
  rw [wrapInt_eq _ (by omega) (by omega)]
  rw [if_pos h]
  rfl

/-- The course of `UpdateContent` on the normal display path. -/
theorem UpdateContent_normal (r : Render) (p : PreviewPane) (i : Instance) (content : String)
    (h : i.normal content) :
    p.UpdateContent r (some i) =
      (p.instanceViewport i.addr (r.enhanceContent content i)).map (fun v =>
        (p.displayed i.addr (r.enhanceContent content i) v, none,
          if content = "" then [InstanceCall.Preview, InstanceCall.Started]
          else [InstanceCall.Preview])) := by
  obtain ⟨hp, hprev, hc⟩ := h
  unfold PreviewPane.UpdateContent
  simp only [hp, hprev, hc, if_false]

/-- Without a cached viewport `UpdateContent` loads the content into a
viewport of the size of the pane and calls `GotoBottom`. -/
theorem instanceViewport_new (p : PreviewPane) (addr : InstPtr) (e : String)
    (hnone : p.instancePositions addr = none) (hl : linesFit (some e)) :
    p.instanceViewport addr e = ((Viewport.New p.width p.height).loaded e).GotoBottom := by
  have h1 : (Viewport.New p.width p.height).SetContent e
      = some ((Viewport.New p.width p.height).loaded e) := by
    apply SetContent_keep _ _ hl
    have := lineCount_some_pos e
    show (0 : Int) ≤ _
    omega
  unfold PreviewPane.instanceViewport
  simp only [hnone, h1, Option.some_bind]

/-- With a cached viewport, on an instance switch or on new content that finds
the viewport at the bottom, `UpdateContent` loads the content into the cached
viewport and calls `GotoBottom`. -/
theorem instanceViewport_bottom (p : PreviewPane) (addr : InstPtr) (e : String) (v : Viewport)
    (hsome : p.instancePositions addr = some v) (hl : linesFit (some e))
    (hcase : p.activeInstance ≠ some addr ∨
      (p.instanceContent addr ≠ some e ∧ v.AtBottom = true)) :
    p.instanceViewport addr e = (v.loaded e).GotoBottom := by
  have hbr : ∀ v1 : Viewport,
      (if decide (p.activeInstance ≠ some addr) = true then v1.GotoBottom
        else if (decide (p.instanceContent addr ≠ some e) && v.AtBottom) = true then
          v1.GotoBottom
        else some v1) = v1.GotoBottom := by
    intro v1
    rcases hcase with h | ⟨h1, h2⟩
    · rw [if_pos (decide_eq_true h)]
    · by_cases hs : p.activeInstance ≠ some addr
      · rw [if_pos (decide_eq_true hs)]
      · rw [if_neg (by simpa using hs), if_pos (by simp [h1, h2])]
  unfold PreviewPane.instanceViewport
  simp only [hsome, hbr]
  by_cases hoff : v.YOffset ≤ (lineCount (some e) : Int) - 1
  · rw [SetContent_keep v e hl hoff, Option.some_bind]
  · rw [SetContent_bottom v e hl (not_le.mp hoff)]
    exact GotoBottom_twice _

/-- With a cached viewport, when the call is no instance switch and the content
is not new or the viewport was not at the bottom, `UpdateContent` loads the
content into the cached viewport: the offset is kept when it is on a line of
the new content, and `GotoBottom` is called when it is not. -/
theorem instanceViewport_other (p : PreviewPane) (addr : InstPtr) (e : String) (v : Viewport)
    (hsome : p.instancePositions addr = some v) (hl : linesFit (some e))
    (hcase : ¬ (p.activeInstance ≠ some addr ∨
      (p.instanceContent addr ≠ some e ∧ v.AtBottom = true))) :
    (v.YOffset ≤ (lineCount (some e) : Int) - 1 →
      p.instanceViewport addr e = some (v.loaded e)) ∧
    (v.YOffset > (lineCount (some e) : Int) - 1 →
      p.instanceViewport addr e = (v.loaded e).GotoBottom) := by
  rw [not_or] at hcase
  have h1 : ¬ (decide (p.activeInstance ≠ some addr) = true) := by
    simpa using hcase.1
  have h2 : ¬ ((decide (p.instanceContent addr ≠ some e) && v.AtBottom) = true) := by
    intro hb
    rw [Bool.and_eq_true, decide_eq_true_eq] at hb
    exact hcase.2 hb
  have hbr : ∀ v1 : Viewport,
      (if decide (p.activeInstance ≠ some addr) = true then v1.GotoBottom
        else if (decide (p.instanceContent addr ≠ some e) && v.AtBottom) = true then
          v1.GotoBottom
        else some v1) = some v1 := by
    intro v1
    rw [if_neg h1, if_neg h2]
  unfold PreviewPane.instanceViewport
  simp only [hsome, hbr]
  refine ⟨?_, ?_⟩
  · intro hoff
    rw [SetContent_keep v e hl hoff, Option.some_bind]
  · intro hoff
    rw [SetContent_bottom v e hl hoff]
    cases (v.loaded e).GotoBottom <;> rfl

/-- `setFallbackState` returns exactly when the screen can be loaded into the
displayed viewport: the offset is on a line of the screen or, with the screen
loaded, the last offset lies within the lines; else it panics.  When it
returns, the fallback flag is set, the screen is loaded into the displayed
viewport, and nothing else of the pane changes. -/
theorem setFallbackState_eq (r : Render) (p : PreviewPane) (message : String)
    (hl : linesFit (some (r.place p.width p.height message))) :
    (p.viewport.YOffset ≤ (lineCount (some (r.place p.width p.height message)) : Int) - 1 ∨
        (p.viewport.loaded (r.place p.width p.height message)).bottomFits →
      ∃ v, p.setFallbackState r message
        = some { p with previewState :=
                          { fallback := true, text := r.place p.width p.height message },
                        viewport := v }) ∧
    (¬ (p.viewport.YOffset ≤ (lineCount (some (r.place p.width p.height message)) : Int) - 1 ∨
        (p.viewport.loaded (r.place p.width p.height message)).bottomFits) →
      p.setFallbackState r message = none) := by
  unfold PreviewPane.setFallbackState
  simp only []
  by_cases hoff : p.viewport.YOffset
      ≤ (lineCount (some (r.place p.width p.height message)) : Int) - 1
  · rw [SetContent_keep _ _ hl hoff]
    exact ⟨fun _ => ⟨_, rfl⟩, fun h => absurd (Or.inl hoff) h⟩
  · rw [SetContent_bottom _ _ hl (not_le.mp hoff), GotoBottom_loaded]
    by_cases hM : (p.viewport.loaded (r.place p.width p.height message)).bottomFits
    · rw [if_pos hM]
      exact ⟨fun _ => ⟨_, rfl⟩, fun h => absurd (Or.inr hM) h⟩
    · rw [if_neg hM]
      refine ⟨fun h => ?_, fun _ => rfl⟩
      rcases h with h | h
      · exact absurd h hoff
      · exact absurd h hM

/-- Whatever `setFallbackState` returns has the fallback flag set and the
caches and the active session of the pane it started from. -/
theorem setFallbackState_frame (r : Render) (p q : PreviewPane) (message : String)
    (h : p.setFallbackState r message = some q) :
    q.previewState.fallback = true ∧ q.instancePositions = p.instancePositions ∧
    q.instanceContent = p.instanceContent ∧ q.activeInstance = p.activeInstance := by
  unfold PreviewPane.setFallbackState at h
  simp only [] at h
  cases hv : p.viewport.SetContent (r.place p.width p.height message) with
  | none =>
      rw [hv] at h
      cases h
  | some v =>
      rw [hv] at h
      simp only [Option.map_some'] at h
      cases h
      exact ⟨rfl, rfl, rfl, rfl⟩

/-- The course of `UpdateContent` on the normal display path for a session
that is not the active one: the content is loaded into the cached or new
viewport, which is put on its last offset; the call returns exactly when that
offset lies within the lines. -/
theorem UpdateContent_switch (r : Render) (p : PreviewPane) (i : Instance) (content : String)
    (h : i.normal content) (hl : linesFit (some (r.enhanceContent content i)))
    (hsw : p.activeInstance ≠ some i.addr) :
    p.UpdateContent r (some i) =
      if ((p.cachedOrNew i.addr).loaded (r.enhanceContent content i)).bottomFits then
        some (p.displayed i.addr (r.enhanceContent content i)
            (((p.cachedOrNew i.addr).loaded (r.enhanceContent content i)).sentToBottom),
          none,
          if content = "" then [InstanceCall.Preview, InstanceCall.Started]
          else [InstanceCall.Preview])
      else none := by
  have hv : p.instanceViewport i.addr (r.enhanceContent content i)
      = ((p.cachedOrNew i.addr).loaded (r.enhanceContent content i)).GotoBottom := by
    unfold PreviewPane.cachedOrNew
    cases hpos : p.instancePositions i.addr with
    | none => exact instanceViewport_new p i.addr _ hpos hl
    | some v => exact instanceViewport_bottom p i.addr _ v hpos hl (Or.inl hsw)
  rw [UpdateContent_normal r p i content h, hv, GotoBottom_loaded]
  by_cases hM : ((p.cachedOrNew i.addr).loaded (r.enhanceContent content i)).bottomFits
  · rw [if_pos hM, if_pos hM]
    rfl
  · rw [if_neg hM, if_neg hM]
    rfl

/-- The result of Go's `int` arithmetic is a Go `int`. -/
theorem wrapInt_range (x : Int) :
    -9223372036854775808 ≤ wrapInt x ∧ wrapInt x ≤ 9223372036854775807 := by
  unfold wrapInt
  omega

/-- The last offset is a Go `int`. -/
theorem maxYOffset_le (m : Viewport) : m.maxYOffset ≤ 9223372036854775807 := by
  have h := (wrapInt_range ((lineCount m.content : Int) - m.Height)).2
  unfold Viewport.maxYOffset
  omega

/-- `LineUp` and `LineDown` keep the size and the content of the viewport. -/
theorem Line_fields (m v : Viewport) (n : Int) (h : m.LineUp n = some v ∨ m.LineDown n = some v) :
    v.Width = m.Width ∧ v.Height = m.Height ∧ v.content = m.content := by
  rcases h with h | h
  · unfold Viewport.LineUp at h
    split at h
    · injection h with h
      rw [← h]
      exact ⟨rfl, rfl, rfl⟩
    · simp only [] at h
      split at h
      · injection h with h
        rw [← h]
        exact ⟨rfl, rfl, rfl⟩
      · cases h
  · unfold Viewport.LineDown at h
    split at h
    · injection h with h
      rw [← h]
      exact ⟨rfl, rfl, rfl⟩
    · simp only [] at h
      split at h
      · injection h with h
        rw [← h]
        exact ⟨rfl, rfl, rfl⟩
      · cases h

/-- `LineDown` at the bottom or without lines leaves the viewport as it is. -/
theorem LineDown_guard (m : Viewport) (n : Int)
    (h : m.maxYOffset ≤ m.YOffset ∨ lineCount m.content = 0) : m.LineDown n = some m := by
  unfold Viewport.LineDown Viewport.AtBottom
  rw [if_pos]
  rcases h with h | h
  · exact Or.inl (decide_eq_true h)
  · exact Or.inr (Or.inr h)

/-- `LineDown` above the bottom of a viewport with lines returns, the offset
moved by `SetYOffset`: the slice it evaluates is always within bounds. -/
theorem LineDown_move (m : Viewport) (n : Int) (hn : n ≠ 0)
    (h1 : m.YOffset < m.maxYOffset) (h2 : lineCount m.content ≠ 0) :
    m.LineDown n
      = some { m with YOffset := clamp (wrapInt (m.YOffset + n)) 0 m.maxYOffset } := by
  unfold Viewport.LineDown Viewport.AtBottom
  rw [if_neg]
  · simp only []
    rw [if_pos]
    · rfl
    · have hb := clamp_bounds
        (wrapInt ((m.SetYOffset (wrapInt (m.YOffset + n))).YOffset
          + (m.SetYOffset (wrapInt (m.YOffset + n))).Height)) 0
        (lineCount (m.SetYOffset (wrapInt (m.YOffset + n))).content : Int)
        (Int.ofNat_nonneg _)
      have ht := clamp_bounds
        (wrapInt (wrapInt ((m.SetYOffset (wrapInt (m.YOffset + n))).YOffset
          + (m.SetYOffset (wrapInt (m.YOffset + n))).Height) - n)) 0
        (clamp (wrapInt ((m.SetYOffset (wrapInt (m.YOffset + n))).YOffset
          + (m.SetYOffset (wrapInt (m.YOffset + n))).Height)) 0
          (lineCount (m.SetYOffset (wrapInt (m.YOffset + n))).content : Int)) hb.1
      unfold sliceInBounds
      exact decide_eq_true ⟨ht.1, ht.2, hb.2⟩
  · intro h
    rcases h with h | h | h
    · exact absurd (of_decide_eq_true h) (not_le.mpr h1)
    · exact hn h
    · exact h2 h

/-- `LineUp` at the top or without lines leaves the viewport as it is. -/
theorem LineUp_guard (m : Viewport) (n : Int)
    (h : m.YOffset ≤ 0 ∨ lineCount m.content = 0) : m.LineUp n = some m := by
  unfold Viewport.LineUp Viewport.AtTop
  rw [if_pos]
  rcases h with h | h
  · exact Or.inl (decide_eq_true h)
  · exact Or.inr (Or.inr h)

/-- `LineUp` below the top of a viewport with lines moves the offset by
`SetYOffset` and returns exactly when the slice it evaluates is within
bounds. -/
theorem LineUp_move (m : Viewport) (n : Int) (hn : n ≠ 0)
    (h1 : 0 < m.YOffset) (h2 : lineCount m.content ≠ 0) :
    m.LineUp n
      = if sliceInBounds (max 0 (clamp (wrapInt (m.YOffset - n)) 0 m.maxYOffset))
            (clamp (wrapInt (clamp (wrapInt (m.YOffset - n)) 0 m.maxYOffset + n)) 0
              m.maxYOffset) (lineCount m.content) = true
        then some { m with YOffset := clamp (wrapInt (m.YOffset - n)) 0 m.maxYOffset }
        else none := by
  unfold Viewport.LineUp Viewport.AtTop
  rw [if_neg]
  · rfl
  · intro h
    rcases h with h | h | h
    · exact absurd (of_decide_eq_true h) (not_le.mpr h1)
    · exact hn h
    · exact h2 h

/-- The bounds of the slice of `LineUp`, in numbers: below the top, with `L`
lines, last offset `M` and a step `n` of 1 to 10, the slice is within bounds
exactly when `M ≤ L`, or the step and the offset are at most `L`. -/
theorem LineUp_slice (Y n M : Int) (L : Nat) (hn1 : 1 ≤ n) (hn10 : n ≤ 10) (h1 : 0 < Y)
    (hY : Y ≤ 9223372036854775807) (h0 : 0 ≤ M) (hM : M ≤ 9223372036854775807)
    (hL : (L : Int) + 10 ≤ 9223372036854775807) :
    (sliceInBounds (max 0 (clamp (wrapInt (Y - n)) 0 M))
        (clamp (wrapInt (clamp (wrapInt (Y - n)) 0 M + n)) 0 M) L = true
      ↔ (M ≤ (L : Int) ∨ (n ≤ (L : Int) ∧ Y ≤ (L : Int)))) ∧
    clamp (wrapInt (Y - n)) 0 M = clamp (Y - n) 0 M := by
  rw [wrapInt_eq (Y - n) (by omega) (by omega)]
  refine ⟨?_, rfl⟩
  rw [clamp_eq (Y - n) 0 M h0, clamp_eq _ 0 M h0]
  unfold sliceInBounds wrapInt
  rw [decide_eq_true_iff]
  omega

/-- `LineDown` returns from every viewport. -/
theorem LineDown_isSome (m : Viewport) (n : Int) : (m.LineDown n).isSome = true := by
  by_cases hn : n = 0
  · unfold Viewport.LineDown
    rw [if_pos (Or.inr (Or.inl hn))]
    rfl
  · by_cases hg : m.maxYOffset ≤ m.YOffset ∨ lineCount m.content = 0
    · rw [LineDown_guard m n hg]
      rfl
    · rw [LineDown_move m n hn (by omega) (fun h => hg (Or.inr h))]
      rfl

/-- When `LineDown` by 1 to 10 lines leaves the offset moved down by the step
and clamped to the offsets 0 to the last one: exactly when the viewport is on
its last offset, or holds lines, is above the last offset and the sum is a Go
`int`. -/
theorem LineDown_offset (m : Viewport) (n : Int) (hn1 : 1 ≤ n) (hn10 : n ≤ 10)
    (hY : -9223372036854775808 ≤ m.YOffset) :
    (m.LineDown n).map Viewport.YOffset = some (clamp (m.YOffset + n) 0 m.maxYOffset) ↔
      (m.YOffset = m.maxYOffset ∨
        (lineCount m.content ≠ 0 ∧ m.YOffset < m.maxYOffset ∧
          m.YOffset + n ≤ 9223372036854775807)) := by
  have h0 := maxYOffset_nonneg m
  have hM := maxYOffset_le m
  by_cases hg : m.maxYOffset ≤ m.YOffset ∨ lineCount m.content = 0
  · rw [LineDown_guard m n hg, Option.map_some', clamp_eq _ 0 _ h0]
    constructor
    · intro h
      injection h with h
      omega
    · intro h
      apply congrArg some
      omega
  · have h2 : lineCount m.content ≠ 0 := fun h => hg (Or.inr h)
    rw [LineDown_move m n (by omega) (by omega) h2, Option.map_some']
    show some (clamp (wrapInt (m.YOffset + n)) 0 m.maxYOffset)
      = some (clamp (m.YOffset + n) 0 m.maxYOffset) ↔ _
    rw [clamp_eq (wrapInt (m.YOffset + n)) 0 _ h0, clamp_eq (m.YOffset + n) 0 _ h0]
    unfold wrapInt
    constructor
    · intro h
      injection h with h
      omega
    · intro h
      apply congrArg some
      omega

/-- When `LineUp` by 1 to 10 lines returns, and when it leaves the offset moved
up by the step and clamped to the offsets 0 to the last one, for an offset that
is a Go `int` and lines that can be counted.  It returns exactly at the top,
without lines, with the last offset within the lines, or with the step and the
offset within the lines.  The offset is the clamped one exactly at offset 0, or
below the top of a viewport with lines when the call returns. -/
theorem LineUp_spec (m : Viewport) (n : Int) (hn1 : 1 ≤ n) (hn10 : n ≤ 10)
    (hY : m.YOffset ≤ 9223372036854775807) (hl : linesFit m.content) :
    ((m.LineUp n).isSome = true ↔
      (m.YOffset ≤ 0 ∨ lineCount m.content = 0 ∨
        m.maxYOffset ≤ (lineCount m.content : Int) ∨
        (n ≤ (lineCount m.content : Int) ∧ m.YOffset ≤ (lineCount m.content : Int)))) ∧
    ((m.LineUp n).map Viewport.YOffset = some (clamp (m.YOffset - n) 0 m.maxYOffset) ↔
      (m.YOffset = 0 ∨
        (0 < m.YOffset ∧ lineCount m.content ≠ 0 ∧
          (m.maxYOffset ≤ (lineCount m.content : Int) ∨
            (n ≤ (lineCount m.content : Int) ∧
              m.YOffset ≤ (lineCount m.content : Int)))))) := by
  have h0 := maxYOffset_nonneg m
  have hM := maxYOffset_le m
  by_cases hg : m.YOffset ≤ 0 ∨ lineCount m.content = 0
  · rw [LineUp_guard m n hg, Option.map_some', clamp_eq _ 0 _ h0]
    refine ⟨⟨fun _ => ?_, fun _ => rfl⟩, ⟨fun h => ?_, fun h => ?_⟩⟩
    · rcases hg with hg | hg
      · exact Or.inl hg
      · exact Or.inr (Or.inl hg)
    · injection h with h
      rcases hg with hg | hg
      · omega
      · have : (lineCount m.content : Int) = 0 := by omega
        omega
    · apply congrArg some
      rcases hg with hg | hg
      · omega
      · rcases h with h | h
        · omega
        · exact absurd hg h.2.1
  · have h1 : 0 < m.YOffset := by
      rcases Int.lt_or_le 0 m.YOffset with h | h
      · exact h
      · exact absurd (Or.inl h) hg
    have h2 : lineCount m.content ≠ 0 := fun h => hg (Or.inr h)
    have hs := LineUp_slice m.YOffset n m.maxYOffset (lineCount m.content) hn1 hn10 h1 hY h0 hM hl
    rw [LineUp_move m n (by omega) h1 h2]
    by_cases hc : m.maxYOffset ≤ (lineCount m.content : Int) ∨
        (n ≤ (lineCount m.content : Int) ∧ m.YOffset ≤ (lineCount m.content : Int))
    · rw [if_pos (hs.1.mpr hc), Option.map_some']
      refine ⟨⟨fun _ => Or.inr (Or.inr hc), fun _ => rfl⟩, ⟨fun _ => Or.inr ⟨h1, h2, hc⟩, fun _ => ?_⟩⟩
      exact congrArg some hs.2
    · rw [if_neg (fun h => hc (hs.1.mp h))]
      refine ⟨⟨fun h => ?_, fun h => ?_⟩, ⟨fun h => ?_, fun h => ?_⟩⟩
      · cases h
      · rcases h with h | h | h
        · omega
        · exact absurd h h2
        · exact absurd h hc
      · cases h
      · rcases h with h | h
        · omega
        · exact absurd h.2.2 hc

/-- The pane after `syncViewportToMap` on a pane with active session `a` whose
displayed viewport was replaced by one of the same size and content: the frame
of a scroll operation holds. -/
theorem sync_frame (p : PreviewPane) (a : InstPtr) (v : Viewport)
    (hact : p.activeInstance = some a) (hw : v.Width = p.viewport.Width)
    (hh : v.Height = p.viewport.Height) (hc : v.content = p.viewport.content) :
    p.scrollFrame (PreviewPane.syncViewportToMap { p with viewport := v }) a := by
  have hs : PreviewPane.syncViewportToMap { p with viewport := v }
      = { p with viewport := v, instancePositions := instSet p.instancePositions a v } := by
    unfold PreviewPane.syncViewportToMap
    simp only [hact]
  rw [hs]
  refine ⟨?_, ?_, rfl, rfl, hw, hh, hc⟩
  · show instSet p.instancePositions a v a = some v
    unfold instSet
    rw [if_pos rfl]
  · intro j hj
    show instSet p.instancePositions a v j = p.instancePositions j
    unfold instSet
    rw [if_neg hj]

/-- A scroll operation returns when the library returns, and the displayed
offset after it is the offset of the viewport the library returned. -/
theorem sync_result (p : PreviewPane) (o : Option Viewport) :
    (o.map (fun v => PreviewPane.syncViewportToMap { p with viewport := v })).isSome
      = o.isSome ∧
    (o.map (fun v => PreviewPane.syncViewportToMap { p with viewport := v })).map
        (fun q => q.viewport.YOffset) = o.map Viewport.YOffset := by
  cases o with
  | none => exact ⟨rfl, rfl⟩
  | some v =>
      refine ⟨rfl, ?_⟩
      show some (PreviewPane.syncViewportToMap { p with viewport := v }).viewport.YOffset
        = some v.YOffset
      unfold PreviewPane.syncViewportToMap
      cases p.activeInstance <;> rfl

/-- The frame of a scroll operation that returned, from the frame of the call
of the library. -/
theorem sync_frame_of (p q : PreviewPane) (a : InstPtr) (o : Option Viewport)
    (hact : p.activeInstance = some a)
    (hf : ∀ v, o = some v →
      v.Width = p.viewport.Width ∧ v.Height = p.viewport.Height ∧
        v.content = p.viewport.content)
    (h : o.map (fun v => PreviewPane.syncViewportToMap { p with viewport := v }) = some q) :
    p.scrollFrame q a := by
  cases o with
  | none => cases h
  | some v =>
      have hv := hf v rfl
      injection h with h
      rw [← h]
      exact sync_frame p a v hact hv.1 hv.2.1 hv.2.2

/-! ## The contract of the registry -/

/-- C1 fails on the code.  From the fresh manager: add `A` (it becomes active),
add `B`, call `RemoveProject("A")` while `storage.DeleteProject` fails, then
`SetActiveProject("B")`.  The failed removal puts `A` back into the map with its
flag still true but leaves the active pointer nil, so the activation of `B`
deactivates nothing: two projects of the registry are flagged active. -/
theorem C1_two_active_after_failed_remove :
    (ProjectManager.twoProjects.run
        [(Env.deleteFails 3 "", Op.RemoveProject "A"),
         (Env.allSucceed 4 "", Op.SetActiveProject "B")]).activeCount = 2 ∧
    (ProjectManager.twoProjects.run
        [(Env.deleteFails 3 "", Op.RemoveProject "A"),
         (Env.allSucceed 4 "", Op.SetActiveProject "B")]).oneActive = false := by
  decide

/-- C2 fails on the code.  `AddProject` of the first project while
`storage.SaveProjects` fails: the project was made active before the save, the
rollback takes it out of the map only, and the active pointer keeps referring
to a project that is no entry of the map. -/
theorem C2_active_pointer_outside_map :
    (ProjectManager.fresh.run [(Env.saveFails 1 "A", Op.AddProject "/a" "a")]).activeProject
        = some 0 ∧
    (ProjectManager.fresh.run [(Env.saveFails 1 "A", Op.AddProject "/a" "a")]).projects = [] ∧
    (ProjectManager.fresh.run [(Env.saveFails 1 "A", Op.AddProject "/a" "a")]).activeInMap
        = false := by
  decide

/-- C3 fails on the code.  Two calls that return an error and leave the active
pointer changed: `AddProject` of the first project with a failing save (nil
before, the rolled-back project after), and `RemoveProject` of the active
project with a failing storage delete (the project before, nil after). -/
theorem C3_error_changes_active_pointer :
    ((ProjectManager.fresh.AddProject (Env.saveFails 1 "A") "/a" "a").2.2
        = some (Err.wrap "failed to save project: " (Err.msg "disk full")) ∧
      ProjectManager.fresh.activeProject = none ∧
      (ProjectManager.fresh.AddProject (Env.saveFails 1 "A") "/a" "a").1.activeProject = some 0) ∧
    ((ProjectManager.twoProjects.RemoveProject (Env.deleteFails 3 "") "A").2
        = some (Err.wrap "failed to delete project from storage: " (Err.msg "disk full")) ∧
      ProjectManager.twoProjects.activeProject = some 0 ∧
      (ProjectManager.twoProjects.RemoveProject (Env.deleteFails 3 "") "A").1.activeProject
        = none) := by
  decide

/-- C4: when `AddProject` of a path no project has fails on the save (the new
ID being no key of the map), the map after the call is the map before it, the
projects in it are untouched, and the storage error comes back wrapped; when
`RemoveProject` of a key of the map fails on the storage delete, or on the
save that follows a successful delete, every key has after the call the
project it had before, no project object was changed, and the storage error
comes back wrapped. -/
theorem C4_rollback_restores_map (w : Env) (pm : ProjectManager) :
    (∀ path name e,
      pm.findByPath (w.Clean path) = none → w.newProjectErr = none →
      w.notExist (w.Clean path) = false → mapGet pm.projects w.newID = none →
      w.saveErr = some e →
      (pm.AddProject w path name).1.projects = pm.projects ∧
      (∀ x ∈ pm.projects, x.2 < pm.next →
        (pm.AddProject w path name).1.heap x.2 = pm.heap x.2) ∧
      (pm.AddProject w path name).2 = (none, some (Err.wrap "failed to save project: " e))) ∧
    (∀ projectID p e,
      mapGet pm.projects projectID = some p → w.deleteErr = some e →
      (∀ k, mapGet (pm.RemoveProject w projectID).1.projects k = mapGet pm.projects k) ∧
      (pm.RemoveProject w projectID).1.heap = pm.heap ∧
      (pm.RemoveProject w projectID).2
        = some (Err.wrap "failed to delete project from storage: " e)) ∧
    (∀ projectID p e,
      mapGet pm.projects projectID = some p → w.deleteErr = none → w.saveErr = some e →
      (∀ k, mapGet (pm.RemoveProject w projectID).1.projects k = mapGet pm.projects k) ∧
      (pm.RemoveProject w projectID).1.heap = pm.heap ∧
      (pm.RemoveProject w projectID).2
        = some (Err.wrap "failed to save projects after deletion: " e)) := by
  refine ⟨?_, ?_, ?_⟩
  · intro path name e hfind hnew hex hid hsave
    rw [AddProject_new w pm path name hfind hnew hex, hsave]
    refine ⟨?_, ?_, rfl⟩
    · show mapDelete (pm.beforeSave w path name).projects w.newID = pm.projects
      rw [beforeSave_projects, mapDelete_mapSet_new _ _ _ hid]
    · intro x hx hlt
      show ((pm.beforeSave w path name).saveProjects w).1.heap x.2 = pm.heap x.2
      rw [(saveProjects_fields w _).2.2.1]
      exact beforeSave_heap w pm path name hid (List.ne_nil_of_mem hx) x.2 (Nat.ne_of_lt hlt)
  · intro projectID p e hp hde
    have hk : ∀ k, mapGet (mapSet (mapDelete pm.projects projectID) projectID p) k
        = mapGet pm.projects k := by
      intro k
      rw [mapGet_mapSet, mapGet_mapDelete]
      by_cases hkp : k = projectID
      · rw [if_pos hkp, hkp, hp]
      · rw [if_neg hkp, if_neg hkp]
    rw [RemoveProject_found w pm projectID p hp, hde]
    exact ⟨hk, rfl, rfl⟩
  · intro projectID p e hp hde hse
    have hk : ∀ k, mapGet (mapSet (mapDelete pm.projects projectID) projectID p) k
        = mapGet pm.projects k := by
      intro k
      rw [mapGet_mapSet, mapGet_mapDelete]
      by_cases hkp : k = projectID
      · rw [if_pos hkp, hkp, hp]
      · rw [if_neg hkp, if_neg hkp]
    rw [RemoveProject_found w pm projectID p hp, hde]
    rw [hse]
    exact ⟨hk, (saveProjects_fields w _).2.2.1, rfl⟩

/-- The witness of C4: on the registry of `A` and `B`, adding `/c` with a
failing save, removing `A` with a failing storage delete, and removing `B`
with a failing save. -/
theorem C4_rollback_restores_map_witness :
    ((ProjectManager.twoProjects.AddProject (Env.saveFails 3 "C") "/c" "c").1.projects
        = ProjectManager.twoProjects.projects ∧
      (ProjectManager.twoProjects.AddProject (Env.saveFails 3 "C") "/c" "c").2
        = (none, some (Err.wrap "failed to save project: " (Err.msg "disk full")))) ∧
    (mapGet (ProjectManager.twoProjects.RemoveProject (Env.deleteFails 3 "") "A").1.projects "A"
        = mapGet ProjectManager.twoProjects.projects "A" ∧
      (ProjectManager.twoProjects.RemoveProject (Env.deleteFails 3 "") "A").2
        = some (Err.wrap "failed to delete project from storage: " (Err.msg "disk full"))) ∧
    (mapGet (ProjectManager.twoProjects.RemoveProject (Env.saveFails 3 "") "B").1.projects "B"
        = mapGet ProjectManager.twoProjects.projects "B" ∧
      (ProjectManager.twoProjects.RemoveProject (Env.saveFails 3 "") "B").2
        = some (Err.wrap "failed to save projects after deletion: " (Err.msg "disk full"))) :=
  have ha := (C4_rollback_restores_map (Env.saveFails 3 "C") ProjectManager.twoProjects).1
    "/c" "c" (Err.msg "disk full") (by decide) (by decide) (by decide) (by decide) (by decide)
  have hd := (C4_rollback_restores_map (Env.deleteFails 3 "") ProjectManager.twoProjects).2.1
    "A" 0 (Err.msg "disk full") (by decide) (by decide)
  have hs := (C4_rollback_restores_map (Env.saveFails 3 "") ProjectManager.twoProjects).2.2
    "B" 1 (Err.msg "disk full") (by decide) (by decide) (by decide)
  ⟨⟨ha.1, ha.2.2⟩, ⟨hd.1 "A", hd.2.2⟩, ⟨hs.1 "B", hs.2.2⟩⟩

/-- C5 fails on the code.  On the registry of `A` and `B`, `AddInstanceToProject`
of `i1` to `A` while `storage.SaveProjects` fails returns the error and leaves
`i1` in the list of `A`; and after `i1` was added for good,
`RemoveInstanceFromProject` with a failing save returns the error and leaves
the list of `A` without `i1`.  Neither method undoes its change. -/
theorem C5_instance_change_not_rolled_back :
    ((ProjectManager.twoProjects.AddInstanceToProject (Env.saveFails 3 "") "A" "i1").2
        = some (Err.msg "disk full") ∧
      (ProjectManager.twoProjects.heap 0).Instances = [] ∧
      ((ProjectManager.twoProjects.AddInstanceToProject (Env.saveFails 3 "") "A" "i1").1.heap
        0).Instances = ["i1"]) ∧
    (((ProjectManager.twoProjects.run
          [(Env.allSucceed 3 "", Op.AddInstanceToProject "A" "i1")]).RemoveInstanceFromProject
        (Env.saveFails 4 "") "A" "i1").2 = some (Err.msg "disk full") ∧
      ((ProjectManager.twoProjects.run
          [(Env.allSucceed 3 "", Op.AddInstanceToProject "A" "i1")]).heap 0).Instances = ["i1"] ∧
      (((ProjectManager.twoProjects.run
          [(Env.allSucceed 3 "", Op.AddInstanceToProject "A" "i1")]).RemoveInstanceFromProject
        (Env.saveFails 4 "") "A" "i1").1.heap 0).Instances = []) := by
  decide

/-- C6 fails on the code as stated.  On the registry of `A` (active) and `B`,
`AddProject` of the path of `B` succeeds by reactivating `B` and saves nothing:
in memory `B` is active and `A` is not, in the project set last saved it is the
other way round. -/
theorem C6_reactivation_not_saved :
    (ProjectManager.twoProjects.AddProject (Env.allSucceed 9 "") "/b" "b").2 = (some 1, none) ∧
    loadedProjectSet (Env.allSucceed 10 "")
        (ProjectManager.twoProjects.AddProject (Env.allSucceed 9 "") "/b" "b").1.storage
      = some [("A", { ID := "A", Name := "a", Path := "/a", LastAccessed := 1, IsActive := true,
                      Instances := [] }),
              ("B", { ID := "B", Name := "b", Path := "/b", LastAccessed := 2, IsActive := false,
                      Instances := [] })] ∧
    (ProjectManager.twoProjects.AddProject (Env.allSucceed 9 "") "/b" "b").1.projectSet
      = [("A", { ID := "A", Name := "a", Path := "/a", LastAccessed := 1, IsActive := false,
                 Instances := [] }),
         ("B", { ID := "B", Name := "b", Path := "/b", LastAccessed := 9, IsActive := true,
                 Instances := [] })] ∧
    loadedProjectSet (Env.allSucceed 10 "")
        (ProjectManager.twoProjects.AddProject (Env.allSucceed 9 "") "/b" "b").1.storage
      ≠ some (ProjectManager.twoProjects.AddProject (Env.allSucceed 9 "") "/b" "b").1.projectSet := by
  decide

/-- C6 as amended: after an `AddProject` that creates a new project and returns
success, and after a `RemoveProject` that returns success, the storage holds
the in-memory project set (IDs, paths, names, active flags, lastAccessed,
instance lists), and loading it gives that set back.  The keys of the map are
distinct, as in any Go map, and `Validate` accepts the projects in memory.
The state before the call is any state, so this holds after each such call of
any sequence. -/
theorem C6_saved_equals_memory (w w' : Env) (pm : ProjectManager)
    (hkeys : (pm.projects.map Prod.fst).Nodup) :
    (∀ path name,
      pm.findByPath (w.Clean path) = none → (pm.AddProject w path name).2.2 = none →
      (∀ e ∈ (pm.AddProject w path name).1.projectSet, w'.Validate e.2 = none) →
      (pm.AddProject w path name).1.storage.projectsJSON
        = some (pm.AddProject w path name).1.projectSet ∧
      loadedProjectSet w' (pm.AddProject w path name).1.storage
        = some (pm.AddProject w path name).1.projectSet) ∧
    (∀ projectID,
      (pm.RemoveProject w projectID).2 = none →
      (∀ e ∈ (pm.RemoveProject w projectID).1.projectSet, w'.Validate e.2 = none) →
      (pm.RemoveProject w projectID).1.storage.projectsJSON
        = some (pm.RemoveProject w projectID).1.projectSet ∧
      loadedProjectSet w' (pm.RemoveProject w projectID).1.storage
        = some (pm.RemoveProject w projectID).1.projectSet) := by
  refine ⟨?_, ?_⟩
  · intro path name hfind
    cases hnew : w.newProjectErr with
    | some e =>
        intro hok
        have : (pm.AddProject w path name).2.2
            = some (Err.wrap "failed to create project: " e) := by
          unfold ProjectManager.AddProject
          simp only [hfind, NewProject, hnew]
        rw [this] at hok
        exact absurd hok (by simp)
    | none =>
        cases hex : w.notExist (w.Clean path) with
        | true =>
            intro hok
            have : (pm.AddProject w path name).2.2
                = some (Err.msg ("project path does not exist: " ++ w.Clean path)) := by
              unfold ProjectManager.AddProject
              simp only [hfind, NewProject, hnew, hex, if_true]
            rw [this] at hok
            exact absurd hok (by simp)
        | false =>
            rw [AddProject_new w pm path name hfind hnew hex]
            cases hse : w.saveErr with
            | some e =>
                intro hok
                exact absurd hok (by simp)
            | none =>
                intro _ hval
                have hsaved := saveProjects_saved w (pm.beforeSave w path name)
                  (by rw [(saveProjects_fields w _).1]; exact hse)
                refine ⟨hsaved, loadedProjectSet_of_saved w' _ _ hsaved ?_ hval⟩
                rw [projectSet_keys, (saveProjects_fields w _).2.1, beforeSave_projects]
                exact mapSet_keys_nodup _ _ _ hkeys
  · intro projectID
    cases hp : mapGet pm.projects projectID with
    | none =>
        intro hok
        have : (pm.RemoveProject w projectID).2
            = some (Err.msg ("project not found: " ++ projectID)) := by
          unfold ProjectManager.RemoveProject
          simp only [hp]
        rw [this] at hok
        exact absurd hok (by simp)
    | some p =>
        rw [RemoveProject_found w pm projectID p hp]
        cases hde : w.deleteErr with
        | some e =>
            intro hok
            exact absurd hok (by simp)
        | none =>
            cases hse : w.saveErr with
            | some e =>
                intro hok
                exact absurd hok (by simp)
            | none =>
                intro _ hval
                have hsaved := saveProjects_saved w
                  { heap := pm.heap, next := pm.next,
                    projects := mapDelete pm.projects projectID,
                    activeProject := (pm.clearIfActive w projectID).activeProject,
                    storage := ((pm.clearIfActive w projectID).storage.DeleteProject projectID
                                 none).1 }
                  (by rw [(saveProjects_fields w _).1]; exact hse)
                refine ⟨hsaved, loadedProjectSet_of_saved w' _ _ hsaved ?_ hval⟩
                rw [projectSet_keys, (saveProjects_fields w _).2.1]
                exact mapDelete_keys_nodup _ _ hkeys

/-- The witness of C6 as amended: on the registry of `A` and `B`, adding the
new path `/c`, and removing `A`. -/
theorem C6_saved_equals_memory_witness :
    loadedProjectSet (Env.allSucceed 10 "")
        (ProjectManager.twoProjects.AddProject (Env.allSucceed 3 "C") "/c" "c").1.storage
      = some (ProjectManager.twoProjects.AddProject (Env.allSucceed 3 "C") "/c" "c").1.projectSet ∧
    loadedProjectSet (Env.allSucceed 10 "")
        (ProjectManager.twoProjects.RemoveProject (Env.allSucceed 3 "") "A").1.storage
      = some (ProjectManager.twoProjects.RemoveProject (Env.allSucceed 3 "") "A").1.projectSet :=
  have h := C6_saved_equals_memory (Env.allSucceed 3 "C") (Env.allSucceed 10 "")
    ProjectManager.twoProjects (by decide)
  have h' := C6_saved_equals_memory (Env.allSucceed 3 "") (Env.allSucceed 10 "")
    ProjectManager.twoProjects (by decide)
  ⟨(h.1 "/c" "c" (by decide) (by decide) (by decide)).2,
   (h'.2 "A" (by decide) (by decide)).2⟩

/-- C7: when the cleaned path is the path of a project `p` of the registry, the
only one with that path and stored under its own ID, `AddProject` returns `p`
and no error, also when the storage call fails; the map, hence
`ProjectCount`, is unchanged; `p` keeps its ID, is flagged active, is the
active pointer and has `lastAccessed` equal to the clock of the call; and `p`
is still the only project of the registry with that path. -/
theorem C7_reactivation (w : Env) (pm : ProjectManager) (path name k : String) (p : Ptr)
    (hmem : (k, p) ∈ pm.projects) (hpath : (pm.heap p).Path = w.Clean path)
    (huniq : ∀ e ∈ pm.projects, (pm.heap e.2).Path = w.Clean path → e.2 = p)
    (hkey : mapGet pm.projects (pm.heap p).ID = some p) :
    (pm.AddProject w path name).2 = (some p, none) ∧
    (pm.AddProject w path name).1.ProjectCount = pm.ProjectCount ∧
    (pm.AddProject w path name).1.projects = pm.projects ∧
    ((pm.AddProject w path name).1.heap p).ID = (pm.heap p).ID ∧
    ((pm.AddProject w path name).1.heap p).IsActive = true ∧
    (pm.AddProject w path name).1.activeProject = some p ∧
    ((pm.AddProject w path name).1.heap p).LastAccessed = w.now ∧
    (∀ e ∈ (pm.AddProject w path name).1.projects,
      ((pm.AddProject w path name).1.heap e.2).Path = w.Clean path → e.2 = p) := by
  obtain ⟨e, hfind, hep⟩ := findByPath_unique pm (w.Clean path) k p hmem hpath huniq
  have hadd := AddProject_existing w pm path name e hfind
  rw [hep] at hadd
  have hID : (heapSet pm.heap p { pm.heap p with LastAccessed := w.now } p).ID
      = (pm.heap p).ID := by
    rw [heapSet_same]
  rw [hID] at hadd
  have hPath : ∀ q, (heapSet pm.heap p { pm.heap p with LastAccessed := w.now } q).Path
      = (pm.heap q).Path := by
    intro q
    by_cases hq : q = p
    · subst hq
      rw [heapSet_same]
    · rw [heapSet_other _ _ hq]
  have hkey1 : mapGet
      ({ pm with heap := heapSet pm.heap p { pm.heap p with LastAccessed := w.now } } :
        ProjectManager).projects (pm.heap p).ID = some p := hkey
  have hproj := SetActiveProject_projects w
    ({ pm with heap := heapSet pm.heap p { pm.heap p with LastAccessed := w.now } } :
      ProjectManager) (pm.heap p).ID
  have hheap := SetActiveProject_heap w
    ({ pm with heap := heapSet pm.heap p { pm.heap p with LastAccessed := w.now } } :
      ProjectManager) (pm.heap p).ID p hkey1
  have hact := congrArg ProjectManager.activeProject (SetActiveProject_found w
    ({ pm with heap := heapSet pm.heap p { pm.heap p with LastAccessed := w.now } } :
      ProjectManager) (pm.heap p).ID p hkey1)
  rw [hadd]
  refine ⟨rfl, ?_, hproj, ?_, hheap.1, hact, hheap.2.1, ?_⟩
  · show (ProjectManager.SetActiveProject w _ _).1.projects.length = pm.projects.length
    rw [hproj]
  · show ((ProjectManager.SetActiveProject w _ _).1.heap p).ID = (pm.heap p).ID
    rw [hheap.2.2.1 p]
    exact hID
  · intro x hx hxp
    have hx' : x ∈ pm.projects := by
      have h0 : x ∈ (ProjectManager.SetActiveProject w
        ({ pm with heap := heapSet pm.heap p { pm.heap p with LastAccessed := w.now } } :
          ProjectManager) (pm.heap p).ID).1.projects := hx
      rw [hproj] at h0
      exact h0
    apply huniq x hx'
    have h1 : ((ProjectManager.SetActiveProject w
        ({ pm with heap := heapSet pm.heap p { pm.heap p with LastAccessed := w.now } } :
          ProjectManager) (pm.heap p).ID).1.heap x.2).Path = w.Clean path := hxp
    rw [hheap.2.2.2 x.2] at h1
    exact (hPath x.2).symm.trans h1

/-- The witness of C7: on the registry of `A` (active, path `/a`) and `B`
(path `/b`), adding `/b` again at time 9 while the storage call fails. -/
theorem C7_reactivation_witness :
    (ProjectManager.twoProjects.AddProject (Env.setActiveFails 9 "") "/b" "b").2
        = (some 1, none) ∧
    (ProjectManager.twoProjects.AddProject (Env.setActiveFails 9 "") "/b" "b").1.ProjectCount
        = 2 ∧
    (ProjectManager.twoProjects.AddProject (Env.setActiveFails 9 "") "/b" "b").1.activeProject
        = some 1 ∧
    ((ProjectManager.twoProjects.AddProject (Env.setActiveFails 9 "") "/b" "b").1.heap 1).LastAccessed
        = 9 :=
  have h := C7_reactivation (Env.setActiveFails 9 "") ProjectManager.twoProjects "/b" "b" "B" 1
    (by decide) (by decide) (by decide) (by decide)
  ⟨h.1, h.2.1, h.2.2.2.2.2.1, h.2.2.2.2.2.2.1⟩

/-- C8 fails on the code.  On the registry of `A` (active, the storage marker
is `A`) and `B`, `RemoveProject("A")` while `storage.SetActiveProject` fails and
the other storage calls succeed: the call returns nil, `A` is gone and the
active pointer is nil, but the marker held by storage is still `A`. -/
theorem C8_marker_survives_removal :
    ProjectManager.twoProjects.activeProject = some 0 ∧
    (ProjectManager.twoProjects.heap 0).ID = "A" ∧
    (ProjectManager.twoProjects.RemoveProject (Env.setActiveFails 3 "") "A").2 = none ∧
    mapGet (ProjectManager.twoProjects.RemoveProject (Env.setActiveFails 3 "") "A").1.projects "A"
      = none ∧
    (ProjectManager.twoProjects.RemoveProject (Env.setActiveFails 3 "") "A").1.activeProject
      = none ∧
    (ProjectManager.twoProjects.RemoveProject (Env.setActiveFails 3 "") "A").1.storage.activeProject
      = "A" := by
  decide

/-- C9: for the ID of a project `p` of the registry, `SetActiveProject` makes
`p` the active pointer and flags it active, clears the flag of the project
that was active before when it is another one, calls
`storage.SetActiveProject` with that ID and nothing else, returns the storage
error wrapped when the call fails and nil when it succeeds; the active pointer
is `p` in both cases (no rollback). -/
theorem C9_SetActiveProject (w : Env) (pm : ProjectManager) (projectID : String) (p : Ptr)
    (h : mapGet pm.projects projectID = some p) :
    (pm.SetActiveProject w projectID).1.activeProject = some p ∧
    ((pm.SetActiveProject w projectID).1.heap p).IsActive = true ∧
    (∀ a, pm.activeProject = some a → a ≠ p →
      ((pm.SetActiveProject w projectID).1.heap a).IsActive = false) ∧
    (pm.SetActiveProject w projectID).1.storage.calls
      = pm.storage.calls ++ [StorageCall.SetActiveProject projectID] ∧
    (∀ e, w.setActiveErr = some e →
      (pm.SetActiveProject w projectID).2 = some (Err.wrap "failed to save active project: " e) ∧
      (pm.SetActiveProject w projectID).1.activeProject = some p) ∧
    (w.setActiveErr = none → (pm.SetActiveProject w projectID).2 = none) := by
  unfold ProjectManager.SetActiveProject
  simp only [h]
  cases hs : w.setActiveErr with
  | none =>
      simp only [Storage.SetActiveProject, heapSet_same, Project.SetActive, true_and,
        reduceCtorEq, false_implies, implies_true, and_true]
      intro a ha hne
      simp [ha, heapSet_other _ _ hne, heapSet_same, Project.SetInactive]
  | some e =>
      simp only [Storage.SetActiveProject, heapSet_same, Project.SetActive, true_and,
        reduceCtorEq, false_implies, implies_true, and_true]
      refine ⟨?_, by simp⟩
      intro a ha hne
      simp [ha, heapSet_other _ _ hne, heapSet_same, Project.SetInactive]

/-- The witness of C9: on the registry of `A` (active) and `B`, activating `B`
while the storage call fails. -/
theorem C9_SetActiveProject_witness :
    (ProjectManager.twoProjects.SetActiveProject (Env.setActiveFails 3 "") "B").1.activeProject
        = some 1 ∧
    ((ProjectManager.twoProjects.SetActiveProject (Env.setActiveFails 3 "") "B").1.heap 0).IsActive
        = false ∧
    (ProjectManager.twoProjects.SetActiveProject (Env.setActiveFails 3 "") "B").2
        = some (Err.wrap "failed to save active project: " (Err.msg "disk full")) :=
  have h := C9_SetActiveProject (Env.setActiveFails 3 "") ProjectManager.twoProjects "B" 1
    (by decide)
  ⟨h.1, h.2.2.1 0 (by decide) (by decide), (h.2.2.2.2.1 (Err.msg "disk full") rfl).1⟩

/-- C10: for an ID that is no key of the registry, `RemoveProject`,
`SetActiveProject`, `AddInstanceToProject` and `RemoveInstanceFromProject`
return the not-found error and leave the whole manager, the storage and its
record of calls included, as it was; `GetProjectInstances` returns the
not-found error; and `RemoveInstanceFromProject` on a project of the registry
whose list lacks the instance ID returns an error and leaves the manager as it
was. -/
theorem C10_not_found (w : Env) (pm : ProjectManager) (projectID instanceID : String)
    (h : mapGet pm.projects projectID = none) :
    pm.RemoveProject w projectID = (pm, some (Err.msg ("project not found: " ++ projectID))) ∧
    pm.SetActiveProject w projectID
      = (pm, some (Err.msg ("project not found: " ++ projectID))) ∧
    pm.AddInstanceToProject w projectID instanceID
      = (pm, some (Err.msg ("project not found: " ++ projectID))) ∧
    pm.RemoveInstanceFromProject w projectID instanceID
      = (pm, some (Err.msg ("project not found: " ++ projectID))) ∧
    pm.GetProjectInstances projectID
      = (none, some (Err.msg ("project not found: " ++ projectID))) ∧
    (∀ other p, mapGet pm.projects other = some p → instanceID ∉ (pm.heap p).Instances →
      pm.RemoveInstanceFromProject w other instanceID
        = (pm, some (Err.msg ("instance not found in project: " ++ instanceID)))) := by
  refine ⟨?_, ?_, ?_, ?_, ?_, ?_⟩
  · simp only [ProjectManager.RemoveProject, h]
  · simp only [ProjectManager.SetActiveProject, h]
  · simp only [ProjectManager.AddInstanceToProject, h]
  · simp only [ProjectManager.RemoveInstanceFromProject, h]
  · simp only [ProjectManager.GetProjectInstances, h]
  · intro other p hp hi
    simp [ProjectManager.RemoveInstanceFromProject, hp, Project.RemoveInstance, hi]

/-- The witness of C10: on the registry of `A` and `B`, the unknown ID `Z`,
and the instance `i1` that the project `A` does not have. -/
theorem C10_not_found_witness :
    ProjectManager.twoProjects.RemoveProject (Env.allSucceed 3 "") "Z"
      = (ProjectManager.twoProjects, some (Err.msg ("project not found: " ++ "Z"))) ∧
    ProjectManager.twoProjects.RemoveInstanceFromProject (Env.allSucceed 3 "") "A" "i1"
      = (ProjectManager.twoProjects, some (Err.msg ("instance not found in project: " ++ "i1"))) :=
  have h := C10_not_found (Env.allSucceed 3 "") ProjectManager.twoProjects "Z" "i1" (by decide)
  ⟨h.1, h.2.2.2.2.2 "A" 0 (by decide) (by decide)⟩

/-- C11: `ListProjects` returns a permutation of the projects of the registry,
ordered by `lastAccessed` non-increasing; when the timestamps are distinct the
order is strictly descending and every permutation of the registry in
non-increasing order is the list returned, so the result does not depend on how
`sort.Slice` sorts. -/
theorem C11_ListProjects (pm : ProjectManager) :
    pm.ListProjects.Perm (pm.projects.map Prod.snd) ∧
    pm.ListProjects.Pairwise
      (fun a b => (pm.heap b).LastAccessed ≤ (pm.heap a).LastAccessed) ∧
    (((pm.projects.map Prod.snd).map (fun p => (pm.heap p).LastAccessed)).Nodup →
      pm.ListProjects.Pairwise
        (fun a b => (pm.heap b).LastAccessed < (pm.heap a).LastAccessed) ∧
      ∀ l : List Ptr, l.Perm (pm.projects.map Prod.snd) →
        l.Pairwise (fun a b => (pm.heap b).LastAccessed ≤ (pm.heap a).LastAccessed) →
        l = pm.ListProjects) := by
  refine ⟨ListProjects_perm pm, ListProjects_sorted pm, ?_⟩
  intro hd
  have hd1 : (pm.ListProjects.map (fun p => (pm.heap p).LastAccessed)).Nodup :=
    ((ListProjects_perm pm).map _).nodup_iff.mpr hd
  have hs1 := strictly_descending pm.heap _ (ListProjects_sorted pm) hd1
  refine ⟨hs1, ?_⟩
  intro l hp hs
  have hd2 : (l.map (fun p => (pm.heap p).LastAccessed)).Nodup := (hp.map _).nodup_iff.mpr hd
  have hs2 := strictly_descending pm.heap l hs hd2
  haveI : IsAntisymm Ptr (fun a b => (pm.heap b).LastAccessed < (pm.heap a).LastAccessed) :=
    ⟨fun a b h1 h2 => absurd h1 (Nat.lt_asymm h2)⟩
  exact List.eq_of_perm_of_sorted (hp.trans (ListProjects_perm pm).symm) hs2 hs1

/-- The witness of C11: on the registry of `A` (accessed at 1) and `B`
(accessed at 2) the list is `B`, `A`, and the map order `A`, `B` reversed is
that list. -/
theorem C11_ListProjects_witness :
    ProjectManager.twoProjects.ListProjects = [1, 0] ∧
    ([1, 0] : List Ptr) = ProjectManager.twoProjects.ListProjects :=
  ⟨by decide,
   ((C11_ListProjects ProjectManager.twoProjects).2.2 (by decide)).2 [1, 0]
     (by decide) (by decide)⟩

/-- C12 fails on the code.  On the registry of `A` and `B`,
`AddProject("/etc/passwd/x", "x")`: the path is the path of no project and is
not on disk, but `os.Stat` fails with ENOTDIR, of which `os.IsNotExist` does
not hold, so the check at manager.go:80 lets it pass: the project is inserted
under its ID, `storage.SaveProjects` is called, and the call returns the
project with a nil error. -/
theorem C12_path_not_on_disk_inserted :
    (Env.notADirectory 3 "X").onDisk ((Env.notADirectory 3 "X").Clean "/etc/passwd/x")
      = false ∧
    ProjectManager.twoProjects.findByPath ((Env.notADirectory 3 "X").Clean "/etc/passwd/x")
      = none ∧
    (ProjectManager.twoProjects.AddProject (Env.notADirectory 3 "X") "/etc/passwd/x" "x").2
      = (some 2, none) ∧
    mapGet (ProjectManager.twoProjects.AddProject (Env.notADirectory 3 "X")
        "/etc/passwd/x" "x").1.projects "X" = some 2 ∧
    (ProjectManager.twoProjects.AddProject (Env.notADirectory 3 "X")
        "/etc/passwd/x" "x").1.ProjectCount = 3 ∧
    (ProjectManager.twoProjects.AddProject (Env.notADirectory 3 "X")
        "/etc/passwd/x" "x").1.storage.calls.length
      = ProjectManager.twoProjects.storage.calls.length + 1 := by
  decide

/-- C13: when `AddProject` creates a new project and returns success (the path
is the path of no project, the identifier is new, and the pointers of the
manager refer to allocated objects), the new project is flagged active exactly
when the registry was empty, and is the active pointer exactly when the
registry was empty; when the registry was not empty the active pointer and
every project of the registry are as before; `ProjectCount` grows by one. -/
theorem C13_first_project_becomes_active (w : Env) (pm : ProjectManager) (path name : String)
    (hfind : pm.findByPath (w.Clean path) = none)
    (hok : (pm.AddProject w path name).2.2 = none)
    (hid : mapGet pm.projects w.newID = none)
    (hmap : ∀ e ∈ pm.projects, e.2 < pm.next)
    (hact : ∀ a, pm.activeProject = some a → a < pm.next) :
    (pm.AddProject w path name).2.1 = some pm.next ∧
    mapGet (pm.AddProject w path name).1.projects w.newID = some pm.next ∧
    (((pm.AddProject w path name).1.heap pm.next).IsActive = true ↔ pm.projects = []) ∧
    ((pm.AddProject w path name).1.activeProject = some pm.next ↔ pm.projects = []) ∧
    (pm.projects ≠ [] →
      (pm.AddProject w path name).1.activeProject = pm.activeProject ∧
      ∀ e ∈ pm.projects, (pm.AddProject w path name).1.heap e.2 = pm.heap e.2) ∧
    (pm.AddProject w path name).1.ProjectCount = pm.ProjectCount + 1 := by
  obtain ⟨hret, hproj, hheap, hactive⟩ := AddProject_new_success w pm path name hfind hok
  have hins : (pm.inserted w path name).projects = pm.projects ++ [(w.newID, pm.next)] :=
    mapSet_new _ _ _ hid
  have hget : mapGet (pm.inserted w path name).projects w.newID = some pm.next := by
    show mapGet (mapSet pm.projects w.newID pm.next) w.newID = some pm.next
    rw [mapGet_mapSet, if_pos rfl]
  rw [hheap, hactive, ProjectManager.ProjectCount, hproj, beforeSave_projects]
  refine ⟨hret, hget, ?_, ?_, ?_, ?_⟩
  · rw [beforeSave_eq, hins]
    cases hp : pm.projects with
    | nil =>
        simp only [List.nil_append, List.length_singleton, if_true]
        exact ⟨fun _ => trivial, fun _ =>
          (SetActiveProject_heap w (pm.inserted w path name) w.newID pm.next hget).1⟩
    | cons e rest =>
        simp only [List.cons_append, List.length_cons, List.length_append, List.length_singleton]
        rw [if_neg (by omega)]
        simp [ProjectManager.inserted, heapSet_same]
  · rw [beforeSave_eq, hins]
    cases hp : pm.projects with
    | nil =>
        simp only [List.nil_append, List.length_singleton, if_true]
        rw [SetActiveProject_found w (pm.inserted w path name) w.newID pm.next hget]
        exact ⟨fun _ => trivial, fun _ => rfl⟩
    | cons e rest =>
        simp only [List.cons_append, List.length_cons, List.length_append, List.length_singleton]
        rw [if_neg (by omega)]
        constructor
        · intro h
          exact absurd (hact pm.next h) (Nat.lt_irrefl _)
        · intro h
          exact absurd h (by simp)
  · intro hne
    have hlen : ¬ (pm.inserted w path name).projects.length = 1 := by
      rw [hins]
      cases hp : pm.projects with
      | nil => exact absurd hp hne
      | cons e rest => simp
    rw [beforeSave_eq, if_neg hlen]
    refine ⟨rfl, ?_⟩
    intro e he
    exact heapSet_other _ _ (Nat.ne_of_lt (hmap e he))
  · rw [mapSet_new _ _ _ hid, List.length_append, List.length_singleton]
    rfl

/-- The witness of C13: the first project `A` on the fresh manager, and `C`
on the registry of `A` and `B`. -/
theorem C13_first_project_becomes_active_witness :
    (((ProjectManager.fresh.AddProject (Env.allSucceed 1 "A") "/a" "a").1.heap 0).IsActive
        = true ↔ ProjectManager.fresh.projects = []) ∧
    ((ProjectManager.twoProjects.AddProject (Env.allSucceed 3 "C") "/c" "c").1.activeProject
        = some 2 ↔ ProjectManager.twoProjects.projects = []) ∧
    (ProjectManager.twoProjects.AddProject (Env.allSucceed 3 "C") "/c" "c").1.ProjectCount
      = ProjectManager.twoProjects.ProjectCount + 1 :=
  have h1 := C13_first_project_becomes_active (Env.allSucceed 1 "A") ProjectManager.fresh
    "/a" "a" (by decide) (by decide) (by decide) (by decide) (by decide)
  have h2 := C13_first_project_becomes_active (Env.allSucceed 3 "C") ProjectManager.twoProjects
    "/c" "c" (by decide) (by decide) (by decide) (by decide) (by decide)
  ⟨h1.2.2.1, h2.2.2.2.1, h2.2.2.2.2.2⟩

/-- C14 fails on the code.  `ValidateProjectPath("/etc/passwd/x")`: the path is
not empty, its cleaned form is absolute and is not on disk, but `os.Stat`
fails with ENOTDIR, of which `os.IsNotExist` does not hold, so the check at
manager.go:208 lets it pass and the method returns nil. -/
theorem C14_path_not_on_disk_accepted :
    (Env.notADirectory 3 "").IsAbs ((Env.notADirectory 3 "").Clean "/etc/passwd/x") = true ∧
    (Env.notADirectory 3 "").onDisk ((Env.notADirectory 3 "").Clean "/etc/passwd/x")
      = false ∧
    (ProjectManager.twoProjects.ValidateProjectPath (Env.notADirectory 3 "")
      "/etc/passwd/x").2 = none := by
  decide

/-! ## The contract of the preview pane -/

/-- C15 fails on the code as stated.  From `NewPreviewPane`: `SetSize(80, 2)`,
`UpdateContent` of session 0 (four lines), `ScrollUp`: session 0 is displayed
at offset 1, not at the bottom.  After `UpdateContent` of session 1 and
`UpdateContent` of session 0 again, its content unchanged, the displayed and
the cached viewport of session 0 are at offset 2, the bottom, not at 1.  And
when the pane was resized to height -1 before the `ScrollUp`, session 0 is
displayed at offset 1 and `UpdateContent` of session 1 panics. -/
theorem C15_switch_back_loses_offset :
    (NewPreviewPane.run Render.plain
        [PaneOp.SetSize 80 2, PaneOp.UpdateContent (some Instance.fourLines),
         PaneOp.ScrollUp]).map
      (fun p => (p.activeInstance, p.viewport.YOffset, p.viewport.AtBottom,
        decide (p.instancePositions 0 = some p.viewport)))
      = some (some 0, 1, false, true) ∧
    (NewPreviewPane.run Render.plain
        [PaneOp.SetSize 80 2, PaneOp.UpdateContent (some Instance.fourLines),
         PaneOp.ScrollUp, PaneOp.UpdateContent (some (Instance.running 1 "b")),
         PaneOp.UpdateContent (some Instance.fourLines)]).map
      (fun p => (p.viewport.YOffset, (p.instancePositions 0).map Viewport.YOffset))
      = some (2, some 2) ∧
    (NewPreviewPane.run Render.plain
        [PaneOp.SetSize 80 2, PaneOp.UpdateContent (some Instance.fourLines),
         PaneOp.SetSize 80 (-1), PaneOp.ScrollUp]).map
      (fun p => (p.activeInstance, p.viewport.YOffset, p.viewport.AtBottom))
      = some (some 0, 1, false) ∧
    (NewPreviewPane.run Render.plain
        [PaneOp.SetSize 80 2, PaneOp.UpdateContent (some Instance.fourLines),
         PaneOp.SetSize 80 (-1), PaneOp.ScrollUp,
         PaneOp.UpdateContent (some (Instance.running 1 "b"))]).isSome = false := by
  decide

/-- C15 as amended, for distinct sessions A and B on the normal display path,
B not being the displayed one, and contents whose lines can be counted.  When
the last offsets of the viewports of B and of A (the cached or new viewport
with the content loaded) lie within their lines, as they do for every height
that is not negative, `UpdateContent(B)` followed by `UpdateContent(A)`
returns with a nil error and leaves A active, the displayed viewport equal to
the cached viewport of A, at the bottom: it is the viewport of A with the
content loaded, on its last offset; when A had a cached viewport holding its
unchanged content, the offset is the last offset of that viewport, so an
offset k below it is not restored.  When one of the two last offsets lies
beyond the lines, the calls panic. -/
theorem C15_switch_back_goes_to_bottom (r : Render) (p : PreviewPane) (A B : Instance)
    (cA cB : String) (hAB : A.addr ≠ B.addr) (hA : A.normal cA) (hB : B.normal cB)
    (hlA : linesFit (some (r.enhanceContent cA A)))
    (hlB : linesFit (some (r.enhanceContent cB B)))
    (hsw : p.activeInstance ≠ some B.addr) :
    (((p.cachedOrNew B.addr).loaded (r.enhanceContent cB B)).bottomFits ∧
        ((p.cachedOrNew A.addr).loaded (r.enhanceContent cA A)).bottomFits →
      ((p.UpdateContent r (some B)).bind (fun x => x.1.UpdateContent r (some A))).map
          (fun y => (y.1.activeInstance, y.1.viewport, y.1.viewport.AtBottom,
            decide (y.1.instancePositions A.addr = some y.1.viewport), y.2.1))
        = some (some A.addr,
            ((p.cachedOrNew A.addr).loaded (r.enhanceContent cA A)).sentToBottom, true, true,
            none) ∧
      (∀ v, p.instancePositions A.addr = some v → v.content = some (r.enhanceContent cA A) →
        ((p.UpdateContent r (some B)).bind (fun x => x.1.UpdateContent r (some A))).map
            (fun y => y.1.viewport.YOffset) = some v.maxYOffset ∧
        (v.YOffset < v.maxYOffset →
          ((p.UpdateContent r (some B)).bind (fun x => x.1.UpdateContent r (some A))).map
            (fun y => y.1.viewport.YOffset) ≠ some v.YOffset))) ∧
    (¬ (((p.cachedOrNew B.addr).loaded (r.enhanceContent cB B)).bottomFits ∧
        ((p.cachedOrNew A.addr).loaded (r.enhanceContent cA A)).bottomFits) →
      (p.UpdateContent r (some B)).bind (fun x => x.1.UpdateContent r (some A)) = none) := by
  have hswA : ∀ u : Viewport,
      (p.displayed B.addr (r.enhanceContent cB B) u).activeInstance ≠ some A.addr := by
    intro u
    show some B.addr ≠ some A.addr
    intro h
    injection h with h
    exact hAB h.symm
  have hcn : ∀ u : Viewport,
      (p.displayed B.addr (r.enhanceContent cB B) u).cachedOrNew A.addr
        = p.cachedOrNew A.addr := by
    intro u
    have hposA : (p.displayed B.addr (r.enhanceContent cB B) u).instancePositions A.addr
        = p.instancePositions A.addr := by
      show instSet p.instancePositions B.addr u A.addr = p.instancePositions A.addr
      unfold instSet
      rw [if_neg hAB]
    unfold PreviewPane.cachedOrNew
    rw [hposA]
    rfl
  rw [UpdateContent_switch r p B cB hB hlB hsw]
  by_cases hfB : ((p.cachedOrNew B.addr).loaded (r.enhanceContent cB B)).bottomFits
  · rw [if_pos hfB, Option.some_bind, UpdateContent_switch r _ A cA hA hlA (hswA _), hcn]
    by_cases hfA : ((p.cachedOrNew A.addr).loaded (r.enhanceContent cA A)).bottomFits
    · rw [if_pos hfA]
      refine ⟨fun _ => ⟨?_, ?_⟩, fun h => absurd ⟨hfB, hfA⟩ h⟩
      · simp only [Option.map_some']
        have hc : decide (instSet
            (p.displayed B.addr (r.enhanceContent cB B)
              (((p.cachedOrNew B.addr).loaded
                (r.enhanceContent cB B)).sentToBottom)).instancePositions
            A.addr (((p.cachedOrNew A.addr).loaded (r.enhanceContent cA A)).sentToBottom)
            A.addr
            = some (((p.cachedOrNew A.addr).loaded (r.enhanceContent cA A)).sentToBottom))
            = true := by
          apply decide_eq_true
          unfold instSet
          rw [if_pos rfl]
        show some (some A.addr, _, Viewport.AtBottom (Viewport.sentToBottom _), _, _) = _
        rw [show ∀ m : Viewport, m.sentToBottom.AtBottom = true from atBottom_of_last]
        exact congrArg (fun b => some (some A.addr,
          ((p.cachedOrNew A.addr).loaded (r.enhanceContent cA A)).sentToBottom, true, b,
          none)) hc
      · intro v hpv hcv
        have hy : (((p.cachedOrNew A.addr).loaded (r.enhanceContent cA A)).sentToBottom).YOffset
            = v.maxYOffset := by
          unfold PreviewPane.cachedOrNew
          rw [hpv]
          show Viewport.maxYOffset (v.loaded (r.enhanceContent cA A)) = v.maxYOffset
          unfold Viewport.maxYOffset Viewport.loaded
          rw [hcv]
        simp only [Option.map_some']
        refine ⟨congrArg some hy, ?_⟩
        intro hlt heq
        have heq' :
            (((p.cachedOrNew A.addr).loaded (r.enhanceContent cA A)).sentToBottom).YOffset
              = v.YOffset := by
          injection heq
        rw [hy] at heq'
        exact absurd heq' (ne_of_gt hlt)
    · rw [if_neg hfA]
      exact ⟨fun h => absurd h.2 hfA, fun _ => rfl⟩
  · rw [if_neg hfB]
    exact ⟨fun h => absurd h.1 hfB, fun _ => rfl⟩

/-- The witness of C15 as amended: the pane that displays session 0 at offset
1, then session 1, and back: the offset is 2. -/
theorem C15_switch_back_goes_to_bottom_witness :
    ((PreviewPane.scrolledUp.UpdateContent Render.plain
        (some (Instance.running 1 "b"))).bind
      (fun x => x.1.UpdateContent Render.plain (some Instance.fourLines))).map
        (fun y => y.1.viewport.YOffset) = some 2 :=
  (((C15_switch_back_goes_to_bottom Render.plain PreviewPane.scrolledUp Instance.fourLines
    (Instance.running 1 "b") "1\n2\n3\n4" "b" (by decide)
    ⟨by decide, rfl, by decide⟩ ⟨by decide, rfl, by decide⟩ (by decide) (by decide)
    (by decide)).1 ⟨by decide, by decide⟩).2
    { Width := 80, Height := 2, YOffset := 1, content := some "1\n2\n3\n4" } (by decide)
    rfl).1

/-- C16 fails on the code as stated.  From `NewPreviewPane`: `SetSize(80, 2)`,
`UpdateContent` of session 0 (four lines), `ScrollUp`: session 0 is displayed
at offset 1, not at the bottom.  `UpdateContent` of the same session with a
new content of one line is no instance switch and finds the viewport not at
the bottom, yet the offset after the call is 0, not 1: `SetContent` sends a
viewport whose offset is beyond the last line to the bottom.  And with a pane
of height -1 `UpdateContent` of a session without cached viewport panics. -/
theorem C16_shrunk_content_moves_offset :
    (NewPreviewPane.run Render.plain
        [PaneOp.SetSize 80 2, PaneOp.UpdateContent (some Instance.fourLines),
         PaneOp.ScrollUp]).map
      (fun p => (p.activeInstance, (p.instancePositions 0).map Viewport.YOffset,
        (p.instancePositions 0).map Viewport.AtBottom))
      = some (some 0, some 1, some false) ∧
    (NewPreviewPane.run Render.plain
        [PaneOp.SetSize 80 2, PaneOp.UpdateContent (some Instance.fourLines),
         PaneOp.ScrollUp, PaneOp.UpdateContent (some (Instance.running 0 "x"))]).map
      (fun p => p.viewport.YOffset) = some 0 ∧
    (NewPreviewPane.run Render.plain
        [PaneOp.SetSize 80 (-1), PaneOp.UpdateContent (some Instance.fourLines)]).isSome
      = false := by
  decide

/-- C16 as amended, on the normal display path with a content whose lines can
be counted.  Where the claim has the viewport at the bottom, `UpdateContent`
returns exactly when the last offset of the viewport with the content loaded
lies within its lines, as it does for every height that is not negative, and
panics otherwise.  When it returns, the cached viewport of the session is the
displayed one, holds the enhanced content, and the error is nil.  Without a
cached viewport the viewport has the width and height of the pane and is at
the bottom.  With a cached viewport it is at the bottom when the session is
not the active one, or the enhanced content differs from the cached content
and the cached viewport was at the bottom; in every other case the call
returns with the offset of the cached viewport when that offset is on a line
of the new content, and the viewport is at the bottom when it is not. -/
theorem C16_scroll_policy (r : Render) (p : PreviewPane) (i : Instance) (content : String)
    (h : i.normal content) (hl : linesFit (some (r.enhanceContent content i))) :
    (p.instancePositions i.addr = none →
      (((Viewport.New p.width p.height).loaded (r.enhanceContent content i)).bottomFits →
        (p.UpdateContent r (some i)).map
            (fun x => (x.1.viewport.Width, x.1.viewport.Height, x.1.viewport.AtBottom,
              x.1.viewport.content, decide (x.1.instancePositions i.addr = some x.1.viewport),
              x.2.1))
          = some (p.width, p.height, true, some (r.enhanceContent content i), true, none)) ∧
      (¬ ((Viewport.New p.width p.height).loaded (r.enhanceContent content i)).bottomFits →
        p.UpdateContent r (some i) = none)) ∧
    (∀ v, p.instancePositions i.addr = some v →
      ((p.activeInstance ≠ some i.addr ∨
          (p.instanceContent i.addr ≠ some (r.enhanceContent content i) ∧
            v.AtBottom = true)) →
        ((v.loaded (r.enhanceContent content i)).bottomFits →
          (p.UpdateContent r (some i)).map
              (fun x => (x.1.viewport.Width, x.1.viewport.Height, x.1.viewport.AtBottom,
                x.1.viewport.content,
                decide (x.1.instancePositions i.addr = some x.1.viewport), x.2.1))
            = some (v.Width, v.Height, true, some (r.enhanceContent content i), true, none)) ∧
        (¬ (v.loaded (r.enhanceContent content i)).bottomFits →
          p.UpdateContent r (some i) = none)) ∧
      (¬ (p.activeInstance ≠ some i.addr ∨
          (p.instanceContent i.addr ≠ some (r.enhanceContent content i) ∧
            v.AtBottom = true)) →
        (v.YOffset ≤ (lineCount (some (r.enhanceContent content i)) : Int) - 1 →
          (p.UpdateContent r (some i)).map
              (fun x => (x.1.viewport.Width, x.1.viewport.Height, x.1.viewport.YOffset,
                x.1.viewport.content,
                decide (x.1.instancePositions i.addr = some x.1.viewport), x.2.1))
            = some (v.Width, v.Height, v.YOffset, some (r.enhanceContent content i), true,
                none)) ∧
        (v.YOffset > (lineCount (some (r.enhanceContent content i)) : Int) - 1 →
          ((v.loaded (r.enhanceContent content i)).bottomFits →
            (p.UpdateContent r (some i)).map
                (fun x => (x.1.viewport.Width, x.1.viewport.Height, x.1.viewport.AtBottom,
                  x.1.viewport.content,
                  decide (x.1.instancePositions i.addr = some x.1.viewport), x.2.1))
              = some (v.Width, v.Height, true, some (r.enhanceContent content i), true,
                  none)) ∧
          (¬ (v.loaded (r.enhanceContent content i)).bottomFits →
            p.UpdateContent r (some i) = none)))) := by
  have hcache : ∀ u : Viewport,
      decide ((p.displayed i.addr (r.enhanceContent content i) u).instancePositions i.addr
        = some (p.displayed i.addr (r.enhanceContent content i) u).viewport) = true := by
    intro u
    apply decide_eq_true
    show instSet p.instancePositions i.addr u i.addr = some u
    unfold instSet
    rw [if_pos rfl]
  have hbot : ∀ u : Viewport,
      (u.loaded (r.enhanceContent content i)).bottomFits →
      (Option.map (fun w => (p.displayed i.addr (r.enhanceContent content i) w,
            (none : Option Err),
            if content = "" then [InstanceCall.Preview, InstanceCall.Started]
            else [InstanceCall.Preview]))
          (u.loaded (r.enhanceContent content i)).GotoBottom).map
        (fun x => (x.1.viewport.Width, x.1.viewport.Height, x.1.viewport.AtBottom,
          x.1.viewport.content, decide (x.1.instancePositions i.addr = some x.1.viewport),
          x.2.1))
        = some (u.Width, u.Height, true, some (r.enhanceContent content i), true, none) := by
    intro u hM
    rw [GotoBottom_loaded, if_pos hM]
    simp only [Option.map_some', hcache]
    show some (u.Width, u.Height, Viewport.AtBottom (Viewport.sentToBottom _), _, _, _) = _
    rw [show ∀ m : Viewport, m.sentToBottom.AtBottom = true from atBottom_of_last]
    rfl
  have hnot : ∀ u : Viewport,
      ¬ (u.loaded (r.enhanceContent content i)).bottomFits →
      Option.map (fun w => (p.displayed i.addr (r.enhanceContent content i) w,
            (none : Option Err),
            if content = "" then [InstanceCall.Preview, InstanceCall.Started]
            else [InstanceCall.Preview]))
          (u.loaded (r.enhanceContent content i)).GotoBottom = none := by
    intro u hM
    rw [GotoBottom_loaded, if_neg hM]
    rfl
  rw [UpdateContent_normal r p i content h]
  refine ⟨?_, ?_⟩
  · intro hnone
    rw [instanceViewport_new p i.addr _ hnone hl]
    exact ⟨hbot _, hnot _⟩
  · intro v hv
    refine ⟨?_, ?_⟩
    · intro hcase
      rw [instanceViewport_bottom p i.addr _ v hv hl hcase]
      exact ⟨hbot v, hnot v⟩
    · intro hcase
      have ho := instanceViewport_other p i.addr _ v hv hl hcase
      refine ⟨?_, ?_⟩
      · intro hoff
        rw [ho.1 hoff]
        simp only [Option.map_some', hcache]
        rfl
      · intro hoff
        rw [ho.2 hoff]
        exact ⟨hbot v, hnot v⟩

/-- The witness of C16 as amended: the pane that displays session 0 at offset
1, refreshed with a new content of four lines, keeps the offset 1. -/
theorem C16_scroll_policy_witness :
    (PreviewPane.scrolledUp.UpdateContent Render.plain
        (some (Instance.running 0 "a\nb\nc\nd"))).map
      (fun x => (x.1.viewport.Width, x.1.viewport.Height, x.1.viewport.YOffset,
        x.1.viewport.content, decide (x.1.instancePositions 0 = some x.1.viewport), x.2.1))
      = some (80, 2, 1, some "a\nb\nc\nd", true, none) :=
  (((C16_scroll_policy Render.plain PreviewPane.scrolledUp (Instance.running 0 "a\nb\nc\nd")
    "a\nb\nc\nd" ⟨by decide, rfl, by decide⟩ (by decide)).2
    { Width := 80, Height := 2, YOffset := 1, content := some "1\n2\n3\n4" } (by decide)).2
    (by decide)).1 (by decide)

/-- C17 fails on the code as stated.  From `NewPreviewPane`: `SetSize(80, 2)`,
`UpdateContent` of session 0 (four lines), `SetSize(80, 3)`: session 0 is
active and displayed at offset 2, the last offset being 1.  `ScrollDown` finds
the viewport at the bottom and moves nothing: the offset after the call is 2,
outside the valid range, where one line down clamped to the range is 1.  And
after `SetSize(80, -3)` in place of `SetSize(80, 3)`, session 0 being active at
offset 2, `FastScrollUp` panics. -/
theorem C17_scroll_past_bottom_not_clamped :
    (NewPreviewPane.run Render.plain
        [PaneOp.SetSize 80 2, PaneOp.UpdateContent (some Instance.fourLines),
         PaneOp.SetSize 80 3]).map
      (fun p => (p.activeInstance, p.viewport.YOffset, p.viewport.maxYOffset))
      = some (some 0, 2, 1) ∧
    (NewPreviewPane.run Render.plain
        [PaneOp.SetSize 80 2, PaneOp.UpdateContent (some Instance.fourLines),
         PaneOp.SetSize 80 3, PaneOp.ScrollDown]).map
      (fun p => (p.viewport.YOffset, p.viewport.maxYOffset,
        (p.instancePositions 0).map Viewport.YOffset))
      = some (2, 1, some 2) ∧
    clamp (2 + 1) 0 1 = 1 ∧
    (NewPreviewPane.run Render.plain
        [PaneOp.SetSize 80 2, PaneOp.UpdateContent (some Instance.fourLines),
         PaneOp.SetSize 80 (-3)]).map
      (fun p => (p.activeInstance, p.viewport.YOffset, p.viewport.maxYOffset))
      = some (some 0, 2, 7) ∧
    (NewPreviewPane.run Render.plain
        [PaneOp.SetSize 80 2, PaneOp.UpdateContent (some Instance.fourLines),
         PaneOp.SetSize 80 (-3), PaneOp.FastScrollUp]).isSome = false := by
  decide

/-- C17 as amended, for a pane with a non-nil active session `a`, the displayed
viewport having offset `Y`, last offset `M` and `L` lines, and `n` being 1 for
`ScrollUp` and `ScrollDown` and 10 for the fast operations.  `ScrollDown` and
`FastScrollDown` always return.  Whenever one of the four operations returns,
the cached viewport of `a` is the displayed viewport, of the size and content
it had, and the cached viewports of the other sessions, the cached contents and
the active session are unchanged.  For `Y` a Go `int` and lines that can be
counted: the operations up return exactly when `Y ≤ 0`, or `L = 0`, or
`M ≤ L` (so for every height that is not negative), or `n ≤ L` and `Y ≤ L`,
and panic otherwise; they return with the offset `clamp(Y - n, 0, M)` exactly
when `Y = 0`, or `0 < Y` with `L ≠ 0` and `M ≤ L` or `n ≤ L`, `Y ≤ L`.
The operations down leave the offset `clamp(Y + n, 0, M)` exactly when
`Y = M`, or `L ≠ 0` and `Y < M` and `Y + n` is a Go `int`. -/
theorem C17_scroll_frame (p : PreviewPane) (a : InstPtr) (hact : p.activeInstance = some a) :
    (p.ScrollDown.isSome = true ∧ p.FastScrollDown.isSome = true) ∧
    (∀ q, (p.ScrollUp = some q ∨ p.ScrollDown = some q ∨ p.FastScrollUp = some q ∨
        p.FastScrollDown = some q) → p.scrollFrame q a) ∧
    (p.viewport.YOffset ≤ 9223372036854775807 → linesFit p.viewport.content →
      (p.ScrollUp.isSome = true ↔
        (p.viewport.YOffset ≤ 0 ∨ lineCount p.viewport.content = 0 ∨
          p.viewport.maxYOffset ≤ (lineCount p.viewport.content : Int) ∨
          (1 ≤ (lineCount p.viewport.content : Int) ∧
            p.viewport.YOffset ≤ (lineCount p.viewport.content : Int)))) ∧
      (p.FastScrollUp.isSome = true ↔
        (p.viewport.YOffset ≤ 0 ∨ lineCount p.viewport.content = 0 ∨
          p.viewport.maxYOffset ≤ (lineCount p.viewport.content : Int) ∨
          (10 ≤ (lineCount p.viewport.content : Int) ∧
            p.viewport.YOffset ≤ (lineCount p.viewport.content : Int)))) ∧
      (p.ScrollUp.map (fun q => q.viewport.YOffset)
          = some (clamp (p.viewport.YOffset - 1) 0 p.viewport.maxYOffset) ↔
        (p.viewport.YOffset = 0 ∨
          (0 < p.viewport.YOffset ∧ lineCount p.viewport.content ≠ 0 ∧
            (p.viewport.maxYOffset ≤ (lineCount p.viewport.content : Int) ∨
              (1 ≤ (lineCount p.viewport.content : Int) ∧
                p.viewport.YOffset ≤ (lineCount p.viewport.content : Int)))))) ∧
      (p.FastScrollUp.map (fun q => q.viewport.YOffset)
          = some (clamp (p.viewport.YOffset - 10) 0 p.viewport.maxYOffset) ↔
        (p.viewport.YOffset = 0 ∨
          (0 < p.viewport.YOffset ∧ lineCount p.viewport.content ≠ 0 ∧
            (p.viewport.maxYOffset ≤ (lineCount p.viewport.content : Int) ∨
              (10 ≤ (lineCount p.viewport.content : Int) ∧
                p.viewport.YOffset ≤ (lineCount p.viewport.content : Int))))))) ∧
    (-9223372036854775808 ≤ p.viewport.YOffset →
      (p.ScrollDown.map (fun q => q.viewport.YOffset)
          = some (clamp (p.viewport.YOffset + 1) 0 p.viewport.maxYOffset) ↔
        (p.viewport.YOffset = p.viewport.maxYOffset ∨
          (lineCount p.viewport.content ≠ 0 ∧ p.viewport.YOffset < p.viewport.maxYOffset ∧
            p.viewport.YOffset + 1 ≤ 9223372036854775807))) ∧
      (p.FastScrollDown.map (fun q => q.viewport.YOffset)
          = some (clamp (p.viewport.YOffset + 10) 0 p.viewport.maxYOffset) ↔
        (p.viewport.YOffset = p.viewport.maxYOffset ∨
          (lineCount p.viewport.content ≠ 0 ∧ p.viewport.YOffset < p.viewport.maxYOffset ∧
            p.viewport.YOffset + 10 ≤ 9223372036854775807)))) := by
  have hu1 := sync_result p (p.viewport.LineUp 1)
  have hu10 := sync_result p (p.viewport.LineUp 10)
  have hd1 := sync_result p (p.viewport.LineDown 1)
  have hd10 := sync_result p (p.viewport.LineDown 10)
  refine ⟨⟨?_, ?_⟩, ?_, ?_, ?_⟩
  · exact hd1.1.trans (LineDown_isSome p.viewport 1)
  · exact hd10.1.trans (LineDown_isSome p.viewport 10)
  · intro q h
    rcases h with h | h | h | h
    · exact sync_frame_of p q a (p.viewport.LineUp 1) hact
        (fun v hv => Line_fields p.viewport v 1 (Or.inl hv)) h
    · exact sync_frame_of p q a (p.viewport.LineDown 1) hact
        (fun v hv => Line_fields p.viewport v 1 (Or.inr hv)) h
    · exact sync_frame_of p q a (p.viewport.LineUp 10) hact
        (fun v hv => Line_fields p.viewport v 10 (Or.inl hv)) h
    · exact sync_frame_of p q a (p.viewport.LineDown 10) hact
        (fun v hv => Line_fields p.viewport v 10 (Or.inr hv)) h
  · intro hY hl
    have s1 := LineUp_spec p.viewport 1 (by decide) (by decide) hY hl
    have s10 := LineUp_spec p.viewport 10 (by decide) (by decide) hY hl
    refine ⟨?_, ?_, ?_, ?_⟩
    · show (Option.map _ (p.viewport.LineUp 1)).isSome = true ↔ _
      rw [hu1.1]
      exact s1.1
    · show (Option.map _ (p.viewport.LineUp 10)).isSome = true ↔ _
      rw [hu10.1]
      exact s10.1
    · show Option.map _ (Option.map _ (p.viewport.LineUp 1)) = _ ↔ _
      rw [hu1.2]
      exact s1.2
    · show Option.map _ (Option.map _ (p.viewport.LineUp 10)) = _ ↔ _
      rw [hu10.2]
      exact s10.2
  · intro hY
    refine ⟨?_, ?_⟩
    · show Option.map _ (Option.map _ (p.viewport.LineDown 1)) = _ ↔ _
      rw [hd1.2]
      exact LineDown_offset p.viewport 1 (by decide) (by decide) hY
    · show Option.map _ (Option.map _ (p.viewport.LineDown 10)) = _ ↔ _
      rw [hd10.2]
      exact LineDown_offset p.viewport 10 (by decide) (by decide) hY

/-- The witness of C17 as amended: the pane that displays session 0 (four
lines, height 2) at offset 1 of the offsets 0 to 2: the four operations return,
with the offsets 0, 2, 0 and 2. -/
theorem C17_scroll_frame_witness :
    (PreviewPane.scrolledUp.ScrollDown.isSome = true ∧
      PreviewPane.scrolledUp.FastScrollDown.isSome = true) ∧
    PreviewPane.scrolledUp.ScrollUp.map (fun q => q.viewport.YOffset)
      = some (clamp (PreviewPane.scrolledUp.viewport.YOffset - 1) 0
          PreviewPane.scrolledUp.viewport.maxYOffset) ∧
    PreviewPane.scrolledUp.FastScrollDown.map (fun q => q.viewport.YOffset)
      = some (clamp (PreviewPane.scrolledUp.viewport.YOffset + 10) 0
          PreviewPane.scrolledUp.viewport.maxYOffset) ∧
    clamp (PreviewPane.scrolledUp.viewport.YOffset - 1) 0
      PreviewPane.scrolledUp.viewport.maxYOffset = 0 ∧
    clamp (PreviewPane.scrolledUp.viewport.YOffset + 10) 0
      PreviewPane.scrolledUp.viewport.maxYOffset = 2 :=
  ⟨(C17_scroll_frame PreviewPane.scrolledUp 0 (by decide)).1,
    (((C17_scroll_frame PreviewPane.scrolledUp 0 (by decide)).2.2.1 (by decide)
      (by decide)).2.2.1).mpr (by decide),
    (((C17_scroll_frame PreviewPane.scrolledUp 0 (by decide)).2.2.2 (by decide)).2).mpr
      (by decide),
    by decide, by decide⟩

/-- C18 fails on the code as stated.  The pane displayed session 0 (four lines)
at offset 2 and was resized to height -1; `UpdateContent(nil)` loads the
fallback screen of one line, the offset 2 is beyond it, `SetContent` calls
`GotoBottom`, and `visibleLines` evaluates `lines[2:1]`: the call panics
instead of ending in the fallback state. -/
theorem C18_fallback_panics_on_negative_height :
    (NewPreviewPane.run Render.plain
        [PaneOp.SetSize 80 2, PaneOp.UpdateContent (some Instance.fourLines),
         PaneOp.SetSize 80 (-1)]).map
      (fun p => (p.viewport.Height, p.viewport.YOffset)) = some (-1, 2) ∧
    (NewPreviewPane.run Render.plain
        [PaneOp.SetSize 80 2, PaneOp.UpdateContent (some Instance.fourLines),
         PaneOp.SetSize 80 (-1), PaneOp.UpdateContent none]).isSome = false := by
  decide

/-- C18 as amended: when `UpdateContent` returns with the fallback flag true
and a nil error, the argument is nil, or paused, or has a successful empty
preview and is not started.  Conversely, in each of these cases, with a
fallback screen whose lines can be counted: when the screen can be loaded into
the displayed viewport (the offset of the viewport is on a line of the screen,
or the last offset with the screen loaded lies within its lines, as it does
for every height that is not negative), `UpdateContent` returns with the
fallback flag true and a nil error; when it cannot, `UpdateContent` panics.
For a paused session no call is made on the session, so `Preview` is not
called; when `Preview` of a session that is not paused returns an error, the
pane is as it was and that error is returned; and whenever the call returns in
one of these cases, the viewport cache, the content cache and the active
session are as before. -/
theorem C18_fallback_and_errors (r : Render) (p : PreviewPane) (inst : Option Instance) :
    ((p.UpdateContent r inst).map (fun x => (x.1.previewState.fallback, x.2.1))
        = some (true, none) →
      (inst = none ∨ ∃ i, inst = some i ∧
        (i.Status = Status.Paused ∨ (i.Preview = Except.ok "" ∧ i.Started = false)))) ∧
    ((inst = none ∨ ∃ i, inst = some i ∧
        (i.Status = Status.Paused ∨ (i.Preview = Except.ok "" ∧ i.Started = false))) →
      (p.fallbackFits r inst →
        (p.UpdateContent r inst).map (fun x => (x.1.previewState.fallback, x.2.1))
          = some (true, none)) ∧
      (linesFit (some (fallbackScreen r p inst)) → ¬ p.fallbackFits r inst →
        p.UpdateContent r inst = none)) ∧
    (∀ i, inst = some i → i.Status = Status.Paused → p.fallbackFits r inst →
      (p.UpdateContent r inst).map (fun x => x.2.2) = some []) ∧
    (∀ i e, inst = some i → i.Status ≠ Status.Paused → i.Preview = Except.error e →
      p.UpdateContent r inst = some (p, some e, [InstanceCall.Preview])) ∧
    ((inst = none ∨ ∃ i, inst = some i ∧
        (i.Status = Status.Paused ∨ (∃ e, i.Preview = Except.error e) ∨
          (i.Preview = Except.ok "" ∧ i.Started = false))) →
      ∀ x, p.UpdateContent r inst = some x →
        x.1.instancePositions = p.instancePositions ∧
        x.1.instanceContent = p.instanceContent ∧
        x.1.activeInstance = p.activeInstance) := by
  have hfb : ∀ (message : String) (calls : List InstanceCall),
      fallbackScreen r p inst = r.place p.width p.height message →
      (p.fallbackFits r inst →
        ((p.setFallbackState r message).map (fun q => (q, (none : Option Err), calls))).map
            (fun x => (x.1.previewState.fallback, x.2.1)) = some (true, none) ∧
        ((p.setFallbackState r message).map (fun q => (q, (none : Option Err), calls))).map
            (fun x => x.2.2) = some calls) ∧
      (linesFit (some (fallbackScreen r p inst)) → ¬ p.fallbackFits r inst →
        (p.setFallbackState r message).map (fun q => (q, (none : Option Err), calls))
          = none) ∧
      (∀ x, (p.setFallbackState r message).map (fun q => (q, (none : Option Err), calls))
          = some x →
        x.1.instancePositions = p.instancePositions ∧
        x.1.instanceContent = p.instanceContent ∧
        x.1.activeInstance = p.activeInstance) := by
    intro message calls hscreen
    refine ⟨?_, ?_, ?_⟩
    · intro hfit
      unfold PreviewPane.fallbackFits at hfit
      rw [hscreen] at hfit
      obtain ⟨v, hv⟩ := (setFallbackState_eq r p message hfit.1).1 hfit.2
      rw [hv]
      exact ⟨rfl, rfl⟩
    · intro hl hnot
      unfold PreviewPane.fallbackFits at hnot
      rw [hscreen] at hl hnot
      rw [(setFallbackState_eq r p message hl).2 (fun hc => hnot ⟨hl, hc⟩)]
      rfl
    · intro x hx
      cases hq : p.setFallbackState r message with
      | none =>
          rw [hq] at hx
          cases hx
      | some q =>
          rw [hq] at hx
          simp only [Option.map_some'] at hx
          cases hx
          exact (setFallbackState_frame r p q message hq).2
  cases inst with
  | none =>
      have h := hfb "No agents running yet. Spin up a new instance with 'n' to get started!"
        [] rfl
      refine ⟨fun _ => Or.inl rfl, fun _ => ⟨fun hfit => (h.1 hfit).1, h.2.1⟩, ?_, ?_,
        fun _ => h.2.2⟩
      · intro i hi
        cases hi
      · intro i e hi
        cases hi
  | some i =>
      by_cases hp : i.Status = Status.Paused
      · have h := hfb (r.pausedMessage i.Branch) [] (by simp [fallbackScreen, hp])
        have hU : p.UpdateContent r (some i)
            = (p.setFallbackState r (r.pausedMessage i.Branch)).map
                (fun q => (q, none, [])) := by
          simp [PreviewPane.UpdateContent, hp]
        rw [hU]
        refine ⟨fun _ => Or.inr ⟨i, rfl, Or.inl hp⟩,
          fun _ => ⟨fun hfit => (h.1 hfit).1, h.2.1⟩,
          fun _ _ _ hfit => (h.1 hfit).2, ?_, fun _ => h.2.2⟩
        intro i1 e hi hnp
        cases hi
        exact absurd hp hnp
      · cases hprev : i.Preview with
        | error err =>
            have hU : p.UpdateContent r (some i) = some (p, some err, [InstanceCall.Preview]) := by
              simp [PreviewPane.UpdateContent, hp, hprev]
            rw [hU]
            refine ⟨?_, ?_, ?_, ?_, ?_⟩
            · intro h
              simp at h
            · intro h
              rcases h with h | ⟨i1, h, h1 | h1⟩
              · cases h
              · cases h
                exact absurd h1 hp
              · cases h
                rw [hprev] at h1
                cases h1.1
            · intro i1 h h1
              cases h
              exact absurd h1 hp
            · intro i1 e h _ he
              cases h
              rw [hprev] at he
              cases he
              rfl
            · intro _ x hx
              cases hx
              exact ⟨rfl, rfl, rfl⟩
        | ok content =>
            by_cases hc : content = "" ∧ i.Started = false
            · have h := hfb "Please enter a name for the instance."
                [InstanceCall.Preview, InstanceCall.Started] (by simp [fallbackScreen, hp])
              have hU : p.UpdateContent r (some i)
                  = (p.setFallbackState r "Please enter a name for the instance.").map
                      (fun q => (q, none, [InstanceCall.Preview, InstanceCall.Started])) := by
                simp [PreviewPane.UpdateContent, hp, hprev, hc]
              rw [hU]
              refine ⟨fun _ => Or.inr ⟨i, rfl, Or.inr ⟨by rw [hprev, hc.1], hc.2⟩⟩,
                fun _ => ⟨fun hfit => (h.1 hfit).1, h.2.1⟩, ?_, ?_, fun _ => h.2.2⟩
              · intro i1 hi h1
                cases hi
                exact absurd h1 hp
              · intro i1 e hi _ he
                cases hi
                rw [hprev] at he
                cases he
            · have hno : ¬ (i.Preview = Except.ok "" ∧ i.Started = false) := by
                intro h
                rw [hprev] at h
                have h1 : content = "" := by injection h.1
                exact hc ⟨h1, h.2⟩
              rw [UpdateContent_normal r p i content ⟨hp, hprev, hc⟩]
              refine ⟨?_, ?_, ?_, ?_, ?_⟩
              · intro h
                cases hiv : p.instanceViewport i.addr (r.enhanceContent content i) with
                | none =>
                    rw [hiv] at h
                    cases h
                | some v =>
                    rw [hiv] at h
                    simp [PreviewPane.displayed] at h
              · intro h
                rcases h with h | ⟨i1, h, h1 | h1⟩
                · cases h
                · cases h
                  exact absurd h1 hp
                · cases h
                  exact absurd h1 hno
              · intro i1 hi h1
                cases hi
                exact absurd h1 hp
              · intro i1 e hi _ he
                cases hi
                rw [hprev] at he
                cases he
              · intro h
                rcases h with h | ⟨i1, h, h1 | ⟨e, h1⟩ | h1⟩
                · cases h
                · cases h
                  exact absurd h1 hp
                · cases h
                  rw [hprev] at h1
                  cases h1
                · cases h
                  exact absurd h1 hno

/-- The witness of C18 as amended: the pane of height 2 that displays session
0, with a paused session, and with a session whose preview fails. -/
theorem C18_fallback_and_errors_witness :
    (PreviewPane.scrolledUp.UpdateContent Render.plain
        (some { addr := 0, Status := Status.Paused, Branch := "b", Preview := Except.ok "x",
                Started := true })).map (fun x => x.2.2) = some [] ∧
    PreviewPane.scrolledUp.UpdateContent Render.plain
        (some { addr := 0, Status := Status.Running, Branch := "b",
                Preview := Except.error (Err.msg "no pane"), Started := true })
      = some (PreviewPane.scrolledUp, some (Err.msg "no pane"), [InstanceCall.Preview]) :=
  ⟨(C18_fallback_and_errors Render.plain PreviewPane.scrolledUp
      (some { addr := 0, Status := Status.Paused, Branch := "b", Preview := Except.ok "x",
              Started := true })).2.2.1 _ rfl rfl ⟨by decide, Or.inr (by decide)⟩,
   (C18_fallback_and_errors Render.plain PreviewPane.scrolledUp
      (some { addr := 0, Status := Status.Running, Branch := "b",
              Preview := Except.error (Err.msg "no pane"), Started := true })).2.2.2.1 _
      (Err.msg "no pane") rfl (by decide) rfl⟩

/-- C19 fails on the code.  From `NewPreviewPane`: `SetSize(80, 2)`,
`UpdateContent` of session 0 (four lines), `UpdateContent(nil)`, `ScrollDown`:
every call returns.  The fallback text is loaded into the displayed viewport
while session 0 stays the active one, and `syncViewportToMap` writes that
viewport into the cache of session 0: the cached viewport of session 0 holds
the fallback text, the content cached for it is still its four lines. -/
theorem C19_fallback_viewport_cached :
    (NewPreviewPane.run Render.plain
        [PaneOp.SetSize 80 2, PaneOp.UpdateContent (some Instance.fourLines),
         PaneOp.UpdateContent none, PaneOp.ScrollDown]).map
      (fun p => (p.activeInstance, (p.instancePositions 0).map Viewport.content,
        p.instanceContent 0))
      = some (some 0,
          some (some "No agents running yet. Spin up a new instance with 'n' to get started!"),
          some "1\n2\n3\n4") := by
  decide

/-! ## The construction of the registry -/

/-- C20 fails on the code.  The storage holds what the manager itself wrote:
the project set saved when `A` was active, and the marker `B` written by a
later `SetActiveProject("B")`, which saves no project set.  `NewProjectManager`
on it loads `A` with its flag true, finds no active pointer to deactivate, and
activates `B`: the active pointer is `B` and both `A` and `B` are flagged
active. -/
theorem C20_stale_flag_survives_load :
    Storage.staleFlag.activeProject = "B" ∧
    Storage.staleFlag.projectsJSON
      = some [("A", { ID := "A", Name := "a", Path := "/a", LastAccessed := 1, IsActive := true,
                      Instances := [] }),
              ("B", { ID := "B", Name := "b", Path := "/b", LastAccessed := 2, IsActive := false,
                      Instances := [] })] ∧
    (NewProjectManager (Env.allSucceed 9 "") (some Storage.staleFlag)).toOption.map
        (fun pm => (pm.projects, pm.activeProject, (pm.heap 0).ID, (pm.heap 0).IsActive,
          (pm.heap 1).ID, (pm.heap 1).IsActive, pm.activeCount, pm.oneActive))
      = some ([("A", 0), ("B", 1)], some 1, "A", true, "B", true, 2, false) := by
  refine ⟨by decide, by decide, rfl⟩

end ClaudeSquad
